import Mathlib

/-!
# PurC interpreter core: `<match>`, variable resolution, observers and timers

A shallow embedding of `Source/PurC/interpreter/match.c`, of the resolution
functions, the observer table and the change handlers of
`Source/PurC/interpreter/var-mgr.c`, and of the coroutine-bound timer of
`Source/PurC/interpreter/timer.cpp`.

Conventions of the embedding:

* a C pointer that may be `NULL` is an `Option`; `PURC_VARIANT_INVALID` is `none`;
* a function that contains `PC_ASSERT` returns an `Option`: `none` is the abort of a
  failed assertion, `some r` is a normal return;
* the thread-local instance state (last error, reference counts, instance variables)
  is passed explicitly as a `pcinst`;
* a variant is identified by structural equality: heap variants carry their address;
* the stack passed to a function is the current stack of the instance, so the
  assertion `stack == purc_get_stack()` holds by construction, and a stack pointer
  or a `const char*` name that the embedding takes by value is not `NULL`;
* the cursor of a `<match>` frame, a pointer to a child node in C, is the index of
  that child in the child list of the element of the frame;
* calls into collaborators whose effect lies outside the embedded state
  (`pcintr_dispatch_message`, `pcintr_resume`, the hooks of `select_child`) are
  recorded in call order in a ghost trace that the function returns.
-/

namespace PurC

/-! ## The value system (external collaborator) -/

/-- A variant value. The constants `undefined`, `null` and the two booleans are
static singletons; a `ulongint` stands for its unsigned 64-bit value; every other
variant carries the address that identifies it. -/
inductive purc_variant where
  | undefined : purc_variant
  | null : purc_variant
  | boolean (b : Bool) : purc_variant
  | string (addr : Nat) (s : String) : purc_variant
  | ulongint (u : Nat) : purc_variant
  | other (addr : Nat) : purc_variant
deriving DecidableEq, Repr

/-- The C handle type: `none` is `PURC_VARIANT_INVALID`. -/
abbrev purc_variant_t := Option purc_variant

/-- Error codes set through `purc_set_error` and its variants. -/
inductive purc_error where
  | PURC_ERROR_OK
  | PURC_ERROR_OUT_OF_MEMORY
  | PURC_ERROR_INVALID_VALUE
  | PURC_ERROR_DUPLICATED
  | PURC_ERROR_NOT_IMPLEMENTED
  | PURC_ERROR_ARGUMENT_MISSED
  | PCVARIANT_ERROR_NOT_FOUND
  | PURC_ERROR_BAD_STDC_CALL
  | PURC_ERROR_TOO_SMALL_BUFF
  | PCRDR_ERROR_SERVER_REFUSED
deriving DecidableEq, Repr

/-- The kinds of change an observer waits for (`enum var_event_type`). -/
inductive var_event_type where
  | VAR_EVENT_TYPE_ATTACHED
  | VAR_EVENT_TYPE_DETACHED
  | VAR_EVENT_TYPE_DISPLACED
deriving DecidableEq, Repr

/-- An observer entry (`struct var_observe`). The stack that registered the observer
is identified by its address. -/
structure var_observe where
  name : String
  type : var_event_type
  stack : Nat
deriving DecidableEq, Repr

/-- A variable manager (`struct pcvarmgr_list`): the bindings of its object, in
insertion order, and the table of its observers, in registration order. -/
structure pcvarmgr_list where
  object : List (String × purc_variant)
  var_observers : List var_observe
deriving DecidableEq, Repr

/-- The per-instance (thread-local) state the interpreter functions read and write. -/
structure pcinst where
  last_error : purc_error
  refc : purc_variant → Nat
  inst_variables : Option pcvarmgr_list

/-- Modelled from the spec: `purc_variant_ref` of the external value system, which
adds one reference to the value. -/
def purc_variant_ref (inst : pcinst) (v : purc_variant) : pcinst :=
  { inst with refc := Function.update inst.refc v (inst.refc v + 1) }

/-- Modelled from the spec: `purc_variant_unref` of the external value system, which
releases one reference to the value. -/
def purc_variant_unref (inst : pcinst) (v : purc_variant) : pcinst :=
  { inst with refc := Function.update inst.refc v (inst.refc v - 1) }

/-- Modelled from the spec: the macro `PURC_VARIANT_SAFE_CLEAR(v)`, which releases the
reference held in a slot when the slot is valid and resets the slot to
`PURC_VARIANT_INVALID`. Returns the new instance state; the caller stores `none`. -/
def PURC_VARIANT_SAFE_CLEAR (inst : pcinst) (v : purc_variant_t) : pcinst :=
  match v with
  | none => inst
  | some x => purc_variant_unref inst x

/-- Embeds `purc_set_error` / `purc_set_error_with_info`. -/
def purc_set_error (inst : pcinst) (e : purc_error) : pcinst :=
  { inst with last_error := e }

/-- Embeds `purc_clr_error`. -/
def purc_clr_error (inst : pcinst) : pcinst :=
  { inst with last_error := purc_error.PURC_ERROR_OK }

/-- Modelled from the spec: `purc_variant_get_string_const`, which yields the
characters of a string variant and `NULL` for any other variant. -/
def purc_variant_get_string_const (v : purc_variant) : Option String :=
  match v with
  | purc_variant.string _ s => some s
  | _ => none

/-! ## The document tree (external collaborator) -/

/-- The node types of the vdom (`enum pcvdom_nodetype`). -/
inductive pcvdom_nodetype where
  | PCVDOM_NODE_DOCUMENT
  | PCVDOM_NODE_ELEMENT
  | PCVDOM_NODE_CONTENT
  | PCVDOM_NODE_COMMENT
deriving DecidableEq, Repr

/-- A child node as its parent sees it: its type and the address identifying it. -/
structure pcvdom_node where
  type : pcvdom_nodetype
  addr : Nat
deriving DecidableEq, Repr

/-- Interned strings. `0` is the invalid atom. -/
abbrev purc_atom_t := Nat

/-- The attribute operators; only plain assignment matters here. -/
inductive pchvml_attr_operator where
  | PCHVML_ATTRIBUTE_ASSIGNMENT
  | PCHVML_ATTRIBUTE_OTHER
deriving DecidableEq, Repr

/-- An attribute of an element as the attribute walk hands it to its callback:
the atom of its name, its operator, and its evaluated value. -/
structure pcvdom_attr where
  name : purc_atom_t
  op : pchvml_attr_operator
  val : purc_variant_t
deriving DecidableEq, Repr

/-- An element with the links the interpreter follows: its attributes, its child
list (first child, then next siblings), the variables bound in its scope, and its
parent element. -/
inductive pcvdom_element where
  | mk (tag_name : String) (attrs : List pcvdom_attr) (children : List pcvdom_node)
      (scope : Option pcvarmgr_list) (parent : Option pcvdom_element) : pcvdom_element
deriving Repr

/-- The attribute list of an element. -/
def pcvdom_element.attrs : pcvdom_element → List pcvdom_attr
  | pcvdom_element.mk _ a _ _ _ => a

/-- The child list of an element (`&element->node` and its children). -/
def pcvdom_element.children : pcvdom_element → List pcvdom_node
  | pcvdom_element.mk _ _ c _ _ => c

/-- The scoped variables of an element, if it has any. -/
def pcvdom_element.scope : pcvdom_element → Option pcvarmgr_list
  | pcvdom_element.mk _ _ _ s _ => s

/-- Embeds `pcvdom_element_parent`. -/
def pcvdom_element_parent : pcvdom_element → Option pcvdom_element
  | pcvdom_element.mk _ _ _ _ p => p

/-- Embeds `pcvdom_node_first_child` for the node of an element: the cursor of a
child is its index in the child list. -/
def pcvdom_node_first_child (element : pcvdom_element) : Option Nat :=
  if 0 < element.children.length then some 0 else none

/-- Embeds `pcvdom_node_next_sibling` for a child of the element. -/
def pcvdom_node_next_sibling (element : pcvdom_element) (curr : Nat) : Option Nat :=
  if curr + 1 < element.children.length then some (curr + 1) else none

/-! ## Frames and stacks -/

/-- The symbolic variables of a frame (`enum purc_symbol_var`). -/
inductive purc_symbol_var where
  | PURC_SYMBOL_VAR_QUESTION_MARK
  | PURC_SYMBOL_VAR_CARET
  | PURC_SYMBOL_VAR_AT_SIGN
  | PURC_SYMBOL_VAR_EXCLAMATION
  | PURC_SYMBOL_VAR_COLON
  | PURC_SYMBOL_VAR_EQUAL
  | PURC_SYMBOL_VAR_PERCENT_SIGN
deriving DecidableEq, Repr

/-- The context of a `<match>` frame (`struct ctxt_for_match`). The cursor `curr`
is the index of a child of the frame's element; `param` holds the parsed rule. -/
structure ctxt_for_match where
  curr : Option Nat
  for_var : purc_variant_t
  exclusively : purc_variant_t
  param : Option Nat
  is_exclusively : Bool
  matched : Bool
deriving DecidableEq, Repr

/-- The fields of `struct pcintr_stack_frame` the embedded functions touch. -/
structure pcintr_stack_frame where
  pos : Option pcvdom_element
  ctxt : Option ctxt_for_match
  symbol_vars : purc_symbol_var → purc_variant_t
  result_var : purc_variant_t
  result_from_child : purc_variant_t

/-- The document as far as resolution is concerned: its built-in variables. -/
structure purc_vdom where
  document_variables : pcvarmgr_list
deriving DecidableEq, Repr

/-- The execution stack. The head of `frames` is the bottom frame (the active
element); the frame after a frame is its parent. -/
structure pcintr_stack where
  frames : List pcintr_stack_frame
  except : Nat
  vdom : Option purc_vdom

/-- Embeds `pcintr_stack_get_bottom_frame`. -/
def pcintr_stack_get_bottom_frame (stack : pcintr_stack) : Option pcintr_stack_frame :=
  stack.frames.head?

/-- The externals of `executors/match_for.h`, taken as parameters: `match_for_parse`
yields the rule when it returns 0, `match_for_rule_eval` the outcome when it
returns 0. -/
structure match_for_api where
  match_for_parse : String → Option Nat
  match_for_rule_eval : Nat → purc_variant → Option Bool

/-! ## match.c -/

/-- Embeds `ctxt_for_match_destroy` for a non-null context: both attribute slots are
cleared, then the context is freed. -/
def ctxt_for_match_destroy (inst : pcinst) (ctxt : ctxt_for_match) : pcinst :=
  PURC_VARIANT_SAFE_CLEAR (PURC_VARIANT_SAFE_CLEAR inst ctxt.for_var) ctxt.exclusively

/-- The first half of `post_process` (lines 84-100): the rule and the outcome. -/
def post_process_eval (api : match_for_api) (frame : pcintr_stack_frame)
    (ctxt : ctxt_for_match) : Option (Option Nat × Bool) :=
  match ctxt.for_var with
  | none => some (ctxt.param, true)
  | some for_var =>
    match purc_variant_get_string_const for_var with
    | none => none
    | some for_value =>
      match api.match_for_parse for_value with
      | none => none
      | some rule =>
        match frame.symbol_vars purc_symbol_var.PURC_SYMBOL_VAR_QUESTION_MARK with
        | none => none
        | some parent_result =>
          match api.match_for_rule_eval rule parent_result with
          | none => none
          | some matched => some (some rule, matched)

/-- The middle of `post_process` (lines 102-107): the outcome is stored, and the
exclusive flag is raised when the `exclusively` slot is bound. -/
def post_process_flags (ctxt : ctxt_for_match) (param : Option Nat) (matched : Bool) :
    ctxt_for_match :=
  if ctxt.exclusively ≠ none then
    { ctxt with param := param, matched := matched, is_exclusively := true }
  else
    { ctxt with param := param, matched := matched }

/-- Embeds `post_process`. The result is the new instance state, the new frame and
the returned `int`. -/
def post_process (api : match_for_api) (inst : pcinst) (frame : pcintr_stack_frame) :
    Option (pcinst × pcintr_stack_frame × Int) :=
  match frame.ctxt with
  | none => none
  | some ctxt =>
    match post_process_eval api frame ctxt with
    | none => none
    | some (param, matched) =>
      if matched then
        match frame.symbol_vars purc_symbol_var.PURC_SYMBOL_VAR_QUESTION_MARK with
        | none => none
        | some parent_result =>
          some (purc_variant_ref (PURC_VARIANT_SAFE_CLEAR inst frame.result_var) parent_result,
            { frame with
              ctxt := some (post_process_flags ctxt param matched),
              result_var := some parent_result }, 0)
      else
        some (inst, { frame with ctxt := some (post_process_flags ctxt param matched) }, 0)

/-- Embeds `process_attr_for`. The result is the new instance state, the new frame
and the returned `int`; a frame without a context is a null dereference (`none`). -/
def process_attr_for (inst : pcinst) (frame : pcintr_stack_frame) (val : purc_variant_t) :
    Option (pcinst × pcintr_stack_frame × Int) :=
  match frame.ctxt with
  | none => none
  | some ctxt =>
    if ctxt.for_var ≠ none then
      some (purc_set_error inst purc_error.PURC_ERROR_DUPLICATED, frame, -1)
    else
      match val with
      | none => some (purc_set_error inst purc_error.PURC_ERROR_INVALID_VALUE, frame, -1)
      | some v =>
        some (purc_variant_ref inst v,
          { frame with ctxt := some { ctxt with for_var := some v } }, 0)

/-- Embeds `process_attr_exclusively`. -/
def process_attr_exclusively (inst : pcinst) (frame : pcintr_stack_frame)
    (val : purc_variant_t) : Option (pcinst × pcintr_stack_frame × Int) :=
  match frame.ctxt with
  | none => none
  | some ctxt =>
    if ctxt.exclusively ≠ none then
      some (purc_set_error inst purc_error.PURC_ERROR_DUPLICATED, frame, -1)
    else
      match val with
      | none => some (purc_set_error inst purc_error.PURC_ERROR_INVALID_VALUE, frame, -1)
      | some v =>
        some (purc_variant_ref inst v,
          { frame with ctxt := some { ctxt with exclusively := some v } }, 0)

/-- The keywords `attr_found` compares the attribute name with. -/
inductive pchvml_keyword_enum where
  | FOR
  | EXCLUSIVELY
  | EXCL
deriving DecidableEq, Repr

/-- Embeds `attr_found`. The keyword table `pchvml_keyword` is a parameter. -/
def attr_found (pchvml_keyword : pchvml_keyword_enum → purc_atom_t) (inst : pcinst)
    (frame : pcintr_stack_frame) (name : purc_atom_t) (val : purc_variant_t)
    (attr : pcvdom_attr) : Option (pcinst × pcintr_stack_frame × Int) :=
  if name = 0 then none
  else if attr.op ≠ pchvml_attr_operator.PCHVML_ATTRIBUTE_ASSIGNMENT then none
  else if pchvml_keyword pchvml_keyword_enum.FOR = name then
    process_attr_for inst frame val
  else if pchvml_keyword pchvml_keyword_enum.EXCLUSIVELY = name then
    process_attr_exclusively inst frame val
  else if pchvml_keyword pchvml_keyword_enum.EXCL = name then
    process_attr_exclusively inst frame val
  else
    some (purc_set_error inst purc_error.PURC_ERROR_NOT_IMPLEMENTED, frame, -1)

/-- Modelled from the spec: `pcintr_vdom_walk_attrs`, absent from the sources. It
walks the attributes of the element once, in order, hands each to the callback
(here `attr_found`) and stops at the first call that does not return 0. -/
def pcintr_vdom_walk_attrs (pchvml_keyword : pchvml_keyword_enum → purc_atom_t) :
    List pcvdom_attr → pcinst → pcintr_stack_frame →
      Option (pcinst × pcintr_stack_frame × Int)
  | [], inst, frame => some (inst, frame, 0)
  | attr :: rest, inst, frame =>
    match attr_found pchvml_keyword inst frame attr.name attr.val attr with
    | none => none
    | some (inst1, frame1, r) =>
      if r ≠ 0 then some (inst1, frame1, r)
      else pcintr_vdom_walk_attrs pchvml_keyword rest inst1 frame1

/-- Modelled from the spec: `pcintr_set_symbol_var_at_sign`, absent from the sources.
It binds the `@` symbol of the frame to the current target position `at_sign`, and
fails (non-zero) when that value cannot be made. -/
def pcintr_set_symbol_var_at_sign (at_sign : purc_variant_t) (inst : pcinst)
    (frame : pcintr_stack_frame) : pcinst × pcintr_stack_frame × Int :=
  match at_sign with
  | none => (inst, frame, -1)
  | some v =>
    let inst1 := PURC_VARIANT_SAFE_CLEAR inst
      (frame.symbol_vars purc_symbol_var.PURC_SYMBOL_VAR_AT_SIGN)
    (purc_variant_ref inst1 v,
      { frame with symbol_vars :=
          Function.update frame.symbol_vars purc_symbol_var.PURC_SYMBOL_VAR_AT_SIGN (some v) },
      0)

/-- What the environment decides during `after_pushed`: the keyword table, the
externals of the rule evaluator, the value bound to `@`, and whether `calloc`
succeeds. -/
structure match_env where
  pchvml_keyword : pchvml_keyword_enum → purc_atom_t
  api : match_for_api
  at_sign : purc_variant_t
  calloc_ok : Bool

/-- The context `calloc(1, sizeof(*ctxt))` returns: all fields zero. -/
def ctxt_for_match_zero : ctxt_for_match :=
  ⟨none, none, none, none, false, false⟩

/-- Embeds `after_pushed`. The result is the new instance state, the new stack and
the returned context pointer (`none` is `NULL`). -/
def after_pushed (env : match_env) (inst : pcinst) (stack : pcintr_stack)
    (pos : pcvdom_element) : Option (pcinst × pcintr_stack × Option ctxt_for_match) :=
  match stack.frames with
  | [] => none
  | frame :: up =>
    let frame1 := { frame with pos := some pos }
    match pcintr_set_symbol_var_at_sign env.at_sign inst frame1 with
    | (inst2, frame2, r_at) =>
      if r_at ≠ 0 then some (inst2, { stack with frames := frame2 :: up }, none)
      else if env.calloc_ok = false then
        some (purc_set_error inst2 purc_error.PURC_ERROR_OUT_OF_MEMORY,
          { stack with frames := frame2 :: up }, none)
      else
        let frame3 := { frame2 with ctxt := some ctxt_for_match_zero }
        match pcintr_vdom_walk_attrs env.pchvml_keyword pos.attrs inst2 frame3 with
        | none => none
        | some (inst4, frame4, r) =>
          if r ≠ 0 then some (inst4, { stack with frames := frame4 :: up }, none)
          else
            match post_process env.api (purc_clr_error inst4) frame4 with
            | none => none
            | some (inst5, frame5, r5) =>
              if r5 ≠ 0 then none
              else some (inst5, { stack with frames := frame5 :: up }, frame5.ctxt)

/-- Modelled from the spec: `purc_variant_make_boolean` of the external value system,
which returns the static boolean with one more reference. -/
def purc_variant_make_boolean (inst : pcinst) (b : Bool) : pcinst × purc_variant_t :=
  (purc_variant_ref inst (purc_variant.boolean b), some (purc_variant.boolean b))

/-- Embeds `on_popping`. The argument `ud` is compared with the context of the frame;
the parent of the bottom frame is the next frame of the stack
(`pcintr_stack_frame_get_parent`). -/
def on_popping (inst : pcinst) (stack : pcintr_stack) (ud : Option ctxt_for_match) :
    Option (pcinst × pcintr_stack × Bool) :=
  match stack.frames with
  | [] => none
  | frame :: up =>
    if ud ≠ frame.ctxt then none
    else
      match frame.pos with
      | none => none
      | some _ =>
        match frame.ctxt with
        | none => some (inst, stack, true)
        | some ctxt =>
          if ctxt.is_exclusively && ctxt.matched then
            match up with
            | [] => none
            | parent :: rest =>
              let inst1 := PURC_VARIANT_SAFE_CLEAR inst parent.result_from_child
              match purc_variant_make_boolean inst1 true with
              | (_, none) => none
              | (inst2, some v) =>
                some (ctxt_for_match_destroy inst2 ctxt,
                  { stack with frames :=
                      { frame with ctxt := none } ::
                        { parent with result_from_child := some v } :: rest },
                  true)
          else
            some (ctxt_for_match_destroy inst ctxt,
              { stack with frames := { frame with ctxt := none } :: up }, true)

/-- Embeds `on_element`: nothing is done. -/
def on_element (_frame : pcintr_stack_frame) (_element : pcvdom_node) : Option Unit :=
  some ()

/-- Embeds `on_content`: only asserts that the content node is not null. -/
def on_content (_frame : pcintr_stack_frame) (content : Option pcvdom_node) : Option Unit :=
  if content.isSome then some () else none

/-- Embeds `on_comment`: only asserts that the comment node is not null. -/
def on_comment (_frame : pcintr_stack_frame) (comment : Option pcvdom_node) : Option Unit :=
  if comment.isSome then some () else none

/-- The new value of the cursor (lines 325-337): the first child of the element when
the cursor is `NULL`, the next sibling of the cursor otherwise. -/
def select_child_advance (element : pcvdom_element) (curr : Option Nat) : Option Nat :=
  match curr with
  | none => pcvdom_node_first_child element
  | some c => pcvdom_node_next_sibling element c

/-- The loop of `select_child` from the label `again` (lines 324-366), for a frame
positioned on `element`. Each `goto again` is one recursive call; the first argument
bounds the number of passes and `select_child` supplies one more than the number of
children. The result is the new instance state, the new context, the returned
element, and a ghost trace: the nodes handed to `on_element`, `on_content` and
`on_comment` during the call, in call order. -/
def select_child_again (frame : pcintr_stack_frame) (except : Nat)
    (element : pcvdom_element) :
    Nat → pcinst → ctxt_for_match →
      Option (pcinst × ctxt_for_match × Option pcvdom_node × List pcvdom_node)
  | 0, _, _ => none
  | fuel + 1, inst, ctxt =>
    match select_child_advance element ctxt.curr with
    | none => some (purc_clr_error inst, { ctxt with curr := none }, none, [])
    | some c =>
      match element.children[c]? with
      | none => none
      | some node =>
        match node.type with
        | pcvdom_nodetype.PCVDOM_NODE_DOCUMENT => none
        | pcvdom_nodetype.PCVDOM_NODE_ELEMENT =>
          match on_element frame node with
          | none => none
          | some _ =>
            if except = 0 then some (inst, { ctxt with curr := some c }, some node, [node])
            else none
        | pcvdom_nodetype.PCVDOM_NODE_CONTENT =>
          match on_content frame (some node) with
          | none => none
          | some _ =>
            match select_child_again frame except element fuel inst
                { ctxt with curr := some c } with
            | none => none
            | some (inst2, ctxt2, ret, hooks) => some (inst2, ctxt2, ret, node :: hooks)
        | pcvdom_nodetype.PCVDOM_NODE_COMMENT =>
          match on_comment frame (some node) with
          | none => none
          | some _ =>
            match select_child_again frame except element fuel inst
                { ctxt with curr := some c } with
            | none => none
            | some (inst2, ctxt2, ret, hooks) => some (inst2, ctxt2, ret, node :: hooks)

/-- Embeds `select_child`. The result is the new instance state, the new stack, the
returned element (`none` is `NULL`) and the ghost trace of hook calls. The cursor
is an index into the children of `frame->pos`, so a frame without a position
aborts. -/
def select_child (inst : pcinst) (stack : pcintr_stack) (ud : Option ctxt_for_match) :
    Option (pcinst × pcintr_stack × Option pcvdom_node × List pcvdom_node) :=
  match stack.frames with
  | [] => none
  | frame :: up =>
    if ud ≠ frame.ctxt then none
    else
      match frame.ctxt with
      | none => none
      | some ctxt =>
        if ctxt.matched = false then some (inst, stack, none, [])
        else
          match frame.pos with
          | none => none
          | some element =>
            match select_child_again frame stack.except element
                (element.children.length + 1) inst ctxt with
            | none => none
            | some (inst1, ctxt1, ret, hooks) =>
              some (inst1, { stack with frames := { frame with ctxt := some ctxt1 } :: up },
                ret, hooks)

/-- The context pointer the walk engine passes as `ud`: the context of the bottom
frame. -/
def bottom_ctxt (stack : pcintr_stack) : Option ctxt_for_match :=
  match stack.frames with
  | [] => none
  | frame :: _ => frame.ctxt

/-- Successive calls of `select_child` on the same stack, as the walk engine makes
them: the returned elements in call order, the concatenated hook trace, and the
final state. -/
def select_child_calls :
    Nat → pcinst → pcintr_stack →
      Option (List (Option pcvdom_node) × List pcvdom_node × pcinst × pcintr_stack)
  | 0, inst, stack => some ([], [], inst, stack)
  | n + 1, inst, stack =>
    match select_child inst stack (bottom_ctxt stack) with
    | none => none
    | some (inst1, stack1, ret, hooks) =>
      match select_child_calls n inst1 stack1 with
      | none => none
      | some (rets, trace, inst2, stack2) => some (ret :: rets, hooks ++ trace, inst2, stack2)

/-! ## var-mgr.c: resolution of named variables -/

/-- Modelled from the spec: `purc_variant_object_get_by_ckey`, which yields the value
bound to the key in the object, or `PURC_VARIANT_INVALID`. -/
def purc_variant_object_get_by_ckey (object : List (String × purc_variant))
    (name : String) : purc_variant_t :=
  match object.find? (fun kv => kv.1 = name) with
  | none => none
  | some kv => some kv.2

/-- Embeds `pcvarmgr_list_get` for a non-null manager and name. -/
def pcvarmgr_list_get (inst : pcinst) (mgr : pcvarmgr_list) (name : String) :
    pcinst × purc_variant_t :=
  match purc_variant_object_get_by_ckey mgr.object name with
  | some v => (inst, some v)
  | none => (purc_set_error inst purc_error.PCVARIANT_ERROR_NOT_FOUND, none)

/-- Modelled from the spec: `pcintr_get_scope_variable`, absent from the sources. It
looks the name up among the variables bound in the scope of the element, if the
element has a scope. -/
def pcintr_get_scope_variable (inst : pcinst) (elem : pcvdom_element) (name : String) :
    pcinst × purc_variant_t :=
  match elem.scope with
  | none => (inst, none)
  | some scope => pcvarmgr_list_get inst scope name

/-- Modelled from the spec: `pcvdom_document_get_variable`, absent from the sources.
It looks the name up among the built-in variables of the document. -/
def pcvdom_document_get_variable (inst : pcinst) (vdom : purc_vdom) (name : String) :
    pcinst × purc_variant_t :=
  pcvarmgr_list_get inst vdom.document_variables name

/-- The recursion of `_find_named_scope_var` on a non-null element: the scope of the
element is tried first, then the function calls itself on the parent element. -/
def _find_named_scope_var_elem : pcinst → pcvdom_element → String →
    pcinst × purc_variant_t
  | inst, pcvdom_element.mk tag attrs children scope parent, name =>
    match pcintr_get_scope_variable inst
        (pcvdom_element.mk tag attrs children scope parent) name with
    | (inst1, some v) => (inst1, some v)
    | (inst1, none) =>
      match parent with
      | some p => _find_named_scope_var_elem inst1 p name
      | none => (purc_set_error inst1 purc_error.PCVARIANT_ERROR_NOT_FOUND, none)

/-- Embeds `_find_named_scope_var`: a null element is not found. -/
def _find_named_scope_var (inst : pcinst) (elem : Option pcvdom_element) (name : String) :
    pcinst × purc_variant_t :=
  match elem with
  | none => (purc_set_error inst purc_error.PCVARIANT_ERROR_NOT_FOUND, none)
  | some e => _find_named_scope_var_elem inst e name

/-- Embeds `_find_doc_buildin_var`. -/
def _find_doc_buildin_var (inst : pcinst) (vdom : Option purc_vdom) (name : String) :
    pcinst × purc_variant_t :=
  match vdom with
  | none => (purc_set_error inst purc_error.PCVARIANT_ERROR_NOT_FOUND, none)
  | some d =>
    match pcvdom_document_get_variable inst d name with
    | (inst1, some v) => (inst1, some v)
    | (inst1, none) => (purc_set_error inst1 purc_error.PCVARIANT_ERROR_NOT_FOUND, none)

/-- Embeds `_find_inst_var`; `pcinst_get_variables` reads the variable manager of the
instance, and a missing manager fails the assertion. -/
def _find_inst_var (inst : pcinst) (name : String) : Option (pcinst × purc_variant_t) :=
  match inst.inst_variables with
  | none => none
  | some varmgr =>
    match pcvarmgr_list_get inst varmgr name with
    | (inst1, some v) => some (inst1, some v)
    | (inst1, none) => some (purc_set_error inst1 purc_error.PCVARIANT_ERROR_NOT_FOUND, none)

/-- Embeds `pcintr_find_named_var` for a non-null stack and name. -/
def pcintr_find_named_var (inst : pcinst) (stack : pcintr_stack) (name : String) :
    Option (pcinst × purc_variant_t) :=
  match pcintr_stack_get_bottom_frame stack with
  | none => none
  | some frame =>
    match _find_named_scope_var inst frame.pos name with
    | (inst1, some v) => some (purc_clr_error inst1, some v)
    | (inst1, none) =>
      match _find_doc_buildin_var inst1 stack.vdom name with
      | (inst2, some v) => some (purc_clr_error inst2, some v)
      | (inst2, none) =>
        match _find_inst_var inst2 name with
        | none => none
        | some (inst3, some v) => some (purc_clr_error inst3, some v)
        | some (inst3, none) =>
          some (purc_set_error inst3 purc_error.PCVARIANT_ERROR_NOT_FOUND, none)

/-! ## var-mgr.c: symbolic variables -/

/-- Embeds `_to_symbol`. The enumerator `PURC_SYMBOL_VAR_MAX`, which the function
returns for any other character after setting NOT_FOUND, is `none`. -/
def _to_symbol (inst : pcinst) (symbol : Char) : pcinst × Option purc_symbol_var :=
  if symbol = '?' then (inst, some purc_symbol_var.PURC_SYMBOL_VAR_QUESTION_MARK)
  else if symbol = '^' then (inst, some purc_symbol_var.PURC_SYMBOL_VAR_CARET)
  else if symbol = '@' then (inst, some purc_symbol_var.PURC_SYMBOL_VAR_AT_SIGN)
  else if symbol = '!' then (inst, some purc_symbol_var.PURC_SYMBOL_VAR_EXCLAMATION)
  else if symbol = ':' then (inst, some purc_symbol_var.PURC_SYMBOL_VAR_COLON)
  else if symbol = '=' then (inst, some purc_symbol_var.PURC_SYMBOL_VAR_EQUAL)
  else if symbol = '%' then (inst, some purc_symbol_var.PURC_SYMBOL_VAR_PERCENT_SIGN)
  else (purc_set_error inst purc_error.PCVARIANT_ERROR_NOT_FOUND, none)

/-- Modelled from the spec: `pcintr_stack_frame_get_parent`, absent from the sources.
A frame pointer is the list made of the frame and its ancestors, nearest first;
`NULL` is the empty list, and the parent of a frame without parent is `NULL`. -/
def pcintr_stack_frame_get_parent (frame : List pcintr_stack_frame) :
    List pcintr_stack_frame :=
  frame.tail

/-- The loop `for (i = 0; i < number; i++) frame = pcintr_stack_frame_get_parent(frame)`
of `pcintr_get_symbolized_var` and `pcintr_get_numbered_var`. -/
def walk_parent_links : Nat → List pcintr_stack_frame → List pcintr_stack_frame
  | 0, frame => frame
  | number + 1, frame => walk_parent_links number (pcintr_stack_frame_get_parent frame)

/-- Embeds `pcintr_get_symbolized_var`. -/
def pcintr_get_symbolized_var (inst : pcinst) (stack : pcintr_stack) (number : Nat)
    (symbol : Char) : Option (pcinst × purc_variant_t) :=
  match _to_symbol inst symbol with
  | (_, none) => none
  | (inst1, some symbol_var) =>
    match walk_parent_links number stack.frames with
    | [] => some (inst1, none)
    | frame :: _ =>
      match frame.symbol_vars symbol_var with
      | none => none
      | some v => some (purc_clr_error inst1, some v)

/-- Embeds `pcintr_get_numbered_var`. -/
def pcintr_get_numbered_var (inst : pcinst) (stack : pcintr_stack) (number : Nat) :
    pcinst × purc_variant_t :=
  match walk_parent_links number stack.frames with
  | [] => (inst, none)
  | frame :: _ =>
    match frame.symbol_vars purc_symbol_var.PURC_SYMBOL_VAR_QUESTION_MARK with
    | some v => (purc_clr_error inst, some v)
    | none => (purc_set_error inst purc_error.PCVARIANT_ERROR_NOT_FOUND, none)

/-! ## var-mgr.c: observers -/

/-- The string `TYPE_STR_CHANGE`. -/
def TYPE_STR_CHANGE : String := "change"

/-- The string `TYPE_STR_ATTACHED`. -/
def TYPE_STR_ATTACHED : String := "attached"

/-- The string `TYPE_STR_DETACHED`. -/
def TYPE_STR_DETACHED : String := "detached"

/-- The string `TYPE_STR_DISPLACED`. -/
def TYPE_STR_DISPLACED : String := "displaced"

/-- The loop of `find_var_observe_idx` from index `i` on. -/
def find_var_observe_idx_from (name : String) (type : var_event_type) (stack : Nat) :
    List var_observe → Nat → Int
  | [], _ => -1
  | obs :: rest, i =>
    if name = obs.name ∧ obs.type = type ∧ obs.stack = stack then (i : Int)
    else find_var_observe_idx_from name type stack rest (i + 1)

/-- Embeds `find_var_observe_idx`. -/
def find_var_observe_idx (mgr : pcvarmgr_list) (name : String) (type : var_event_type)
    (stack : Nat) : Int :=
  find_var_observe_idx_from name type stack mgr.var_observers 0

/-- Embeds `find_var_observe`. -/
def find_var_observe (mgr : pcvarmgr_list) (name : String) (type : var_event_type)
    (stack : Nat) : Option var_observe :=
  if find_var_observe_idx mgr name type stack = -1 then none
  else mgr.var_observers[(find_var_observe_idx mgr name type stack).toNat]?

/-- A message handed to `pcintr_dispatch_message`: the target stack and the four
variants of the call. -/
structure dispatched_message where
  stack : Nat
  source : purc_variant_t
  type : purc_variant_t
  sub_type : purc_variant_t
  extra : purc_variant_t
deriving DecidableEq, Repr

/-- Modelled from the spec: `purc_variant_make_string` of the external value system.
The argument `alloc` is the address of the new string, or `none` when the
allocation fails. -/
def purc_variant_make_string (alloc : Option Nat) (s : String) : purc_variant_t :=
  match alloc with
  | none => none
  | some addr => some (purc_variant.string addr s)

/-- The loop the three handlers share (lines 118-127, 160-169, 202-211), with the
kind each compares with as a parameter. The result is the ghost trace of the
calls of `pcintr_dispatch_message`; a null `name` is a null dereference in
`strcmp` as soon as there is an entry to compare it with. -/
def mgr_handler_loop (source type sub_type : purc_variant_t) (name : Option String)
    (kind : var_event_type) : List var_observe → Option (List dispatched_message)
  | [] => some []
  | obs :: rest =>
    match name with
    | none => none
    | some n =>
      match mgr_handler_loop source type sub_type name kind rest with
      | none => none
      | some msgs =>
        if n = obs.name ∧ obs.type = kind then
          some (⟨obs.stack, source, type, sub_type, none⟩ :: msgs)
        else some msgs

/-- The body the three handlers share, with the sub-type string and the kind as
parameters. The result is the returned `bool`, the manager after the call and the
dispatched messages. -/
def mgr_handler (sub_type_str : String) (kind : var_event_type)
    (type_alloc sub_type_alloc : Option Nat) (source : purc_variant_t)
    (ctxt : Option pcvarmgr_list) (argv0 : purc_variant) :
    Option (Bool × Option pcvarmgr_list × List dispatched_message) :=
  match ctxt with
  | none => some (true, none, [])
  | some mgr =>
    match purc_variant_make_string type_alloc TYPE_STR_CHANGE with
    | none => some (false, some mgr, [])
    | some type =>
      match purc_variant_make_string sub_type_alloc sub_type_str with
      | none => some (false, some mgr, [])
      | some sub_type =>
        match mgr_handler_loop source (some type) (some sub_type)
            (purc_variant_get_string_const argv0) kind mgr.var_observers with
        | none => none
        | some msgs => some (true, some mgr, msgs)

/-- Embeds `mgr_grow_handler`. -/
def mgr_grow_handler (type_alloc sub_type_alloc : Option Nat) (source : purc_variant_t)
    (ctxt : Option pcvarmgr_list) (argv0 : purc_variant) :
    Option (Bool × Option pcvarmgr_list × List dispatched_message) :=
  mgr_handler TYPE_STR_ATTACHED var_event_type.VAR_EVENT_TYPE_ATTACHED type_alloc
    sub_type_alloc source ctxt argv0

/-- Embeds `mgr_shrink_handler`. -/
def mgr_shrink_handler (type_alloc sub_type_alloc : Option Nat) (source : purc_variant_t)
    (ctxt : Option pcvarmgr_list) (argv0 : purc_variant) :
    Option (Bool × Option pcvarmgr_list × List dispatched_message) :=
  mgr_handler TYPE_STR_DETACHED var_event_type.VAR_EVENT_TYPE_DETACHED type_alloc
    sub_type_alloc source ctxt argv0

/-- Embeds `mgr_change_handler`. -/
def mgr_change_handler (type_alloc sub_type_alloc : Option Nat) (source : purc_variant_t)
    (ctxt : Option pcvarmgr_list) (argv0 : purc_variant) :
    Option (Bool × Option pcvarmgr_list × List dispatched_message) :=
  mgr_handler TYPE_STR_DISPLACED var_event_type.VAR_EVENT_TYPE_DISPLACED type_alloc
    sub_type_alloc source ctxt argv0

/-- Embeds `pcvarmgr_list_add_observer`. The current stack `purc_get_stack()` is the
argument `stack`; `malloc_ok` and `push_ok` tell whether `malloc` and
`pcutils_array_push` succeed; the push appends the entry to the table. -/
def pcvarmgr_list_add_observer (malloc_ok push_ok : Bool) (stack : Nat) (inst : pcinst)
    (list : pcvarmgr_list) (name event : String) : pcinst × pcvarmgr_list × Bool :=
  match pcvarmgr_list_get inst list name with
  | (inst1, none) => (inst1, list, false)
  | (inst1, some _) =>
    let type : var_event_type :=
      if event = TYPE_STR_ATTACHED then var_event_type.VAR_EVENT_TYPE_ATTACHED
      else if event = TYPE_STR_DETACHED then var_event_type.VAR_EVENT_TYPE_DETACHED
      else var_event_type.VAR_EVENT_TYPE_ATTACHED
    match find_var_observe list name type stack with
    | some _ => (inst1, list, true)
    | none =>
      if malloc_ok = false then
        (purc_set_error inst1 purc_error.PURC_ERROR_OUT_OF_MEMORY, list, false)
      else if push_ok then
        (inst1, { list with var_observers := list.var_observers ++ [⟨name, type, stack⟩] },
          true)
      else (inst1, list, false)

/-- Embeds `pcvarmgr_list_remove_observer`; `pcutils_array_delete(array, idx, 1)`
erases the entry at the index. -/
def pcvarmgr_list_remove_observer (stack : Nat) (inst : pcinst) (mgr : pcvarmgr_list)
    (name event : String) : pcinst × pcvarmgr_list × Bool :=
  match pcvarmgr_list_get inst mgr name with
  | (inst1, none) => (inst1, mgr, false)
  | (inst1, some _) =>
    let type : var_event_type :=
      if event = TYPE_STR_ATTACHED then var_event_type.VAR_EVENT_TYPE_ATTACHED
      else if event = TYPE_STR_DETACHED then var_event_type.VAR_EVENT_TYPE_DETACHED
      else if event = TYPE_STR_DISPLACED then var_event_type.VAR_EVENT_TYPE_DISPLACED
      else var_event_type.VAR_EVENT_TYPE_ATTACHED
    let idx := find_var_observe_idx mgr name type stack
    if idx ≠ -1 then
      (inst1, { mgr with var_observers := mgr.var_observers.eraseIdx idx.toNat }, true)
    else (inst1, mgr, true)

/-! ## timer.cpp: the coroutine-bound timer -/

/-- The run states of a coroutine that `PurcTimer::fired` tests. -/
inductive pcintr_coroutine_state where
  | CO_STATE_READY
  | CO_STATE_RUN
  | CO_STATE_WAIT
deriving DecidableEq, Repr

/-- A message in the queue of the coroutine: the callback to run on delivery. The
timer posts `on_event_fire` with its own `m_data`. -/
inductive posted_msg where
  | on_event_fire
deriving DecidableEq, Repr

/-- The coroutine a timer is bound to (`m_coroutine`), as far as the timer reads and
writes it: its run state, the flag `stack.exited`, and its message queue. -/
structure timer_coroutine where
  state : pcintr_coroutine_state
  exited : Bool
  msgs : List posted_msg
deriving DecidableEq, Repr

/-- The fields of a `PurcTimer` and of its base classes: the in-flight counter, the
for-yielded flag, the interval, whether the timer is active and repeating
(`TimerBase`), and whether its cancellation hook is registered. -/
structure PurcTimer where
  m_fired : Int
  m_for_yielded : Bool
  m_interval : Nat
  active : Bool
  repeating : Bool
  cancel_registered : Bool
deriving DecidableEq, Repr

/-- What a fire of the timer sees: the timer, its coroutine, whether a coroutine is
current (`pcintr_get_coroutine() != NULL`) and whether the heap exists
(`pcintr_get_heap() != NULL`). -/
structure timer_world where
  timer : PurcTimer
  co : timer_coroutine
  current_co : Bool
  heap : Bool
deriving DecidableEq, Repr

/-- The calls `PurcTimer::fired` and `on_event_fire` make, recorded in call order as
a ghost trace. `set_current_co true` is `pcintr_set_current_co(m_coroutine)` and
`set_current_co false` is `pcintr_set_current_co(NULL)`. -/
inductive timer_call where
  | stop
  | unregister_cancel
  | set_current_co (co : Bool)
  | resume
  | post_msg
  | check_after_execution
  | processed
  | func
deriving DecidableEq, Repr

/-- Modelled from the spec: the effect of the absent `pcintr_resume` and
`pcintr_check_after_execution` on the run state of the coroutine, taken as
parameters. Draining the queue of the coroutine is a step of its own. -/
structure timer_env where
  pcintr_resume : pcintr_coroutine_state → pcintr_coroutine_state
  pcintr_check_after_execution : pcintr_coroutine_state → pcintr_coroutine_state

/-- Embeds `TimerBase::stop` as `PurcTimer::fired` uses it: the timer is no longer
active. -/
def PurcTimer.stop (t : PurcTimer) : PurcTimer :=
  { t with active := false }

/-- Modelled from the spec: `pcintr_post_msg_to_target`, absent from the sources,
which appends the message to the queue of the coroutine. -/
def pcintr_post_msg_to_target (co : timer_coroutine) (msg : posted_msg) : timer_coroutine :=
  { co with msgs := co.msgs ++ [msg] }

/-- Embeds `PurcTimer::processed`: the counter is decremented and must not become
negative. -/
def PurcTimer.processed (t : PurcTimer) : Option PurcTimer :=
  if 0 ≤ t.m_fired - 1 then some { t with m_fired := t.m_fired - 1 } else none

/-- Embeds `PurcTimer::fired`. The result is the new state and the calls made. -/
def PurcTimer.fired (env : timer_env) (w : timer_world) :
    Option (timer_world × List timer_call) :=
  if w.timer.m_fired ≠ 0 then some (w, [])
  else if w.co.exited then
    if w.timer.m_for_yielded then none
    else
      some ({ w with timer := PurcTimer.stop { w.timer with cancel_registered := false } },
        [timer_call.unregister_cancel, timer_call.stop])
  else if w.current_co then none
  else if w.heap = false then none
  else if w.co.state = pcintr_coroutine_state.CO_STATE_WAIT then
    if w.timer.m_for_yielded then
      some ({ w with
          timer := PurcTimer.stop { w.timer with m_fired := w.timer.m_fired + 1 },
          co := { w.co with state := env.pcintr_resume w.co.state },
          current_co := false },
        [timer_call.stop, timer_call.set_current_co true, timer_call.resume,
          timer_call.set_current_co false])
    else
      some ({ w with
          timer := { w.timer with m_fired := w.timer.m_fired + 1 },
          co := pcintr_post_msg_to_target w.co posted_msg.on_event_fire,
          current_co := false },
        [timer_call.set_current_co true, timer_call.post_msg,
          timer_call.set_current_co false])
  else if w.co.state ≠ pcintr_coroutine_state.CO_STATE_READY then none
  else if env.pcintr_check_after_execution w.co.state
      ≠ pcintr_coroutine_state.CO_STATE_READY then none
  else
    some ({ w with
        timer := { w.timer with m_fired := w.timer.m_fired + 1 },
        co := pcintr_post_msg_to_target w.co posted_msg.on_event_fire,
        current_co := false },
      [timer_call.set_current_co true, timer_call.post_msg,
        timer_call.check_after_execution, timer_call.set_current_co false])

/-- Embeds `pcintr_timer_processed` for a coroutine-bound timer. -/
def pcintr_timer_processed (w : timer_world) : Option timer_world :=
  match PurcTimer.processed w.timer with
  | none => none
  | some t => some { w with timer := t }

/-- Embeds `on_event_fire`: the fire is acknowledged, then the callback of the timer
runs. -/
def on_event_fire (w : timer_world) : Option (timer_world × List timer_call) :=
  match pcintr_timer_processed w with
  | none => none
  | some w1 => some (w1, [timer_call.processed, timer_call.func])

/-! ## Machine integers -/

/-- The conversion of an unsigned 64-bit value (`size_t`, `uintptr_t`) to `int`: the
low 32 bits, read in two's complement. -/
def int_of_uint64 (x : Nat) : Int :=
  if x % 2 ^ 32 < 2 ^ 31 then ((x % 2 ^ 32 : Nat) : Int)
  else ((x % 2 ^ 32 : Nat) : Int) - 2 ^ 32

/-- The difference of two unsigned 64-bit values, computed modulo `2 ^ 64`. -/
def uint64_sub (a b : Nat) : Nat :=
  (a % 2 ^ 64 + 2 ^ 64 - b % 2 ^ 64) % 2 ^ 64

/-! ## rwswrap.c -/

/-- The wrapper around a stream (`struct pchvml_rwswrap`). Characters are `wchar_t`
code points. The stream `rws` is the list of the characters it still holds, the
buffer `uc_list` is the list of the buffered characters, first out first; the
ghost field `stream_reads` counts the calls of `purc_rwstream_read_utf8_char`. -/
structure pchvml_rwswrap where
  rws : List Nat
  uc_list : List Nat
  stream_reads : Nat
deriving DecidableEq, Repr

/-- Embeds `pchvml_rwswrap_read_from_rwstream`. The absent
`purc_rwstream_read_utf8_char` is modelled from the spec: it takes the next
character of the stream, and leaves `uc` at 0 when there is none. -/
def pchvml_rwswrap_read_from_rwstream (wrap : pchvml_rwswrap) : pchvml_rwswrap × Nat :=
  match wrap.rws with
  | [] => ({ wrap with stream_reads := wrap.stream_reads + 1 }, 0)
  | uc :: rest => ({ wrap with rws := rest, stream_reads := wrap.stream_reads + 1 }, uc)

/-- Embeds `pchvml_rwswrap_read_from_uc_list`: the first entry of the list is
unlinked and its character returned. On an empty list the C code reads through
the list head, which is `none` here. -/
def pchvml_rwswrap_read_from_uc_list (wrap : pchvml_rwswrap) :
    Option (pchvml_rwswrap × Nat) :=
  match wrap.uc_list with
  | [] => none
  | uc :: rest => some ({ wrap with uc_list := rest }, uc)

/-- Embeds `pchvml_rwswrap_next_char`. -/
def pchvml_rwswrap_next_char (wrap : pchvml_rwswrap) : Option (pchvml_rwswrap × Nat) :=
  if wrap.uc_list = [] then some (pchvml_rwswrap_read_from_rwstream wrap)
  else pchvml_rwswrap_read_from_uc_list wrap

/-- The loop of `pchvml_rwswrap_buffer_chars` with `i + 1` passes left: the pass for
index `i` allocates an entry (`alloc_ok i` tells whether `pchvml_uc_new`
succeeds), stores `ucs[i]` and adds the entry at the head of the list. The third
component is the value returned from inside the loop, if any. -/
def pchvml_rwswrap_buffer_chars_loop (alloc_ok : Nat → Bool) (ucs : List Nat) :
    Nat → pcinst → pchvml_rwswrap → Option (pcinst × pchvml_rwswrap × Option Bool)
  | 0, inst, wrap => some (inst, wrap, none)
  | i + 1, inst, wrap =>
    if alloc_ok i = false then
      some (purc_set_error inst purc_error.PURC_ERROR_OUT_OF_MEMORY, wrap, some false)
    else
      match ucs[i]? with
      | none => none
      | some uc =>
        pchvml_rwswrap_buffer_chars_loop alloc_ok ucs i inst
          { wrap with uc_list := uc :: wrap.uc_list }

/-- Embeds `pchvml_rwswrap_buffer_chars`. The loop variable is `int i = nr_ucs - 1`,
the difference being computed in `size_t`; the function ends with `return 0`,
which is `false` in its result type `bool`. -/
def pchvml_rwswrap_buffer_chars (alloc_ok : Nat → Bool) (inst : pcinst)
    (wrap : pchvml_rwswrap) (ucs : List Nat) (nr_ucs : Nat) :
    Option (pcinst × pchvml_rwswrap × Bool) :=
  let i : Int := int_of_uint64 (uint64_sub nr_ucs 1)
  if i < 0 then some (inst, wrap, false)
  else
    match pchvml_rwswrap_buffer_chars_loop alloc_ok ucs (i.toNat + 1) inst wrap with
    | none => none
    | some (inst1, wrap1, some r) => some (inst1, wrap1, r)
    | some (inst1, wrap1, none) => some (inst1, wrap1, false)

/-! ## timer.cpp: the comparator of the listener map -/

/-- Embeds `listener_map_comp_by_key`: the keys are pointers read as `uintptr_t`,
and their difference is returned as `int`. -/
def listener_map_comp_by_key (key1 key2 : Nat) : Int :=
  int_of_uint64 (uint64_sub key1 key2)

/-! ## rdr.c: the page-group requests -/

/-- Modelled from the spec: the operation names `PCRDR_OPERATION_*` of the renderer
protocol that `rdr.c` uses for workspaces, plain windows, page groups and pages;
the header that defines them is absent, so they are distinct constants here. -/
inductive pcrdr_operation where
  | PCRDR_OPERATION_CREATEWORKSPACE
  | PCRDR_OPERATION_DESTROYWORKSPACE
  | PCRDR_OPERATION_UPDATEWORKSPACE
  | PCRDR_OPERATION_CREATEPLAINWINDOW
  | PCRDR_OPERATION_DESTROYPLAINWINDOW
  | PCRDR_OPERATION_UPDATEPLAINWINDOW
  | PCRDR_OPERATION_RESETPAGEGROUPS
  | PCRDR_OPERATION_ADDPAGEGROUPS
  | PCRDR_OPERATION_REMOVEPAGEGROUP
  | PCRDR_OPERATION_CREATEPAGE
  | PCRDR_OPERATION_DESTROYPAGE
  | PCRDR_OPERATION_UPDATEPAGE
deriving DecidableEq, Repr

/-- The targets of a request the page-group functions choose between. -/
inductive pcrdr_msg_target where
  | PCRDR_MSG_TARGET_SESSION
  | PCRDR_MSG_TARGET_WORKSPACE
deriving DecidableEq, Repr

/-- The element types of a request the page-group functions use. -/
inductive pcrdr_msg_element_type where
  | PCRDR_MSG_ELEMENT_TYPE_VOID
  | PCRDR_MSG_ELEMENT_TYPE_HANDLE
deriving DecidableEq, Repr

/-- The data of a request: nothing, a text, or a JSON object given by its members in
the order `object_set` adds them. -/
inductive pcrdr_data where
  | void
  | text (s : String)
  | json (members : List (String × String))
deriving DecidableEq, Repr

/-- A request as `pcintr_rdr_send_request_and_wait_response` receives it. The
element, a handle that the C code prints in hexadecimal, is kept as the handle. -/
structure pcrdr_request where
  target : pcrdr_msg_target
  target_value : Nat
  operation : pcrdr_operation
  element_type : pcrdr_msg_element_type
  element : Option Nat
  property : Option String
  data : pcrdr_data
deriving DecidableEq, Repr

/-- The fields of a response the functions read. -/
structure pcrdr_response where
  retCode : Nat
  resultValue : Nat
deriving DecidableEq, Repr

/-- Modelled from the spec: the status code `PCRDR_SC_OK` of the absent protocol
header; only its being one fixed code matters. -/
def PCRDR_SC_OK : Nat := 200

/-- What the environment decides during a request: whether the data variant and its
members can be allocated, the value `snprintf` returns, whether the message can
be made, and the response of the renderer (`none` when sending fails). -/
structure rdr_env where
  make_data_ok : Bool
  object_set_ok : Bool
  snprintf_n : Int
  make_msg_ok : Bool
  response : Option pcrdr_response

/-- Embeds `pcintr_rdr_send_request_and_wait_response`. The result is the new
instance state, the response, and the ghost trace of the requests handed to the
connection. -/
def pcintr_rdr_send_request_and_wait_response (env : rdr_env) (inst : pcinst)
    (req : pcrdr_request) : pcinst × Option pcrdr_response × List pcrdr_request :=
  if env.make_msg_ok = false then
    (purc_set_error inst purc_error.PURC_ERROR_OUT_OF_MEMORY, none, [])
  else
    match env.response with
    | none => (inst, none, [req])
    | some r => (inst, some r, [req])

/-- The target and target value every page-group function computes first. -/
def page_group_target (session workspace : Nat) : pcrdr_msg_target × Nat :=
  if workspace ≠ 0 then (pcrdr_msg_target.PCRDR_MSG_TARGET_WORKSPACE, workspace)
  else (pcrdr_msg_target.PCRDR_MSG_TARGET_SESSION, session)

/-- The end every `bool` request function shares: the response is checked and the
result returned. -/
def rdr_bool_result (sent : pcinst × Option pcrdr_response × List pcrdr_request) :
    pcinst × Bool × List pcrdr_request :=
  match sent with
  | (inst1, none, reqs) => (inst1, false, reqs)
  | (inst1, some r, reqs) =>
    if r.retCode ≠ PCRDR_SC_OK then
      (purc_set_error inst1 purc_error.PCRDR_ERROR_SERVER_REFUSED, false, reqs)
    else (inst1, true, reqs)

/-- The check of the value `snprintf` returned for a buffer of
`LEN_BUFF_LONGLONGINT` bytes: the error to set, if any. -/
def rdr_snprintf_error (n : Int) : Option purc_error :=
  if n < 0 then some purc_error.PURC_ERROR_BAD_STDC_CALL
  else if 128 ≤ n then some purc_error.PURC_ERROR_TOO_SMALL_BUFF
  else none

/-- Embeds `pcintr_rdr_reset_page_groups`. -/
def pcintr_rdr_reset_page_groups (env : rdr_env) (inst : pcinst) (session workspace : Nat)
    (html : String) : pcinst × Bool × List pcrdr_request :=
  let operation := pcrdr_operation.PCRDR_OPERATION_RESETPAGEGROUPS
  let tgt := page_group_target session workspace
  if env.make_data_ok = false then
    (purc_set_error inst purc_error.PURC_ERROR_OUT_OF_MEMORY, false, [])
  else
    rdr_bool_result (pcintr_rdr_send_request_and_wait_response env inst
      ⟨tgt.1, tgt.2, operation, pcrdr_msg_element_type.PCRDR_MSG_ELEMENT_TYPE_VOID, none,
        none, pcrdr_data.text html⟩)

/-- The members `pcintr_rdr_add_page_groups` sets in its data object: the id, then
each of title, class, style and level that is not null. -/
def add_page_groups_members (id : String) (title classes style level : Option String) :
    List (String × String) :=
  [("id", id)] ++ (title.map (fun v => ("title", v))).toList
    ++ (classes.map (fun v => ("class", v))).toList
    ++ (style.map (fun v => ("style", v))).toList
    ++ (level.map (fun v => ("level", v))).toList

/-- Embeds `pcintr_rdr_add_page_groups`; the result is a handle, 0 on failure. -/
def pcintr_rdr_add_page_groups (env : rdr_env) (inst : pcinst) (session workspace : Nat)
    (id : String) (title classes style level : Option String) :
    pcinst × Nat × List pcrdr_request :=
  let operation := pcrdr_operation.PCRDR_OPERATION_RESETPAGEGROUPS
  let tgt := page_group_target session workspace
  if env.make_data_ok = false then
    (purc_set_error inst purc_error.PURC_ERROR_OUT_OF_MEMORY, 0, [])
  else if env.object_set_ok = false then
    (purc_set_error inst purc_error.PURC_ERROR_OUT_OF_MEMORY, 0, [])
  else
    match pcintr_rdr_send_request_and_wait_response env inst
        ⟨tgt.1, tgt.2, operation, pcrdr_msg_element_type.PCRDR_MSG_ELEMENT_TYPE_VOID, none,
          none, pcrdr_data.json (add_page_groups_members id title classes style level)⟩ with
    | (inst1, none, reqs) => (inst1, 0, reqs)
    | (inst1, some r, reqs) =>
      if r.retCode ≠ PCRDR_SC_OK then
        (purc_set_error inst1 purc_error.PCRDR_ERROR_SERVER_REFUSED, 0, reqs)
      else (inst1, r.resultValue, reqs)

/-- Embeds `pcintr_rdr_destroy_page_groups`. -/
def pcintr_rdr_destroy_page_groups (env : rdr_env) (inst : pcinst)
    (session workspace page_group : Nat) : pcinst × Bool × List pcrdr_request :=
  let operation := pcrdr_operation.PCRDR_OPERATION_REMOVEPAGEGROUP
  let tgt := page_group_target session workspace
  match rdr_snprintf_error env.snprintf_n with
  | some e => (purc_set_error inst e, false, [])
  | none =>
    rdr_bool_result (pcintr_rdr_send_request_and_wait_response env inst
      ⟨tgt.1, tgt.2, operation, pcrdr_msg_element_type.PCRDR_MSG_ELEMENT_TYPE_HANDLE,
        some page_group, none, pcrdr_data.void⟩)

/-- Embeds `pcintr_rdr_update_page_groups`. -/
def pcintr_rdr_update_page_groups (env : rdr_env) (inst : pcinst)
    (session workspace page_group : Nat) (property : Option String) (value : String) :
    pcinst × Bool × List pcrdr_request :=
  let operation := pcrdr_operation.PCRDR_OPERATION_ADDPAGEGROUPS
  let tgt := page_group_target session workspace
  if env.make_data_ok = false then
    (purc_set_error inst purc_error.PURC_ERROR_OUT_OF_MEMORY, false, [])
  else
    match rdr_snprintf_error env.snprintf_n with
    | some e => (purc_set_error inst e, false, [])
    | none =>
      rdr_bool_result (pcintr_rdr_send_request_and_wait_response env inst
        ⟨tgt.1, tgt.2, operation, pcrdr_msg_element_type.PCRDR_MSG_ELEMENT_TYPE_HANDLE,
          some page_group, property, pcrdr_data.text value⟩)

/-! ## timer.cpp: the named-timer directory -/

/-- The string `TIMERS_STR_ID`. -/
def TIMERS_STR_ID : String := "id"

/-- The string `TIMERS_STR_INTERVAL`. -/
def TIMERS_STR_INTERVAL : String := "interval"

/-- The string `TIMERS_STR_ACTIVE`. -/
def TIMERS_STR_ACTIVE : String := "active"

/-- The string `TIMERS_STR_YES`. -/
def TIMERS_STR_YES : String := "yes"

/-- A member of the timers set: an object variant, identified by its address, with
its members. -/
structure timer_var where
  addr : Nat
  object : List (String × purc_variant)
deriving DecidableEq, Repr

/-- A change listener registered on a member (`struct pcvar_listener`): the variant
it listens to and its context, the address of a timer. -/
structure pcvar_listener where
  variant : Nat
  ctxt : Nat
deriving DecidableEq, Repr

/-- The two maps of `struct pcintr_timers`: from id to timer and from member to
listener. A timer is the address of its object. -/
structure pcintr_timers where
  timers_map : String → Option Nat
  listener_map : Nat → Option pcvar_listener

/-- The state the handlers of the directory work on: the instance state, the maps
`stack->timers`, and the timer objects that are alive, by address. -/
structure timers_world where
  inst : pcinst
  timers : pcintr_timers
  timer_objs : Nat → Option PurcTimer

/-- The calls the handlers make that create, destroy or drive a timer or a listener,
recorded in call order as a ghost trace. -/
inductive timers_call where
  | create (timer : Nat)
  | destroy (timer : Nat)
  | set_interval (timer : Nat) (interval : Nat)
  | start (timer : Nat)
  | stop (timer : Nat)
  | register_listener (variant timer : Nat)
  | revoke_listener (variant timer : Nat)
deriving DecidableEq, Repr

/-- What the environment decides while a handler runs: whether there is a current
stack and a current coroutine, the address `new` returns (`none` when it
fails), the indeterminate interval of a timer just constructed, and whether the
insertion into the map and the registration of a listener succeed. -/
structure timers_env where
  stack_ok : Bool
  coroutine_ok : Bool
  new_timer : Option Nat
  new_interval : Nat
  add_ok : Bool
  register_ok : Bool

/-- Modelled from the spec: `purc_variant_cast_to_ulongint` without forcing, on a
result initialised to 0: the value of an unsigned long integer, and 0 for an
invalid or other variant. -/
def purc_variant_cast_to_ulongint (v : purc_variant_t) : Nat :=
  match v with
  | some (purc_variant.ulongint u) => u % 2 ^ 64
  | _ => 0

/-- A method call on the timer at an address; a dead address is a dangling pointer
(`none`). -/
def timer_modify (w : timers_world) (timer : Nat) (f : PurcTimer → PurcTimer) :
    Option timers_world :=
  match w.timer_objs timer with
  | none => none
  | some t => some { w with timer_objs := Function.update w.timer_objs timer (some (f t)) }

/-- Embeds `pcintr_timer_set_interval` for a non-null timer. The parameter is a
`uint32_t`, so the argument of the call is reduced modulo `2 ^ 32`. -/
def pcintr_timer_set_interval (w : timers_world) (timer : Nat) (interval : Nat) :
    Option timers_world :=
  timer_modify w timer (fun t => { t with m_interval := interval % 2 ^ 32 })

/-- Embeds `pcintr_timer_get_interval` for a non-null timer. -/
def pcintr_timer_get_interval (w : timers_world) (timer : Nat) : Option Nat :=
  match w.timer_objs timer with
  | none => none
  | some t => some t.m_interval

/-- Embeds `pcintr_timer_start` for a non-null timer: `startRepeating`. -/
def pcintr_timer_start (w : timers_world) (timer : Nat) : Option timers_world :=
  timer_modify w timer (fun t => { t with active := true, repeating := true })

/-- Embeds `pcintr_timer_stop` for a non-null timer. -/
def pcintr_timer_stop (w : timers_world) (timer : Nat) : Option timers_world :=
  timer_modify w timer PurcTimer.stop

/-- Embeds `pcintr_timer_is_active` for a non-null timer. -/
def pcintr_timer_is_active (w : timers_world) (timer : Nat) : Option Bool :=
  match w.timer_objs timer with
  | none => none
  | some t => some t.active

/-- Embeds `pcintr_timer_create` with `raw` false and `for_yielded` false, as
`get_inner_timer` calls it: a `PurcTimer` is constructed with no fire in flight,
not active, its cancellation hook registered; the constructor asserts that there
is a current coroutine. -/
def pcintr_timer_create (env : timers_env) (w : timers_world) :
    Option (timers_world × Option Nat) :=
  match env.new_timer with
  | none =>
    some ({ w with inst := purc_set_error w.inst purc_error.PURC_ERROR_OUT_OF_MEMORY }, none)
  | some addr =>
    if env.coroutine_ok = false then none
    else
      some ({ w with
          timer_objs := Function.update w.timer_objs addr
            (some ⟨0, false, env.new_interval, false, false, true⟩) },
        some addr)

/-- Embeds `pcintr_timer_destroy` for a non-null coroutine-bound timer: the
destructor asserts that no fire is in flight, unregisters the cancellation hook
and stops the timer; then the object is gone. -/
def pcintr_timer_destroy (w : timers_world) (timer : Nat) : Option timers_world :=
  match w.timer_objs timer with
  | none => none
  | some t =>
    if t.m_fired ≠ 0 then none
    else some { w with timer_objs := Function.update w.timer_objs timer none }

/-- Embeds `find_timer`. -/
def find_timer (timers : pcintr_timers) (id : String) : Option Nat :=
  timers.timers_map id

/-- Embeds `add_timer`; `add_ok` tells whether
`pcutils_map_find_replace_or_insert` succeeds. -/
def add_timer (add_ok : Bool) (timers : pcintr_timers) (id : String) (timer : Nat) :
    pcintr_timers × Bool :=
  if add_ok then
    ({ timers with timers_map := Function.update timers.timers_map id (some timer) }, true)
  else (timers, false)

/-- Embeds `remove_timer`. The absent `pcutils_map_erase` is modelled from the spec:
it removes the entry of the key and frees its value with the callback the map
was created with, `map_free_val`, which destroys the timer. -/
def remove_timer (w : timers_world) (id : String) :
    Option (timers_world × List timers_call) :=
  match w.timers.timers_map id with
  | none => some (w, [])
  | some timer =>
    match pcintr_timer_destroy
        { w with
          timers :=
            { w.timers with timers_map := Function.update w.timers.timers_map id none } }
        timer with
    | none => none
    | some w1 => some (w1, [timers_call.stop timer, timers_call.destroy timer])

/-- Embeds `get_inner_timer`. The result is the new state, the timer (`none` is
`NULL`) and the calls made. An id that is not a string is a null key (`none`). -/
def get_inner_timer (env : timers_env) (w : timers_world) (timer_var : timer_var) :
    Option (timers_world × Option Nat × List timers_call) :=
  if env.stack_ok = false then none
  else
    match purc_variant_object_get_by_ckey timer_var.object TIMERS_STR_ID with
    | none =>
      some ({ w with inst := purc_set_error w.inst purc_error.PURC_ERROR_INVALID_VALUE },
        none, [])
    | some id =>
      match purc_variant_get_string_const id with
      | none => none
      | some idstr =>
        match find_timer w.timers idstr with
        | some timer => some (w, some timer, [])
        | none =>
          match pcintr_timer_create env w with
          | none => none
          | some (w1, none) => some (w1, none, [])
          | some (w1, some timer) =>
            match add_timer env.add_ok w1.timers idstr timer with
            | (_, false) =>
              match pcintr_timer_destroy w1 timer with
              | none => none
              | some w2 =>
                some (w2, none, [timers_call.create timer, timers_call.destroy timer])
            | (timers1, true) =>
              some ({ w1 with timers := timers1 }, some timer, [timers_call.create timer])

/-- Embeds `destroy_inner_timer`. -/
def destroy_inner_timer (w : timers_world) (timer_var : timer_var) :
    Option (timers_world × List timers_call) :=
  match purc_variant_object_get_by_ckey timer_var.object TIMERS_STR_ID with
  | none => some (w, [])
  | some id =>
    match purc_variant_get_string_const id with
    | none => none
    | some idstr =>
      match find_timer w.timers idstr with
      | none => some (w, [])
      | some _ => remove_timer w idstr

/-- Embeds `listener_map_set_listener`. The map is taken to find the entry of
exactly the key it is asked for. -/
def listener_map_set_listener (timers : pcintr_timers) (obj : Nat)
    (listener : pcvar_listener) : pcintr_timers × Int :=
  match timers.listener_map obj with
  | some _ => (timers, -1)
  | none =>
    ({ timers with listener_map := Function.update timers.listener_map obj (some listener) },
      0)

/-- Embeds `listener_map_remove_listener`. -/
def listener_map_remove_listener (timers : pcintr_timers) (obj : Nat) :
    pcintr_timers × List timers_call :=
  match timers.listener_map obj with
  | none => (timers, [])
  | some listener =>
    ({ timers with listener_map := Function.update timers.listener_map obj none },
      [timers_call.revoke_listener obj listener.ctxt])

/-- Modelled from the spec: `purc_variant_register_post_listener` for the change
operation with `timer_listener_handler`, which yields a listener bound to the
variant and the context, or `NULL`. -/
def purc_variant_register_post_listener (register_ok : Bool) (variant timer : Nat) :
    Option pcvar_listener :=
  if register_ok then some ⟨variant, timer⟩ else none

/-- Embeds `is_euqal`; a variant that is not a string gives a null pointer to
`strcmp` (`none`). -/
def is_euqal (var : purc_variant_t) (comp : String) : Option Bool :=
  match var with
  | none => some false
  | some v =>
    match purc_variant_get_string_const v with
    | none => none
    | some str => some (decide (str = comp))

/-- The first half of the update `timers_set_change` and `timer_listener_handler`
share (lines 482-492 and 591-601): a valid interval is cast and set when it
differs from the old one, the comparison being made in 64 bits; an invalid one
clears the last error. -/
def timer_update_interval (w : timers_world) (timer : Nat) (interval : purc_variant_t) :
    Option (timers_world × List timers_call) :=
  match interval with
  | some _ =>
    match pcintr_timer_get_interval w timer with
    | none => none
    | some oval =>
      if oval ≠ purc_variant_cast_to_ulongint interval then
        match pcintr_timer_set_interval w timer (purc_variant_cast_to_ulongint interval) with
        | none => none
        | some w1 =>
          some (w1,
            [timers_call.set_interval timer (purc_variant_cast_to_ulongint interval % 2 ^ 32)])
      else some (w, [])
  | none => some ({ w with inst := purc_clr_error w.inst }, [])

/-- The second half of that update (lines 493-508 and 602-617): the next activity is
the current one unless `active` is valid, and the timer is started or stopped
accordingly. -/
def timer_update_active (w : timers_world) (timer : Nat) (active : purc_variant_t) :
    Option (timers_world × List timers_call) :=
  match pcintr_timer_is_active w timer with
  | none => none
  | some is_active =>
    match (match active with
      | none => some is_active
      | some _ => is_euqal active TIMERS_STR_YES) with
    | none => none
    | some next_active =>
      if next_active then
        match pcintr_timer_start w timer with
        | none => none
        | some w1 => some (w1, [timers_call.start timer])
      else
        match pcintr_timer_stop w timer with
        | none => none
        | some w1 => some (w1, [timers_call.stop timer])

/-- The update of interval, then of activity, that `timers_set_change` and
`timer_listener_handler` apply to the timer. -/
def timer_update (w : timers_world) (timer : Nat) (interval active : purc_variant_t) :
    Option (timers_world × List timers_call) :=
  match timer_update_interval w timer interval with
  | none => none
  | some (w1, calls1) =>
    match timer_update_active w1 timer active with
    | none => none
    | some (w2, calls2) => some (w2, calls1 ++ calls2)

/-- Embeds `timer_listener_handler`: `source` is the member that changed and `ctxt`
the timer the listener was registered with. -/
def timer_listener_handler (w : timers_world) (source : timer_var) (ctxt : Nat) :
    Option (timers_world × Bool × List timers_call) :=
  match timer_update w ctxt
      (purc_variant_object_get_by_ckey source.object TIMERS_STR_INTERVAL)
      (purc_variant_object_get_by_ckey source.object TIMERS_STR_ACTIVE) with
  | none => none
  | some (w1, calls) => some (w1, true, calls)

/-- Embeds `timers_set_grow`; `argv0` is the member added to the set. -/
def timers_set_grow (env : timers_env) (w : timers_world) (argv0 : timer_var) :
    Option (timers_world × Bool × List timers_call) :=
  match get_inner_timer env w argv0 with
  | none => none
  | some (w1, none, calls1) => some (w1, false, calls1)
  | some (w1, some timer, calls1) =>
    match purc_variant_register_post_listener env.register_ok argv0.addr timer with
    | none => some (w1, false, calls1)
    | some listener =>
      match pcintr_timer_set_interval
          { w1 with timers := (listener_map_set_listener w1.timers argv0.addr listener).1 }
          timer
          (purc_variant_cast_to_ulongint
            (purc_variant_object_get_by_ckey argv0.object TIMERS_STR_INTERVAL)) with
      | none => none
      | some w2 =>
        match is_euqal (purc_variant_object_get_by_ckey argv0.object TIMERS_STR_ACTIVE)
            TIMERS_STR_YES with
        | none => none
        | some false =>
          some (w2, true,
            calls1 ++ [timers_call.register_listener argv0.addr timer,
              timers_call.set_interval timer
                (purc_variant_cast_to_ulongint
                  (purc_variant_object_get_by_ckey argv0.object TIMERS_STR_INTERVAL)
                  % 2 ^ 32)])
        | some true =>
          match pcintr_timer_start w2 timer with
          | none => none
          | some w3 =>
            some (w3, true,
              calls1 ++ [timers_call.register_listener argv0.addr timer,
                timers_call.set_interval timer
                  (purc_variant_cast_to_ulongint
                    (purc_variant_object_get_by_ckey argv0.object TIMERS_STR_INTERVAL)
                    % 2 ^ 32),
                timers_call.start timer])

/-- Embeds `timers_set_shrink`; `argv0` is the member removed from the set. -/
def timers_set_shrink (w : timers_world) (argv0 : timer_var) :
    Option (timers_world × Bool × List timers_call) :=
  match destroy_inner_timer
      { w with timers := (listener_map_remove_listener w.timers argv0.addr).1 } argv0 with
  | none => none
  | some (w1, calls) =>
    some (w1, true, (listener_map_remove_listener w.timers argv0.addr).2 ++ calls)

/-- Embeds `timers_set_change`; `argv0` is the old value of the member and `argv1`
the new one. -/
def timers_set_change (env : timers_env) (w : timers_world) (argv0 argv1 : timer_var) :
    Option (timers_world × Bool × List timers_call) :=
  match get_inner_timer env w argv1 with
  | none => none
  | some (w1, none, calls1) => some (w1, false, calls1)
  | some (w1, some timer, calls1) =>
    match purc_variant_register_post_listener env.register_ok argv1.addr timer with
    | none =>
      some ({ w1 with timers := (listener_map_remove_listener w1.timers argv0.addr).1 },
        false, calls1 ++ (listener_map_remove_listener w1.timers argv0.addr).2)
    | some listener =>
      match timer_update
          { w1 with
            timers :=
              (listener_map_set_listener
                (listener_map_remove_listener w1.timers argv0.addr).1 argv1.addr listener).1 }
          timer
          (purc_variant_object_get_by_ckey argv1.object TIMERS_STR_INTERVAL)
          (purc_variant_object_get_by_ckey argv1.object TIMERS_STR_ACTIVE) with
      | none => none
      | some (w2, calls2) =>
        some (w2, true,
          calls1 ++ (listener_map_remove_listener w1.timers argv0.addr).2
            ++ [timers_call.register_listener argv1.addr timer] ++ calls2)

/-! ## Definitions used to state the properties -/

/-- The cursor after `k` children have been visited: `NULL` before the first. -/
def cursor_of (k : Nat) : Option Nat :=
  if k = 0 then none else some (k - 1)

/-- The test `select_child` makes on the type of a node: is it an element? -/
def is_element_node (n : pcvdom_node) : Bool :=
  decide (n.type = pcvdom_nodetype.PCVDOM_NODE_ELEMENT)

/-- The element-type children of an element, in document order. -/
def element_children (element : pcvdom_element) : List pcvdom_node :=
  element.children.filter is_element_node

/-- A node the loop skips: a content or a comment node. -/
def skipped_node (n : pcvdom_node) : Prop :=
  n.type = pcvdom_nodetype.PCVDOM_NODE_CONTENT ∨ n.type = pcvdom_nodetype.PCVDOM_NODE_COMMENT

/-- The two attribute slots of the context. -/
inductive match_slot where
  | for_slot
  | exclusively_slot
deriving DecidableEq, Repr

/-- The slot an attribute name selects in `attr_found`: `for` has its own slot,
`exclusively` and `excl` share one, any other name has none. -/
def attr_slot (pchvml_keyword : pchvml_keyword_enum → purc_atom_t) (name : purc_atom_t) :
    Option match_slot :=
  if pchvml_keyword pchvml_keyword_enum.FOR = name then some match_slot.for_slot
  else if pchvml_keyword pchvml_keyword_enum.EXCLUSIVELY = name then
    some match_slot.exclusively_slot
  else if pchvml_keyword pchvml_keyword_enum.EXCL = name then
    some match_slot.exclusively_slot
  else none

/-- The slot each of the three attribute keywords binds. -/
def keyword_slot : pchvml_keyword_enum → match_slot
  | pchvml_keyword_enum.FOR => match_slot.for_slot
  | pchvml_keyword_enum.EXCLUSIVELY => match_slot.exclusively_slot
  | pchvml_keyword_enum.EXCL => match_slot.exclusively_slot

/-- The value bound in a slot of the context. -/
def slot_value (ctxt : ctxt_for_match) : match_slot → purc_variant_t
  | match_slot.for_slot => ctxt.for_var
  | match_slot.exclusively_slot => ctxt.exclusively

/-- The context with a value stored in a slot. -/
def slot_store (ctxt : ctxt_for_match) (v : purc_variant) : match_slot → ctxt_for_match
  | match_slot.for_slot => { ctxt with for_var := some v }
  | match_slot.exclusively_slot => { ctxt with exclusively := some v }

/-- The chain the spec calls lexical: the element, its parent, its grandparent, and
so on up to the root. -/
def lexical_chain : pcvdom_element → List pcvdom_element
  | pcvdom_element.mk tag attrs children scope none =>
    [pcvdom_element.mk tag attrs children scope none]
  | pcvdom_element.mk tag attrs children scope (some p) =>
    pcvdom_element.mk tag attrs children scope (some p) :: lexical_chain p

/-- The value an element binds to the name in its own scope, if any. -/
def scope_binding (elem : pcvdom_element) (name : String) : purc_variant_t :=
  match elem.scope with
  | none => none
  | some scope => purc_variant_object_get_by_ckey scope.object name

/-- The spec's lexical scope: the binding of the nearest element of the chain from
the position upward that binds the name. -/
def lexical_binding (pos : Option pcvdom_element) (name : String) : purc_variant_t :=
  match pos with
  | none => none
  | some elem => (lexical_chain elem).findSome? (fun x => scope_binding x name)

/-- The spec's document scope: the built-in binding of the owning document. -/
def document_binding (vdom : Option purc_vdom) (name : String) : purc_variant_t :=
  match vdom with
  | none => none
  | some d => purc_variant_object_get_by_ckey d.document_variables.object name

/-- The spec's instance scope: the binding among the variables of the instance. -/
def instance_binding (inst : pcinst) (name : String) : purc_variant_t :=
  match inst.inst_variables with
  | none => none
  | some mgr => purc_variant_object_get_by_ckey mgr.object name

/-- The resolution order as the spec words it: lexical chain, then document, then
instance; the first scope that binds the name wins. -/
def resolve (inst : pcinst) (stack : pcintr_stack) (pos : Option pcvdom_element)
    (name : String) : purc_variant_t :=
  match lexical_binding pos name with
  | some v => some v
  | none =>
    match document_binding stack.vdom name with
    | some v => some v
    | none => instance_binding inst name

/-- The instance state expected after a frame is popped: untouched when the frame has
no context; otherwise the context has been destroyed, so the references of its
two slots are released, after the parent was handed the boolean true when the
context is exclusive and matched. -/
def instance_after_popping (inst : pcinst) (ctxt : Option ctxt_for_match)
    (up : List pcintr_stack_frame) : pcinst :=
  match ctxt, up with
  | none, _ => inst
  | some c, [] => ctxt_for_match_destroy inst c
  | some c, parent :: _ =>
    if c.is_exclusively = true ∧ c.matched = true then
      ctxt_for_match_destroy
        (purc_variant_ref (PURC_VARIANT_SAFE_CLEAR inst parent.result_from_child)
          (purc_variant.boolean true)) c
    else ctxt_for_match_destroy inst c

/-- The number of references a context holds on a variant: one for each of its two
attribute slots that is bound to the variant. -/
def slot_references (ctxt : ctxt_for_match) (v : purc_variant) : Nat :=
  (if ctxt.for_var = some v then 1 else 0) + (if ctxt.exclusively = some v then 1 else 0)

/-- The reference count of a variant expected after a frame is popped, written out
count by count: unchanged when the frame has no context; otherwise, when the
context is exclusive and matched, the old `result_from_child` of the parent has
lost one reference and the boolean true has gained one, and in every case the
references held by the two slots of the context are gone. -/
def refc_after_popping (inst : pcinst) (ctxt : Option ctxt_for_match)
    (up : List pcintr_stack_frame) (v : purc_variant) : Nat :=
  match ctxt with
  | none => inst.refc v
  | some c =>
    (match up with
      | [] => inst.refc v
      | parent :: _ =>
        if c.is_exclusively = true ∧ c.matched = true then
          inst.refc v - (if parent.result_from_child = some v then 1 else 0)
            + (if v = purc_variant.boolean true then 1 else 0)
        else inst.refc v)
      - slot_references c v

/-- The character that names each symbolic variable: `?`, `^`, `@`, `!`, `:`, `=`
and `%`. -/
def symbol_char : purc_symbol_var → Char
  | purc_symbol_var.PURC_SYMBOL_VAR_QUESTION_MARK => '?'
  | purc_symbol_var.PURC_SYMBOL_VAR_CARET => '^'
  | purc_symbol_var.PURC_SYMBOL_VAR_AT_SIGN => '@'
  | purc_symbol_var.PURC_SYMBOL_VAR_EXCLAMATION => '!'
  | purc_symbol_var.PURC_SYMBOL_VAR_COLON => ':'
  | purc_symbol_var.PURC_SYMBOL_VAR_EQUAL => '='
  | purc_symbol_var.PURC_SYMBOL_VAR_PERCENT_SIGN => '%'

/-- The messages the spec expects a change of the given kind to the member `name` to
produce: one for each observer entry with that name and kind, in table order,
addressed to the stack of the entry, with the given type and sub-type and no
payload. -/
def expected_dispatch (source type sub_type : purc_variant_t) (name : String)
    (kind : var_event_type) (table : List var_observe) : List dispatched_message :=
  (table.filter (fun obs => decide (obs.name = name ∧ obs.type = kind))).map
    (fun obs => ⟨obs.stack, source, type, sub_type, none⟩)

/-- One step in the life of a coroutine-bound timer: the run loop fires it, someone
acknowledges a fire directly, the coroutine handles the message at the head of
its queue, or the scheduler moves the coroutine to another state. -/
inductive timer_step where
  | fire
  | processed
  | handle
  | sched (state : pcintr_coroutine_state) (exited : Bool)
deriving DecidableEq, Repr

/-- The effect of one step: the new state and the calls made. Handling with an empty
queue does nothing. -/
def timer_step_run (env : timer_env) (w : timer_world) :
    timer_step → Option (timer_world × List timer_call)
  | timer_step.fire => PurcTimer.fired env w
  | timer_step.processed =>
    match pcintr_timer_processed w with
    | none => none
    | some w1 => some (w1, [timer_call.processed])
  | timer_step.handle =>
    match w.co.msgs with
    | [] => some (w, [])
    | posted_msg.on_event_fire :: rest =>
      on_event_fire { w with co := { w.co with msgs := rest } }
  | timer_step.sched state exited =>
    some ({ w with co := { w.co with state := state, exited := exited } }, [])

/-- A sequence of steps; it stops with `none` at the first failed assertion. -/
def timer_run (env : timer_env) :
    List timer_step → timer_world → Option (timer_world × List timer_call)
  | [], w => some (w, [])
  | st :: rest, w =>
    match timer_step_run env w st with
    | none => none
    | some (w1, calls1) =>
      match timer_run env rest w1 with
      | none => none
      | some (w2, calls2) => some (w2, calls1 ++ calls2)

/-- Successive calls of `pchvml_rwswrap_next_char`: the wrapper after them and the
characters returned, in call order. -/
def pchvml_rwswrap_next_chars : Nat → pchvml_rwswrap → Option (pchvml_rwswrap × List Nat)
  | 0, wrap => some (wrap, [])
  | n + 1, wrap =>
    match pchvml_rwswrap_next_char wrap with
    | none => none
    | some (wrap1, uc) =>
      match pchvml_rwswrap_next_chars n wrap1 with
      | none => none
      | some (wrap2, ucs) => some (wrap2, uc :: ucs)

/-- The event string of each kind of change. -/
def var_event_type_str : var_event_type → String
  | var_event_type.VAR_EVENT_TYPE_ATTACHED => TYPE_STR_ATTACHED
  | var_event_type.VAR_EVENT_TYPE_DETACHED => TYPE_STR_DETACHED
  | var_event_type.VAR_EVENT_TYPE_DISPLACED => TYPE_STR_DISPLACED

/-- The timer an addition works on: the one the directory holds for the id, or the
timer just constructed when it holds none. -/
def timer_before_grow (env : timers_env) (w : timers_world) (id : String) :
    Option PurcTimer :=
  match w.timers.timers_map id with
  | some timer => w.timer_objs timer
  | none => some ⟨0, false, env.new_interval, false, false, true⟩

/-- The activity a displacement decides: the current one when `active` is absent,
otherwise whether `active` is the string `yes`. -/
def next_activity (t : PurcTimer) (active : purc_variant_t) : Bool :=
  match active with
  | none => t.active
  | some v => decide (purc_variant_get_string_const v = some TIMERS_STR_YES)

/-- The call that enacts an activity on a timer. -/
def activity_call (timer : Nat) (next_active : Bool) : timers_call :=
  if next_active then timers_call.start timer else timers_call.stop timer

/-- The timer after an activity has been enacted. -/
def timer_after_activity (t : PurcTimer) (next_active : Bool) : PurcTimer :=
  if next_active then { t with active := true, repeating := true } else PurcTimer.stop t

/-! ## Example states -/

/-- An instance with two instance-level variables and no pending error. -/
def sample_inst : pcinst :=
  ⟨purc_error.PURC_ERROR_OK, fun _ => 2,
    some ⟨[("SYSTEM", purc_variant.other 100), ("x", purc_variant.other 103)], []⟩⟩

/-- A keyword table with three distinct atoms. -/
def sample_keyword : pchvml_keyword_enum → purc_atom_t
  | pchvml_keyword_enum.FOR => 1
  | pchvml_keyword_enum.EXCLUSIVELY => 2
  | pchvml_keyword_enum.EXCL => 3

/-- The root element, which binds `x` in its scope. -/
def sample_root : pcvdom_element :=
  pcvdom_element.mk "hvml" [] [] (some ⟨[("x", purc_variant.other 101)], []⟩) none

/-- A `<match for="42" excl>` element with five children, two of them elements. -/
def sample_match : pcvdom_element :=
  pcvdom_element.mk "match"
    [⟨1, pchvml_attr_operator.PCHVML_ATTRIBUTE_ASSIGNMENT, some (purc_variant.string 7 "42")⟩,
     ⟨3, pchvml_attr_operator.PCHVML_ATTRIBUTE_ASSIGNMENT, some purc_variant.undefined⟩]
    [⟨pcvdom_nodetype.PCVDOM_NODE_CONTENT, 1⟩, ⟨pcvdom_nodetype.PCVDOM_NODE_ELEMENT, 2⟩,
     ⟨pcvdom_nodetype.PCVDOM_NODE_COMMENT, 3⟩, ⟨pcvdom_nodetype.PCVDOM_NODE_ELEMENT, 4⟩,
     ⟨pcvdom_nodetype.PCVDOM_NODE_CONTENT, 5⟩]
    none (some sample_root)

/-- The symbol variables of the example frames: `?` holds the parent's result. -/
def sample_symbols : purc_symbol_var → purc_variant_t
  | purc_symbol_var.PURC_SYMBOL_VAR_QUESTION_MARK => some (purc_variant.other 42)
  | _ => some purc_variant.undefined

/-- A frame on the example `<match>` element with the given context. -/
def sample_frame (ctxt : Option ctxt_for_match) : pcintr_stack_frame :=
  ⟨some sample_match, ctxt, sample_symbols, none, none⟩

/-- The frame of the parent element. -/
def sample_parent : pcintr_stack_frame :=
  ⟨some sample_root, none, sample_symbols, some (purc_variant.other 42), none⟩

/-- A document that binds `x` and `DOC`. -/
def sample_vdom : purc_vdom :=
  ⟨⟨[("x", purc_variant.other 102), ("DOC", purc_variant.other 104)], []⟩⟩

/-- A stack of two frames: the `<match>` frame at the bottom and its parent. -/
def sample_stack (ctxt : Option ctxt_for_match) : pcintr_stack :=
  ⟨[sample_frame ctxt, sample_parent], 0, some sample_vdom⟩

/-- A `<match for="42" for="99">` element: the second attribute is a duplicate. -/
def sample_match_duplicate : pcvdom_element :=
  pcvdom_element.mk "match"
    [⟨1, pchvml_attr_operator.PCHVML_ATTRIBUTE_ASSIGNMENT, some (purc_variant.string 7 "42")⟩,
     ⟨1, pchvml_attr_operator.PCHVML_ATTRIBUTE_ASSIGNMENT, some (purc_variant.string 8 "99")⟩]
    [] none (some sample_root)

/-- A matched, exclusive context with a fresh cursor. -/
def sample_ctxt_matched : ctxt_for_match :=
  ⟨none, some (purc_variant.string 7 "42"), some purc_variant.undefined, some 0, true, true⟩

/-- A context that did not match. -/
def sample_ctxt_unmatched : ctxt_for_match :=
  ⟨none, some (purc_variant.string 7 "99"), none, some 0, false, false⟩

/-- A rule evaluator for the examples: the selectors `42` and `99` parse to the rules
42 and 99, and a rule matches the variant with that address. -/
def sample_api : match_for_api :=
  ⟨fun s => if s = "42" then some 42 else if s = "99" then some 99 else none,
    fun rule v => some (decide (v = purc_variant.other rule))⟩

/-- An environment for `after_pushed` in which `@` can be bound and allocation
succeeds. -/
def sample_env : match_env :=
  ⟨sample_keyword, sample_api, some (purc_variant.other 200), true⟩

/-- A context as the attribute walk leaves it for `<match for="42">`. -/
def sample_ctxt_for42 : ctxt_for_match :=
  ⟨none, some (purc_variant.string 7 "42"), none, none, false, false⟩

/-- A manager that binds `x` and has no observer. -/
def sample_mgr : pcvarmgr_list :=
  ⟨[("x", purc_variant.other 1)], []⟩

/-- An environment in which resuming and the execution check leave the run state of
the coroutine as it is. -/
def sample_timer_env : timer_env :=
  ⟨fun st => st, fun st => st⟩

/-- An ordinary timer, started repeating, with no fire in flight, bound to a waiting
coroutine with an empty queue. -/
def sample_timer_world : timer_world :=
  ⟨⟨0, false, 100, true, true, true⟩, ⟨pcintr_coroutine_state.CO_STATE_WAIT, false, []⟩,
    false, true⟩

/-- An ordinary active timer with one fire in flight whose coroutine has exited
before handling the posted message. -/
def sample_timer_world_exited : timer_world :=
  ⟨⟨1, false, 100, true, true, true⟩,
    ⟨pcintr_coroutine_state.CO_STATE_WAIT, true, [posted_msg.on_event_fire]⟩, false, true⟩

/-- A for-yielded timer, started repeating, with no fire in flight, whose coroutine
is ready. -/
def sample_timer_world_yielded_ready : timer_world :=
  ⟨⟨0, true, 100, true, true, false⟩, ⟨pcintr_coroutine_state.CO_STATE_READY, false, []⟩,
    false, true⟩

/-- A for-yielded timer, started repeating, with no fire in flight, whose coroutine
waits. -/
def sample_timer_world_yielded_wait : timer_world :=
  ⟨⟨0, true, 100, true, true, false⟩, ⟨pcintr_coroutine_state.CO_STATE_WAIT, false, []⟩,
    false, true⟩

/-- A run of an ordinary timer: two fires of which the second is dropped, the
handling of the posted message, a move to READY, one more fire and its handling. -/
def sample_timer_steps : List timer_step :=
  [timer_step.fire, timer_step.fire, timer_step.handle,
    timer_step.sched pcintr_coroutine_state.CO_STATE_READY false, timer_step.fire,
    timer_step.handle]

/-- The state the example run ends in. -/
def sample_timer_world_after : timer_world :=
  ⟨⟨0, false, 100, true, true, true⟩, ⟨pcintr_coroutine_state.CO_STATE_READY, false, []⟩,
    false, true⟩

/-- The calls the example run makes. -/
def sample_timer_calls : List timer_call :=
  [timer_call.set_current_co true, timer_call.post_msg, timer_call.set_current_co false,
    timer_call.processed, timer_call.func,
    timer_call.set_current_co true, timer_call.post_msg, timer_call.check_after_execution,
    timer_call.set_current_co false, timer_call.processed, timer_call.func]

/-- An environment of the directory in which everything succeeds and `new` returns
the address 5. -/
def sample_directory_env : timers_env :=
  ⟨true, true, some 5, 0, true, true⟩

/-- The member `t1` at address 10: interval 100, active `yes`. -/
def sample_member : timer_var :=
  ⟨10, [("id", purc_variant.string 11 "t1"), ("interval", purc_variant.ulongint 100),
    ("active", purc_variant.string 12 "yes")]⟩

/-- The member `t1` displaced by a value at address 20 with the interval
2^32 + 7 and no `active` field. -/
def sample_member_long : timer_var :=
  ⟨20, [("id", purc_variant.string 21 "t1"), ("interval", purc_variant.ulongint (2 ^ 32 + 7))]⟩

/-- The member `t1` displaced by a value at address 30 with the interval 250 and
active `no`. -/
def sample_member_slow : timer_var :=
  ⟨30, [("id", purc_variant.string 31 "t1"), ("interval", purc_variant.ulongint 250),
    ("active", purc_variant.string 32 "no")]⟩

/-- The member `t1` at address 40: interval 100, and an `active` field that is the
boolean true, not a string. -/
def sample_member_flag : timer_var :=
  ⟨40, [("id", purc_variant.string 41 "t1"), ("interval", purc_variant.ulongint 100),
    ("active", purc_variant.boolean true)]⟩

/-- The member `t1` displaced by a value at address 50 with the interval 250 and an
`active` field that is the boolean false, not a string. -/
def sample_member_off : timer_var :=
  ⟨50, [("id", purc_variant.string 51 "t1"), ("interval", purc_variant.ulongint 250),
    ("active", purc_variant.boolean false)]⟩

/-- An empty directory. -/
def sample_directory : timers_world :=
  ⟨sample_inst, ⟨fun _ => none, fun _ => none⟩, fun _ => none⟩

/-- A directory that maps `t1` to the timer at address 5, whose state is the
argument, and the member at address 10 to its listener. -/
def sample_directory_t1 (t : PurcTimer) : timers_world :=
  ⟨sample_inst,
    ⟨fun id => if id = "t1" then some 5 else none,
      fun obj => if obj = 10 then some ⟨10, 5⟩ else none⟩,
    fun timer => if timer = 5 then some t else none⟩

/-- A wrapper with an empty buffer over a stream that holds one character. -/
def sample_wrap : pchvml_rwswrap :=
  ⟨[66], [], 0⟩

/-- A manager in which `x` is no longer bound and an observer of its detachment is
still registered. -/
def sample_mgr_detached : pcvarmgr_list :=
  ⟨[], [⟨"x", var_event_type.VAR_EVENT_TYPE_DETACHED, 7⟩]⟩

/-- An environment in which every allocation succeeds and the renderer answers
`PCRDR_SC_OK` with the handle 9. -/
def sample_rdr_env : rdr_env :=
  ⟨true, true, 1, true, some ⟨200, 9⟩⟩

/-! ## Properties of `select_child` -/

theorem getElem?_append_cons_length {α : Type} (pre : List α) (x : α) (rest : List α) :
    (pre ++ x :: rest)[pre.length]? = some x := by
  rw [List.getElem?_append_right (le_refl _)]
  simp

theorem select_child_advance_eq (element : pcvdom_element) (curr : Option Nat) (k : Nat)
    (hc : curr = cursor_of k) :
    select_child_advance element curr
      = if k < element.children.length then some k else none := by
  subst hc
  by_cases hk : k = 0
  · subst hk
    simp [cursor_of, select_child_advance, pcvdom_node_first_child]
  · have h1 : k - 1 + 1 = k := by omega
    simp [cursor_of, hk, select_child_advance, pcvdom_node_next_sibling, h1]

theorem select_child_again_element (frame : pcintr_stack_frame) (element : pcvdom_element)
    (e : pcvdom_node) (rest : List pcvdom_node)
    (he : e.type = pcvdom_nodetype.PCVDOM_NODE_ELEMENT) :
    ∀ (skipped pre : List pcvdom_node) (fuel : Nat) (inst : pcinst) (ctxt : ctxt_for_match),
      element.children = pre ++ skipped ++ e :: rest →
      (∀ n ∈ skipped, skipped_node n) →
      ctxt.curr = cursor_of pre.length →
      skipped.length + 1 ≤ fuel →
      select_child_again frame 0 element fuel inst ctxt
        = some (inst, { ctxt with curr := some (pre.length + skipped.length) }, some e,
            skipped ++ [e]) := by
  intro skipped
  induction skipped with
  | nil =>
    intro pre fuel inst ctxt hch _ hcur hfuel
    obtain ⟨f, rfl⟩ : ∃ f, fuel = f + 1 := ⟨fuel - 1, by simp at hfuel; omega⟩
    have hlen : pre.length < element.children.length := by simp [hch]
    have hget : element.children[pre.length]? = some e := by
      rw [hch, List.append_nil]
      exact getElem?_append_cons_length pre e rest
    have hadv := select_child_advance_eq element ctxt.curr pre.length hcur
    rw [if_pos hlen] at hadv
    simp [select_child_again, hadv, hget, he, on_element]
  | cons n sk ih =>
    intro pre fuel inst ctxt hch hsk hcur hfuel
    obtain ⟨f, rfl⟩ : ∃ f, fuel = f + 1 := ⟨fuel - 1, by simp at hfuel; omega⟩
    have hlen : pre.length < element.children.length := by simp [hch]
    have hget : element.children[pre.length]? = some n := by
      rw [hch, List.append_assoc]
      exact getElem?_append_cons_length pre n (sk ++ e :: rest)
    have hch2 : element.children = (pre ++ [n]) ++ sk ++ e :: rest := by simp [hch]
    have hsk2 : ∀ m ∈ sk, skipped_node m := fun m hm => hsk m (List.mem_cons_of_mem _ hm)
    have hcur2 : ({ ctxt with curr := some pre.length } : ctxt_for_match).curr
        = cursor_of (pre ++ [n]).length := by simp [cursor_of]
    have hfuel2 : sk.length + 1 ≤ f := by simp at hfuel; omega
    have hrec := ih (pre ++ [n]) f inst { ctxt with curr := some pre.length } hch2 hsk2 hcur2
      hfuel2
    have hn : skipped_node n := hsk n (List.mem_cons_self _ _)
    have hadv := select_child_advance_eq element ctxt.curr pre.length hcur
    rw [if_pos hlen] at hadv
    rcases hn with hn | hn
    · simp [select_child_again, hadv, hget, hn, on_content, hrec]
      omega
    · simp [select_child_again, hadv, hget, hn, on_comment, hrec]
      omega

theorem select_child_again_end (frame : pcintr_stack_frame) (element : pcvdom_element) :
    ∀ (skipped pre : List pcvdom_node) (fuel : Nat) (inst : pcinst) (ctxt : ctxt_for_match),
      element.children = pre ++ skipped →
      (∀ n ∈ skipped, skipped_node n) →
      ctxt.curr = cursor_of pre.length →
      skipped.length + 1 ≤ fuel →
      select_child_again frame 0 element fuel inst ctxt
        = some (purc_clr_error inst, { ctxt with curr := none }, none, skipped) := by
  intro skipped
  induction skipped with
  | nil =>
    intro pre fuel inst ctxt hch _ hcur hfuel
    obtain ⟨f, rfl⟩ : ∃ f, fuel = f + 1 := ⟨fuel - 1, by simp at hfuel; omega⟩
    have hlen : ¬ pre.length < element.children.length := by simp [hch]
    have hadv := select_child_advance_eq element ctxt.curr pre.length hcur
    rw [if_neg hlen] at hadv
    simp [select_child_again, hadv]
  | cons n sk ih =>
    intro pre fuel inst ctxt hch hsk hcur hfuel
    obtain ⟨f, rfl⟩ : ∃ f, fuel = f + 1 := ⟨fuel - 1, by simp at hfuel; omega⟩
    have hlen : pre.length < element.children.length := by simp [hch]
    have hget : element.children[pre.length]? = some n := by
      rw [hch]
      exact getElem?_append_cons_length pre n sk
    have hch2 : element.children = (pre ++ [n]) ++ sk := by simp [hch]
    have hsk2 : ∀ m ∈ sk, skipped_node m := fun m hm => hsk m (List.mem_cons_of_mem _ hm)
    have hcur2 : ({ ctxt with curr := some pre.length } : ctxt_for_match).curr
        = cursor_of (pre ++ [n]).length := by simp [cursor_of]
    have hfuel2 : sk.length + 1 ≤ f := by simp at hfuel; omega
    have hrec := ih (pre ++ [n]) f inst { ctxt with curr := some pre.length } hch2 hsk2 hcur2
      hfuel2
    have hn : skipped_node n := hsk n (List.mem_cons_self _ _)
    have hadv := select_child_advance_eq element ctxt.curr pre.length hcur
    rw [if_pos hlen] at hadv
    rcases hn with hn | hn
    · simp [select_child_again, hadv, hget, hn, on_content, hrec]
    · simp [select_child_again, hadv, hget, hn, on_comment, hrec]

theorem select_child_element (inst : pcinst) (stack : pcintr_stack)
    (frame : pcintr_stack_frame) (up : List pcintr_stack_frame) (ctxt : ctxt_for_match)
    (element : pcvdom_element) (pre skipped rest : List pcvdom_node) (e : pcvdom_node)
    (hfr : stack.frames = frame :: up) (hex : stack.except = 0)
    (hpos : frame.pos = some element) (hctxt : frame.ctxt = some ctxt)
    (hm : ctxt.matched = true) (hcur : ctxt.curr = cursor_of pre.length)
    (hch : element.children = pre ++ skipped ++ e :: rest)
    (hsk : ∀ n ∈ skipped, skipped_node n)
    (he : e.type = pcvdom_nodetype.PCVDOM_NODE_ELEMENT) :
    select_child inst stack (some ctxt)
      = some (inst,
          { stack with frames :=
              { frame with
                ctxt := some { ctxt with curr := some (pre.length + skipped.length) } } :: up },
          some e, skipped ++ [e]) := by
  have hfuel : skipped.length + 1 ≤ element.children.length + 1 := by
    simp [hch]
    omega
  have h := select_child_again_element frame element e rest he skipped pre
    (element.children.length + 1) inst ctxt hch hsk hcur hfuel
  simp [select_child, hfr, hctxt, hm, hpos, hex, h]

theorem select_child_end (inst : pcinst) (stack : pcintr_stack)
    (frame : pcintr_stack_frame) (up : List pcintr_stack_frame) (ctxt : ctxt_for_match)
    (element : pcvdom_element) (pre skipped : List pcvdom_node)
    (hfr : stack.frames = frame :: up) (hex : stack.except = 0)
    (hpos : frame.pos = some element) (hctxt : frame.ctxt = some ctxt)
    (hm : ctxt.matched = true) (hcur : ctxt.curr = cursor_of pre.length)
    (hch : element.children = pre ++ skipped)
    (hsk : ∀ n ∈ skipped, skipped_node n) :
    select_child inst stack (some ctxt)
      = some (purc_clr_error inst,
          { stack with frames :=
              { frame with ctxt := some { ctxt with curr := none } } :: up },
          none, skipped) := by
  have hfuel : skipped.length + 1 ≤ element.children.length + 1 := by
    simp [hch]
  have h := select_child_again_end frame element skipped pre
    (element.children.length + 1) inst ctxt hch hsk hcur hfuel
  simp [select_child, hfr, hctxt, hm, hpos, hex, h]

theorem split_at_first_element :
    ∀ l : List pcvdom_node,
      (∀ n ∈ l, n.type ≠ pcvdom_nodetype.PCVDOM_NODE_DOCUMENT) →
      (l.filter is_element_node = [] ∧ ∀ n ∈ l, skipped_node n) ∨
      (∃ sk e rest, l = sk ++ e :: rest ∧ (∀ n ∈ sk, skipped_node n) ∧
        e.type = pcvdom_nodetype.PCVDOM_NODE_ELEMENT ∧
        l.filter is_element_node = e :: rest.filter is_element_node) := by
  intro l
  induction l with
  | nil => intro _; left; simp
  | cons x xs ih =>
    intro hdoc
    have hx := hdoc x (List.mem_cons_self _ _)
    have hxs : ∀ n ∈ xs, n.type ≠ pcvdom_nodetype.PCVDOM_NODE_DOCUMENT :=
      fun n hn => hdoc n (List.mem_cons_of_mem _ hn)
    by_cases hxe : x.type = pcvdom_nodetype.PCVDOM_NODE_ELEMENT
    · right
      exact ⟨[], x, xs, by simp, by simp, hxe, by simp [is_element_node, hxe]⟩
    · have hxs_skip : skipped_node x := by
        unfold skipped_node
        cases hty : x.type <;> simp_all
      rcases ih hxs with ⟨hnil, hall⟩ | ⟨sk, e, rest, hl, hsk, he, hf⟩
      · left
        refine ⟨by simp [is_element_node, hxe]; simpa [is_element_node] using hnil, ?_⟩
        intro n hn
        rcases List.mem_cons.mp hn with rfl | hn
        · exact hxs_skip
        · exact hall n hn
      · right
        refine ⟨x :: sk, e, rest, by simp [hl], ?_, he, ?_⟩
        · intro n hn
          rcases List.mem_cons.mp hn with rfl | hn
          · exact hxs_skip
          · exact hsk n hn
        · rw [List.filter_cons_of_neg (by simp [is_element_node, hxe])]
          exact hf

theorem select_child_calls_from (element : pcvdom_element) (up : List pcintr_stack_frame) :
    ∀ (n : Nat) (l pre : List pcvdom_node) (inst : pcinst) (stack : pcintr_stack)
      (frame : pcintr_stack_frame) (ctxt : ctxt_for_match),
      stack.frames = frame :: up → stack.except = 0 →
      frame.pos = some element → frame.ctxt = some ctxt →
      ctxt.matched = true → ctxt.curr = cursor_of pre.length →
      element.children = pre ++ l →
      (∀ x ∈ l, x.type ≠ pcvdom_nodetype.PCVDOM_NODE_DOCUMENT) →
      (l.filter is_element_node).length = n →
      select_child_calls (n + 1) inst stack
        = some ((l.filter is_element_node).map some ++ [none], l, purc_clr_error inst,
            { stack with frames :=
                { frame with ctxt := some { ctxt with curr := none } } :: up }) := by
  intro n
  induction n with
  | zero =>
    intro l pre inst stack frame ctxt hfr hex hpos hctxt hm hcur hch hdoc hn
    have hnil : l.filter is_element_node = [] := List.length_eq_zero.mp hn
    rcases split_at_first_element l hdoc with ⟨_, hall⟩ | ⟨sk, e, rest, _, _, _, hf⟩
    · have h := select_child_end inst stack frame up ctxt element pre l hfr hex hpos hctxt hm
        hcur hch hall
      simp [select_child_calls, bottom_ctxt, hfr, hctxt, h, hnil]
    · rw [hf] at hnil
      exact absurd hnil (List.cons_ne_nil _ _)
  | succ n ih =>
    intro l pre inst stack frame ctxt hfr hex hpos hctxt hm hcur hch hdoc hn
    rcases split_at_first_element l hdoc with ⟨hnil, _⟩ | ⟨sk, e, rest, hl, hsk, he, hf⟩
    · rw [hnil] at hn
      simp at hn
    · have hch1 : element.children = pre ++ sk ++ e :: rest := by
        rw [hch, hl, List.append_assoc]
      have h := select_child_element inst stack frame up ctxt element pre sk rest e hfr hex
        hpos hctxt hm hcur hch1 hsk he
      have hch2 : element.children = (pre ++ sk ++ [e]) ++ rest := by
        rw [hch1]
        simp
      have hdoc2 : ∀ x ∈ rest, x.type ≠ pcvdom_nodetype.PCVDOM_NODE_DOCUMENT := by
        intro x hx
        apply hdoc x
        rw [hl]
        simp [hx]
      have hn2 : (rest.filter is_element_node).length = n := by
        rw [hf] at hn
        simpa using hn
      have hcur2 : ({ ctxt with curr := some (pre.length + sk.length) } : ctxt_for_match).curr
          = cursor_of (pre ++ sk ++ [e]).length := by
        simp [cursor_of]
      have hrec := ih rest (pre ++ sk ++ [e]) inst
        { stack with frames :=
            { frame with
              ctxt := some { ctxt with curr := some (pre.length + sk.length) } } :: up }
        { frame with ctxt := some { ctxt with curr := some (pre.length + sk.length) } }
        { ctxt with curr := some (pre.length + sk.length) }
        rfl hex hpos rfl hm hcur2 hch2 hdoc2 hn2
      rw [select_child_calls]
      simp only [bottom_ctxt, hfr, hctxt, h, hrec, hf]
      simp [hl]

/-- C1: on a matched frame whose cursor is NULL and whose element has element,
content and comment children only, as many successive calls of select_child as
there are element children, plus one, return the element children one by one in
document order and then NULL; every child is handed to its hook exactly once, in
document order; the cursor ends NULL. -/
theorem select_child_yields_element_children (inst : pcinst) (stack : pcintr_stack)
    (frame : pcintr_stack_frame) (up : List pcintr_stack_frame) (ctxt : ctxt_for_match)
    (element : pcvdom_element)
    (hfr : stack.frames = frame :: up) (hex : stack.except = 0)
    (hpos : frame.pos = some element) (hctxt : frame.ctxt = some ctxt)
    (hm : ctxt.matched = true) (hcur : ctxt.curr = none)
    (hdoc : ∀ x ∈ element.children, x.type ≠ pcvdom_nodetype.PCVDOM_NODE_DOCUMENT) :
    select_child_calls ((element_children element).length + 1) inst stack
      = some ((element_children element).map some ++ [none], element.children,
          purc_clr_error inst,
          { stack with frames := { frame with ctxt := some ctxt } :: up }) := by
  have h := select_child_calls_from element up (element_children element).length
    element.children [] inst stack frame ctxt hfr hex hpos hctxt hm
    (by simp [cursor_of, hcur]) (by simp) hdoc rfl
  have hc : ({ ctxt with curr := none } : ctxt_for_match) = ctxt := by
    cases ctxt
    simp_all
  rw [hc] at h
  exact h

theorem select_child_yields_element_children_witness :
    select_child_calls 3 sample_inst (sample_stack (some sample_ctxt_matched))
      = some ([some ⟨pcvdom_nodetype.PCVDOM_NODE_ELEMENT, 2⟩,
            some ⟨pcvdom_nodetype.PCVDOM_NODE_ELEMENT, 4⟩, none],
          sample_match.children, purc_clr_error sample_inst,
          sample_stack (some sample_ctxt_matched)) :=
  select_child_yields_element_children sample_inst (sample_stack (some sample_ctxt_matched))
    (sample_frame (some sample_ctxt_matched)) [sample_parent] sample_ctxt_matched sample_match
    rfl rfl rfl rfl rfl rfl (by decide)

/-! ## Properties of `post_process` -/

/-- C2: when no `for` attribute is bound, post_process returns 0 with matched set to
true for every parent result, the stored rule is left as it was, and the outcome
is the same for every rule parser and evaluator, so none is consulted. -/
theorem post_process_without_selector_matches (api : match_for_api) (inst : pcinst)
    (frame : pcintr_stack_frame) (ctxt : ctxt_for_match) (parent_result : purc_variant)
    (hctxt : frame.ctxt = some ctxt) (hfor : ctxt.for_var = none)
    (hq : frame.symbol_vars purc_symbol_var.PURC_SYMBOL_VAR_QUESTION_MARK
      = some parent_result) :
    (∃ inst1 frame1 ctxt1, post_process api inst frame = some (inst1, frame1, 0) ∧
      frame1.ctxt = some ctxt1 ∧ ctxt1.matched = true ∧ ctxt1.param = ctxt.param) ∧
    (∀ api2 : match_for_api, post_process api2 inst frame = post_process api inst frame) := by
  constructor
  · refine ⟨purc_variant_ref (PURC_VARIANT_SAFE_CLEAR inst frame.result_var) parent_result,
      { frame with
        ctxt := some (post_process_flags ctxt ctxt.param true),
        result_var := some parent_result },
      post_process_flags ctxt ctxt.param true, ?_, rfl, ?_, ?_⟩
    · simp [post_process, post_process_eval, hctxt, hfor, hq]
    · unfold post_process_flags
      split <;> rfl
    · unfold post_process_flags
      split <;> rfl
  · intro api2
    simp [post_process, post_process_eval, hctxt, hfor, hq]

theorem post_process_without_selector_matches_witness :
    (∃ inst1 frame1 ctxt1,
      post_process sample_api sample_inst (sample_frame (some ctxt_for_match_zero))
        = some (inst1, frame1, 0) ∧
      frame1.ctxt = some ctxt1 ∧ ctxt1.matched = true ∧
      ctxt1.param = ctxt_for_match_zero.param) ∧
    (∀ api2 : match_for_api,
      post_process api2 sample_inst (sample_frame (some ctxt_for_match_zero))
        = post_process sample_api sample_inst (sample_frame (some ctxt_for_match_zero))) :=
  post_process_without_selector_matches sample_api sample_inst
    (sample_frame (some ctxt_for_match_zero)) ctxt_for_match_zero (purc_variant.other 42)
    rfl rfl rfl

/-- C3: on a frame whose context has matched false, every call of select_child
returns NULL and leaves the stack, the cursor included, and the instance state as
they were, whatever the children of the element are; no hook runs. -/
theorem select_child_unmatched_yields_nothing (inst : pcinst) (stack : pcintr_stack)
    (frame : pcintr_stack_frame) (up : List pcintr_stack_frame) (ctxt : ctxt_for_match)
    (hfr : stack.frames = frame :: up) (hctxt : frame.ctxt = some ctxt)
    (hm : ctxt.matched = false) (n : Nat) :
    select_child inst stack (some ctxt) = some (inst, stack, none, []) ∧
    select_child_calls n inst stack = some (List.replicate n none, [], inst, stack) := by
  have h1 : select_child inst stack (some ctxt) = some (inst, stack, none, []) := by
    simp [select_child, hfr, hctxt, hm]
  refine ⟨h1, ?_⟩
  induction n with
  | zero => simp [select_child_calls]
  | succ k ih =>
    simp [select_child_calls, bottom_ctxt, hfr, hctxt, h1, ih, List.replicate_succ]

theorem select_child_unmatched_yields_nothing_witness :
    select_child sample_inst (sample_stack (some sample_ctxt_unmatched))
        (some sample_ctxt_unmatched)
      = some (sample_inst, sample_stack (some sample_ctxt_unmatched), none, []) ∧
    select_child_calls 4 sample_inst (sample_stack (some sample_ctxt_unmatched))
      = some (List.replicate 4 none, [], sample_inst,
          sample_stack (some sample_ctxt_unmatched)) :=
  select_child_unmatched_yields_nothing sample_inst (sample_stack (some sample_ctxt_unmatched))
    (sample_frame (some sample_ctxt_unmatched)) [sample_parent] sample_ctxt_unmatched
    rfl rfl rfl 4

/-- C4: when post_process computes matched true, the result of the frame becomes the
very variant held in the `?` symbol, and post_process takes one reference on it:
its count rises by one, unless the old result, whose reference is released first,
was that same variant, in which case the count is unchanged. When it computes
matched false, the result and all reference counts are left as they were. -/
theorem post_process_result_shares_parent_result (api : match_for_api) (inst : pcinst)
    (frame : pcintr_stack_frame) (ctxt : ctxt_for_match) (p : purc_variant)
    (param : Option Nat) (matched : Bool)
    (hctxt : frame.ctxt = some ctxt)
    (hq : frame.symbol_vars purc_symbol_var.PURC_SYMBOL_VAR_QUESTION_MARK = some p)
    (hev : post_process_eval api frame ctxt = some (param, matched)) :
    ∃ inst1 frame1 ctxt1, post_process api inst frame = some (inst1, frame1, 0) ∧
      frame1.ctxt = some ctxt1 ∧ ctxt1.matched = matched ∧
      (matched = true →
        frame1.result_var = frame.symbol_vars purc_symbol_var.PURC_SYMBOL_VAR_QUESTION_MARK ∧
        (frame.result_var ≠ some p → inst1.refc p = inst.refc p + 1) ∧
        (frame.result_var = some p → 1 ≤ inst.refc p → inst1.refc p = inst.refc p)) ∧
      (matched = false → frame1.result_var = frame.result_var ∧ inst1 = inst) := by
  have hflag : (post_process_flags ctxt param matched).matched = matched := by
    unfold post_process_flags
    split <;> rfl
  cases matched with
  | false =>
    refine ⟨inst, { frame with ctxt := some (post_process_flags ctxt param false) },
      post_process_flags ctxt param false, ?_, rfl, hflag, ?_, ?_⟩
    · simp [post_process, hctxt, hev]
    · intro h
      cases h
    · intro _
      exact ⟨rfl, rfl⟩
  | true =>
    refine ⟨purc_variant_ref (PURC_VARIANT_SAFE_CLEAR inst frame.result_var) p,
      { frame with ctxt := some (post_process_flags ctxt param true), result_var := some p },
      post_process_flags ctxt param true, ?_, rfl, hflag, ?_, ?_⟩
    · simp [post_process, hctxt, hev, hq]
    · intro _
      refine ⟨hq.symm, ?_, ?_⟩
      · intro hne
        cases hr : frame.result_var with
        | none => simp [PURC_VARIANT_SAFE_CLEAR, purc_variant_ref]
        | some q =>
          have hqp : p ≠ q := by
            intro h
            apply hne
            rw [hr, h]
          simp [PURC_VARIANT_SAFE_CLEAR, purc_variant_ref, purc_variant_unref,
            Function.update, hqp]
      · intro heq hpos
        simp [heq, PURC_VARIANT_SAFE_CLEAR, purc_variant_ref, purc_variant_unref,
          Function.update]
        omega
    · intro h
      cases h

theorem post_process_result_shares_parent_result_witness :
    ∃ inst1 frame1 ctxt1,
      post_process sample_api sample_inst (sample_frame (some sample_ctxt_for42))
        = some (inst1, frame1, 0) ∧
      frame1.ctxt = some ctxt1 ∧ ctxt1.matched = true ∧
      (true = true →
        frame1.result_var = (sample_frame (some sample_ctxt_for42)).symbol_vars
          purc_symbol_var.PURC_SYMBOL_VAR_QUESTION_MARK ∧
        ((sample_frame (some sample_ctxt_for42)).result_var ≠ some (purc_variant.other 42) →
          inst1.refc (purc_variant.other 42) = sample_inst.refc (purc_variant.other 42) + 1) ∧
        ((sample_frame (some sample_ctxt_for42)).result_var = some (purc_variant.other 42) →
          1 ≤ sample_inst.refc (purc_variant.other 42) →
          inst1.refc (purc_variant.other 42) = sample_inst.refc (purc_variant.other 42))) ∧
      (true = false →
        frame1.result_var = (sample_frame (some sample_ctxt_for42)).result_var ∧
        inst1 = sample_inst) :=
  post_process_result_shares_parent_result sample_api sample_inst
    (sample_frame (some sample_ctxt_for42)) sample_ctxt_for42 (purc_variant.other 42)
    (some 42) true rfl rfl (by decide)

/-! ## Properties of `on_popping` -/

theorem on_popping_exclusive_matched (inst : pcinst) (stack : pcintr_stack)
    (frame parent : pcintr_stack_frame) (rest : List pcintr_stack_frame)
    (ctxt : ctxt_for_match) (element : pcvdom_element)
    (hfr : stack.frames = frame :: parent :: rest)
    (hpos : frame.pos = some element) (hctxt : frame.ctxt = some ctxt)
    (hx : ctxt.is_exclusively = true) (hm : ctxt.matched = true) :
    on_popping inst stack (some ctxt)
      = some (ctxt_for_match_destroy
            (purc_variant_ref (PURC_VARIANT_SAFE_CLEAR inst parent.result_from_child)
              (purc_variant.boolean true)) ctxt,
          { stack with frames :=
              { frame with ctxt := none } ::
                { parent with result_from_child := some (purc_variant.boolean true) } :: rest },
          true) := by
  simp [on_popping, hfr, hpos, hctxt, hx, hm, purc_variant_make_boolean]

theorem on_popping_plain (inst : pcinst) (stack : pcintr_stack)
    (frame : pcintr_stack_frame) (up : List pcintr_stack_frame)
    (ctxt : ctxt_for_match) (element : pcvdom_element)
    (hfr : stack.frames = frame :: up)
    (hpos : frame.pos = some element) (hctxt : frame.ctxt = some ctxt)
    (hx : ¬ (ctxt.is_exclusively = true ∧ ctxt.matched = true)) :
    on_popping inst stack (some ctxt)
      = some (ctxt_for_match_destroy inst ctxt,
          { stack with frames := { frame with ctxt := none } :: up }, true) := by
  have hb : (ctxt.is_exclusively && ctxt.matched) = false := by
    cases h1 : ctxt.is_exclusively <;> cases h2 : ctxt.matched <;> simp_all
  simp [on_popping, hfr, hpos, hctxt, hb]

/-- C5: for a frame with a context and a parent frame, on_popping returns true, and
the parent frame afterwards is the old parent with result_from_child set to the
boolean true when the context is both exclusive and matched, and is the old
parent unchanged in every other case; the frames above the parent are untouched. -/
theorem on_popping_sets_parent_result_from_child (inst : pcinst) (stack : pcintr_stack)
    (frame parent : pcintr_stack_frame) (rest : List pcintr_stack_frame)
    (ctxt : ctxt_for_match) (element : pcvdom_element)
    (hfr : stack.frames = frame :: parent :: rest)
    (hpos : frame.pos = some element) (hctxt : frame.ctxt = some ctxt) :
    ∃ inst1 stack1 frame1, on_popping inst stack (some ctxt) = some (inst1, stack1, true) ∧
      stack1.frames
        = frame1 ::
          (if ctxt.is_exclusively = true ∧ ctxt.matched = true then
            { parent with result_from_child := some (purc_variant.boolean true) }
          else parent) :: rest := by
  by_cases hx : ctxt.is_exclusively = true ∧ ctxt.matched = true
  · exact ⟨_, _, { frame with ctxt := none },
      on_popping_exclusive_matched inst stack frame parent rest ctxt element hfr hpos hctxt
        hx.1 hx.2, by simp [hx]⟩
  · exact ⟨_, _, { frame with ctxt := none },
      on_popping_plain inst stack frame (parent :: rest) ctxt element hfr hpos hctxt hx,
      by simp [hx]⟩

theorem on_popping_sets_parent_result_from_child_witness :
    ∃ inst1 stack1 frame1,
      on_popping sample_inst (sample_stack (some sample_ctxt_matched))
        (some sample_ctxt_matched) = some (inst1, stack1, true) ∧
      stack1.frames
        = frame1 ::
          (if sample_ctxt_matched.is_exclusively = true ∧ sample_ctxt_matched.matched = true
            then { sample_parent with result_from_child := some (purc_variant.boolean true) }
          else sample_parent) :: [] :=
  on_popping_sets_parent_result_from_child sample_inst
    (sample_stack (some sample_ctxt_matched)) (sample_frame (some sample_ctxt_matched))
    sample_parent [] sample_ctxt_matched sample_match rfl rfl rfl

theorem PURC_VARIANT_SAFE_CLEAR_fields (inst : pcinst) (slot : purc_variant_t) :
    (PURC_VARIANT_SAFE_CLEAR inst slot).last_error = inst.last_error ∧
    (PURC_VARIANT_SAFE_CLEAR inst slot).inst_variables = inst.inst_variables ∧
    ∀ v, (PURC_VARIANT_SAFE_CLEAR inst slot).refc v
      = inst.refc v - (if slot = some v then 1 else 0) := by
  cases slot with
  | none =>
    refine ⟨rfl, rfl, ?_⟩
    intro v
    simp [PURC_VARIANT_SAFE_CLEAR]
  | some x =>
    refine ⟨rfl, rfl, ?_⟩
    intro v
    by_cases hx : x = v
    · subst hx
      simp [PURC_VARIANT_SAFE_CLEAR, purc_variant_unref]
    · have hv : v ≠ x := fun h => hx h.symm
      simp [PURC_VARIANT_SAFE_CLEAR, purc_variant_unref, Function.update_noteq hv, hx]

theorem ctxt_for_match_destroy_fields (inst : pcinst) (ctxt : ctxt_for_match) :
    (ctxt_for_match_destroy inst ctxt).last_error = inst.last_error ∧
    (ctxt_for_match_destroy inst ctxt).inst_variables = inst.inst_variables ∧
    ∀ v, (ctxt_for_match_destroy inst ctxt).refc v = inst.refc v - slot_references ctxt v := by
  obtain ⟨h1, h2, h3⟩ := PURC_VARIANT_SAFE_CLEAR_fields inst ctxt.for_var
  obtain ⟨k1, k2, k3⟩ :=
    PURC_VARIANT_SAFE_CLEAR_fields (PURC_VARIANT_SAFE_CLEAR inst ctxt.for_var) ctxt.exclusively
  refine ⟨?_, ?_, ?_⟩
  · exact k1.trans h1
  · exact k2.trans h2
  · intro v
    unfold ctxt_for_match_destroy slot_references
    rw [k3 v, h3 v]
    omega

theorem purc_variant_ref_refc (inst : pcinst) (x v : purc_variant) :
    (purc_variant_ref inst x).refc v = inst.refc v + (if v = x then 1 else 0) := by
  by_cases hx : v = x
  · subst hx
    simp [purc_variant_ref]
  · simp [purc_variant_ref, Function.update_noteq hx, hx]

/-- C6: on every frame that passes the assertions of on_popping (a position, and a
parent when the context is exclusive and matched), matched or not, exclusive or
not, on_popping returns true and leaves the context pointer of the frame NULL; a
context that was there has been destroyed: for every variant, the references its
two attribute slots held are released, after the parent was signalled in the
exclusive and matched case, and the last error and the instance variables are
as they were. -/
theorem on_popping_destroys_context (inst : pcinst) (stack : pcintr_stack)
    (frame : pcintr_stack_frame) (up : List pcintr_stack_frame) (element : pcvdom_element)
    (hfr : stack.frames = frame :: up) (hpos : frame.pos = some element)
    (hpar : ∀ ctxt, frame.ctxt = some ctxt → ctxt.is_exclusively = true →
      ctxt.matched = true → up ≠ []) :
    ∃ inst1 stack1 frame1 up1,
      on_popping inst stack frame.ctxt = some (inst1, stack1, true) ∧
      stack1.frames = frame1 :: up1 ∧ frame1.ctxt = none ∧
      inst1 = instance_after_popping inst frame.ctxt up ∧
      inst1.last_error = inst.last_error ∧
      inst1.inst_variables = inst.inst_variables ∧
      (∀ v, inst1.refc v = refc_after_popping inst frame.ctxt up v) := by
  cases hc : frame.ctxt with
  | none =>
    refine ⟨inst, stack, frame, up, ?_, hfr, hc, rfl, rfl, rfl, fun v => rfl⟩
    simp [on_popping, hfr, hpos, hc]
  | some ctxt =>
    by_cases hx : ctxt.is_exclusively = true ∧ ctxt.matched = true
    · cases up with
      | nil => exact absurd rfl (hpar ctxt hc hx.1 hx.2)
      | cons parent rest =>
        obtain ⟨d1, d2, d3⟩ := ctxt_for_match_destroy_fields
          (purc_variant_ref (PURC_VARIANT_SAFE_CLEAR inst parent.result_from_child)
            (purc_variant.boolean true)) ctxt
        obtain ⟨c1, c2, c3⟩ := PURC_VARIANT_SAFE_CLEAR_fields inst parent.result_from_child
        refine ⟨_, _, { frame with ctxt := none }, _,
          on_popping_exclusive_matched inst stack frame parent rest ctxt element hfr hpos hc
            hx.1 hx.2, rfl, rfl, by simp [instance_after_popping, hx], ?_, ?_, ?_⟩
        · exact d1.trans c1
        · exact d2.trans c2
        · intro v
          rw [d3 v, purc_variant_ref_refc, c3 v]
          simp [refc_after_popping, hx]
    · obtain ⟨d1, d2, d3⟩ := ctxt_for_match_destroy_fields inst ctxt
      refine ⟨_, _, { frame with ctxt := none }, up,
        on_popping_plain inst stack frame up ctxt element hfr hpos hc hx, rfl, rfl, ?_, d1, d2,
        ?_⟩
      · cases up with
        | nil => rfl
        | cons parent rest => simp [instance_after_popping, hx]
      · intro v
        rw [d3 v]
        cases up with
        | nil => rfl
        | cons parent rest => simp [refc_after_popping, hx]

theorem on_popping_destroys_context_witness :
    ∃ inst1 stack1 frame1 up1,
      on_popping sample_inst (sample_stack (some sample_ctxt_matched))
        (sample_frame (some sample_ctxt_matched)).ctxt = some (inst1, stack1, true) ∧
      stack1.frames = frame1 :: up1 ∧ frame1.ctxt = none ∧
      inst1 = instance_after_popping sample_inst
        (sample_frame (some sample_ctxt_matched)).ctxt [sample_parent] ∧
      inst1.last_error = sample_inst.last_error ∧
      inst1.inst_variables = sample_inst.inst_variables ∧
      (∀ v, inst1.refc v
        = refc_after_popping sample_inst (sample_frame (some sample_ctxt_matched)).ctxt
          [sample_parent] v) :=
  on_popping_destroys_context sample_inst (sample_stack (some sample_ctxt_matched))
    (sample_frame (some sample_ctxt_matched)) [sample_parent] sample_match rfl rfl
    (fun _ _ _ _ => List.cons_ne_nil _ _)

theorem on_popping_releases_slots_of_sample :
    (on_popping sample_inst (sample_stack (some sample_ctxt_matched))
        (some sample_ctxt_matched)).map
        (fun r => (r.1.refc (purc_variant.string 7 "42"), r.1.refc purc_variant.undefined,
          r.1.refc (purc_variant.boolean true), r.1.refc (purc_variant.other 42), r.2.2))
      = some (1, 1, 3, 2, true) ∧
    (on_popping sample_inst (sample_stack (some sample_ctxt_unmatched))
        (some sample_ctxt_unmatched)).map
        (fun r => (r.1.refc (purc_variant.string 7 "99"), r.1.refc purc_variant.undefined,
          r.1.refc (purc_variant.boolean true), r.2.2))
      = some (1, 2, 2, true) := by
  exact ⟨rfl, rfl⟩

/-! ## Properties of the attribute walk -/

theorem process_attr_for_cases (inst : pcinst) (frame : pcintr_stack_frame)
    (ctxt : ctxt_for_match) (val : purc_variant_t) (hctxt : frame.ctxt = some ctxt) :
    process_attr_for inst frame val
      = some (match ctxt.for_var, val with
          | some _, _ => (purc_set_error inst purc_error.PURC_ERROR_DUPLICATED, frame, -1)
          | none, none => (purc_set_error inst purc_error.PURC_ERROR_INVALID_VALUE, frame, -1)
          | none, some v =>
            (purc_variant_ref inst v,
              { frame with ctxt := some { ctxt with for_var := some v } }, 0)) := by
  cases hf : ctxt.for_var <;> cases val <;> simp [process_attr_for, hctxt, hf]

theorem process_attr_exclusively_cases (inst : pcinst) (frame : pcintr_stack_frame)
    (ctxt : ctxt_for_match) (val : purc_variant_t) (hctxt : frame.ctxt = some ctxt) :
    process_attr_exclusively inst frame val
      = some (match ctxt.exclusively, val with
          | some _, _ => (purc_set_error inst purc_error.PURC_ERROR_DUPLICATED, frame, -1)
          | none, none => (purc_set_error inst purc_error.PURC_ERROR_INVALID_VALUE, frame, -1)
          | none, some v =>
            (purc_variant_ref inst v,
              { frame with ctxt := some { ctxt with exclusively := some v } }, 0)) := by
  cases hf : ctxt.exclusively <;> cases val <;> simp [process_attr_exclusively, hctxt, hf]

theorem attr_found_keyword (pchvml_keyword : pchvml_keyword_enum → purc_atom_t)
    (hinj : Function.Injective pchvml_keyword) (inst : pcinst) (frame : pcintr_stack_frame)
    (ctxt : ctxt_for_match) (k : pchvml_keyword_enum) (val : purc_variant_t)
    (attr : pcvdom_attr) (hctxt : frame.ctxt = some ctxt) (hname : pchvml_keyword k ≠ 0)
    (hop : attr.op = pchvml_attr_operator.PCHVML_ATTRIBUTE_ASSIGNMENT) :
    attr_found pchvml_keyword inst frame (pchvml_keyword k) val attr
      = some (match slot_value ctxt (keyword_slot k), val with
          | some _, _ => (purc_set_error inst purc_error.PURC_ERROR_DUPLICATED, frame, -1)
          | none, none => (purc_set_error inst purc_error.PURC_ERROR_INVALID_VALUE, frame, -1)
          | none, some v =>
            (purc_variant_ref inst v,
              { frame with ctxt := some (slot_store ctxt v (keyword_slot k)) }, 0)) := by
  have h1 : pchvml_keyword pchvml_keyword_enum.FOR
      ≠ pchvml_keyword pchvml_keyword_enum.EXCLUSIVELY := fun h => by cases hinj h
  have h2 : pchvml_keyword pchvml_keyword_enum.FOR
      ≠ pchvml_keyword pchvml_keyword_enum.EXCL := fun h => by cases hinj h
  cases k with
  | FOR =>
    simp only [attr_found, hname, hop, if_false, if_true, ne_eq, not_true_eq_false,
      process_attr_for_cases inst frame ctxt val hctxt, keyword_slot, slot_value, slot_store]
  | EXCLUSIVELY =>
    simp only [attr_found, hname, hop, h1, if_false, if_true, ne_eq, not_true_eq_false,
      process_attr_exclusively_cases inst frame ctxt val hctxt, keyword_slot, slot_value,
      slot_store]
  | EXCL =>
    by_cases h3 : pchvml_keyword pchvml_keyword_enum.EXCLUSIVELY
        = pchvml_keyword pchvml_keyword_enum.EXCL
    · simp only [attr_found, hname, hop, h2, h3, if_false, if_true, ne_eq, not_true_eq_false,
        process_attr_exclusively_cases inst frame ctxt val hctxt, keyword_slot, slot_value,
        slot_store]
    · simp only [attr_found, hname, hop, h2, h3, if_false, if_true, ne_eq, not_true_eq_false,
        process_attr_exclusively_cases inst frame ctxt val hctxt, keyword_slot, slot_value,
        slot_store]

/-- C7: for the keyword for, and for the keywords exclusively and excl, which share
one slot, attr_found returns 0 exactly when the slot of the keyword is unbound and
the value is defined, and it then stores the value in that slot with one more
reference; when the slot is bound it returns -1 with error DUPLICATED, whether or
not the value is defined; when the slot is unbound and the value undefined it
returns -1 with error INVALID_VALUE; on both failures the frame and its context
are unchanged. -/
theorem attr_found_binds_each_slot_once (pchvml_keyword : pchvml_keyword_enum → purc_atom_t)
    (hinj : Function.Injective pchvml_keyword) (inst : pcinst) (frame : pcintr_stack_frame)
    (ctxt : ctxt_for_match) (k : pchvml_keyword_enum) (val : purc_variant_t)
    (attr : pcvdom_attr) (hctxt : frame.ctxt = some ctxt) (hname : pchvml_keyword k ≠ 0)
    (hop : attr.op = pchvml_attr_operator.PCHVML_ATTRIBUTE_ASSIGNMENT) :
    ∃ inst1 frame1 r,
      attr_found pchvml_keyword inst frame (pchvml_keyword k) val attr
        = some (inst1, frame1, r) ∧
      (r = 0 ↔ slot_value ctxt (keyword_slot k) = none ∧ val ≠ none) ∧
      (∀ v, slot_value ctxt (keyword_slot k) = none → val = some v →
        frame1 = { frame with ctxt := some (slot_store ctxt v (keyword_slot k)) } ∧
        inst1 = purc_variant_ref inst v) ∧
      (slot_value ctxt (keyword_slot k) ≠ none →
        r = -1 ∧ inst1.last_error = purc_error.PURC_ERROR_DUPLICATED ∧ frame1 = frame) ∧
      (slot_value ctxt (keyword_slot k) = none → val = none →
        r = -1 ∧ inst1.last_error = purc_error.PURC_ERROR_INVALID_VALUE ∧ frame1 = frame) := by
  have h := attr_found_keyword pchvml_keyword hinj inst frame ctxt k val attr hctxt hname hop
  cases hs : slot_value ctxt (keyword_slot k) with
  | some w =>
    rw [hs] at h
    refine ⟨_, _, _, h, ?_, ?_, ?_, ?_⟩
    · simp
    · intro v hv
      cases hv
    · intro _
      exact ⟨rfl, rfl, rfl⟩
    · intro hv
      cases hv
  | none =>
    rw [hs] at h
    cases val with
    | none =>
      refine ⟨_, _, _, h, ?_, ?_, ?_, ?_⟩
      · simp
      · intro v _ hv
        cases hv
      · intro hv
        exact absurd rfl hv
      · intro _ _
        exact ⟨rfl, rfl, rfl⟩
    | some v =>
      refine ⟨_, _, _, h, ?_, ?_, ?_, ?_⟩
      · simp
      · intro v1 _ hv
        cases hv
        exact ⟨rfl, rfl⟩
      · intro hv
        exact absurd rfl hv
      · intro _ hv
        cases hv

theorem sample_keyword_injective : Function.Injective sample_keyword := by
  intro a b h
  cases a <;> cases b <;> first | rfl | (exact absurd h (by decide))

theorem attr_found_binds_each_slot_once_witness :
    ∃ inst1 frame1 r,
      attr_found sample_keyword sample_inst (sample_frame (some sample_ctxt_for42))
          (sample_keyword pchvml_keyword_enum.EXCL) (some purc_variant.undefined)
          ⟨3, pchvml_attr_operator.PCHVML_ATTRIBUTE_ASSIGNMENT, some purc_variant.undefined⟩
        = some (inst1, frame1, r) ∧
      (r = 0 ↔ slot_value sample_ctxt_for42 (keyword_slot pchvml_keyword_enum.EXCL) = none ∧
        some purc_variant.undefined ≠ none) ∧
      (∀ v, slot_value sample_ctxt_for42 (keyword_slot pchvml_keyword_enum.EXCL) = none →
        some purc_variant.undefined = some v →
        frame1 = { sample_frame (some sample_ctxt_for42) with
          ctxt := some (slot_store sample_ctxt_for42 v
            (keyword_slot pchvml_keyword_enum.EXCL)) } ∧
        inst1 = purc_variant_ref sample_inst v) ∧
      (slot_value sample_ctxt_for42 (keyword_slot pchvml_keyword_enum.EXCL) ≠ none →
        r = -1 ∧ inst1.last_error = purc_error.PURC_ERROR_DUPLICATED ∧
        frame1 = sample_frame (some sample_ctxt_for42)) ∧
      (slot_value sample_ctxt_for42 (keyword_slot pchvml_keyword_enum.EXCL) = none →
        some purc_variant.undefined = none →
        r = -1 ∧ inst1.last_error = purc_error.PURC_ERROR_INVALID_VALUE ∧
        frame1 = sample_frame (some sample_ctxt_for42)) :=
  attr_found_binds_each_slot_once sample_keyword sample_keyword_injective sample_inst
    (sample_frame (some sample_ctxt_for42)) sample_ctxt_for42 pchvml_keyword_enum.EXCL
    (some purc_variant.undefined)
    ⟨3, pchvml_attr_operator.PCHVML_ATTRIBUTE_ASSIGNMENT, some purc_variant.undefined⟩
    rfl (by decide) rfl

theorem attr_found_slot (pchvml_keyword : pchvml_keyword_enum → purc_atom_t)
    (inst : pcinst) (frame : pcintr_stack_frame) (ctxt : ctxt_for_match)
    (name : purc_atom_t) (val : purc_variant_t) (attr : pcvdom_attr)
    (hctxt : frame.ctxt = some ctxt) (hname : name ≠ 0)
    (hop : attr.op = pchvml_attr_operator.PCHVML_ATTRIBUTE_ASSIGNMENT) :
    attr_found pchvml_keyword inst frame name val attr
      = some (match attr_slot pchvml_keyword name with
          | none => (purc_set_error inst purc_error.PURC_ERROR_NOT_IMPLEMENTED, frame, -1)
          | some sl =>
            match slot_value ctxt sl, val with
            | some _, _ => (purc_set_error inst purc_error.PURC_ERROR_DUPLICATED, frame, -1)
            | none, none =>
              (purc_set_error inst purc_error.PURC_ERROR_INVALID_VALUE, frame, -1)
            | none, some v =>
              (purc_variant_ref inst v,
                { frame with ctxt := some (slot_store ctxt v sl) }, 0)) := by
  by_cases h1 : pchvml_keyword pchvml_keyword_enum.FOR = name
  · simp only [attr_found, attr_slot, hname, hop, h1, if_false, if_true, ne_eq,
      not_true_eq_false, process_attr_for_cases inst frame ctxt val hctxt, slot_value,
      slot_store]
  · by_cases h2 : pchvml_keyword pchvml_keyword_enum.EXCLUSIVELY = name
    · simp only [attr_found, attr_slot, hname, hop, h1, h2, if_false, if_true, ne_eq,
        not_true_eq_false, process_attr_exclusively_cases inst frame ctxt val hctxt,
        slot_value, slot_store]
    · by_cases h3 : pchvml_keyword pchvml_keyword_enum.EXCL = name
      · simp only [attr_found, attr_slot, hname, hop, h1, h2, h3, if_false, if_true, ne_eq,
          not_true_eq_false, process_attr_exclusively_cases inst frame ctxt val hctxt,
          slot_value, slot_store]
      · simp only [attr_found, attr_slot, hname, hop, h1, h2, h3, if_false, if_true, ne_eq,
          not_true_eq_false]

theorem slot_value_store_same (ctxt : ctxt_for_match) (v : purc_variant) (sl : match_slot) :
    slot_value (slot_store ctxt v sl) sl = some v := by
  cases sl <;> rfl

theorem slot_value_store_other (ctxt : ctxt_for_match) (v : purc_variant)
    (sl sl2 : match_slot) (h : sl2 ≠ sl) :
    slot_value (slot_store ctxt v sl) sl2 = slot_value ctxt sl2 := by
  cases sl <;> cases sl2 <;> first | rfl | exact absurd rfl h

theorem slot_store_flags (ctxt : ctxt_for_match) (v : purc_variant) (sl : match_slot) :
    (slot_store ctxt v sl).matched = ctxt.matched ∧
    (slot_store ctxt v sl).is_exclusively = ctxt.is_exclusively := by
  cases sl <;> exact ⟨rfl, rfl⟩

theorem pcintr_vdom_walk_attrs_spec (pchvml_keyword : pchvml_keyword_enum → purc_atom_t) :
    ∀ (attrs : List pcvdom_attr) (inst : pcinst) (frame : pcintr_stack_frame)
      (ctxt : ctxt_for_match),
      (∀ a ∈ attrs, a.name ≠ 0 ∧ a.op = pchvml_attr_operator.PCHVML_ATTRIBUTE_ASSIGNMENT) →
      frame.ctxt = some ctxt →
      ∃ inst1 frame1 ctxt1 r,
        pcintr_vdom_walk_attrs pchvml_keyword attrs inst frame = some (inst1, frame1, r) ∧
        frame1.ctxt = some ctxt1 ∧ ctxt1.matched = ctxt.matched ∧
        ctxt1.is_exclusively = ctxt.is_exclusively ∧
        frame1.result_var = frame.result_var ∧
        (r = 0 →
          (∀ a ∈ attrs, a.val ≠ none ∧
            ∃ sl, attr_slot pchvml_keyword a.name = some sl ∧ slot_value ctxt sl = none) ∧
          (attrs.map (fun a => attr_slot pchvml_keyword a.name)).Nodup) := by
  intro attrs
  induction attrs with
  | nil =>
    intro inst frame ctxt _ hctxt
    exact ⟨inst, frame, ctxt, 0, rfl, hctxt, rfl, rfl, rfl, fun _ => ⟨by simp, by simp⟩⟩
  | cons a rest ih =>
    intro inst frame ctxt hwf hctxt
    have ha := hwf a (List.mem_cons_self _ _)
    have hrest : ∀ b ∈ rest,
        b.name ≠ 0 ∧ b.op = pchvml_attr_operator.PCHVML_ATTRIBUTE_ASSIGNMENT :=
      fun b hb => hwf b (List.mem_cons_of_mem _ hb)
    have hf := attr_found_slot pchvml_keyword inst frame ctxt a.name a.val a hctxt ha.1 ha.2
    cases hsl : attr_slot pchvml_keyword a.name with
    | none =>
      simp only [hsl] at hf
      refine ⟨purc_set_error inst purc_error.PURC_ERROR_NOT_IMPLEMENTED, frame, ctxt, -1, ?_, hctxt, rfl, rfl, rfl,
        ?_⟩
      · simp [pcintr_vdom_walk_attrs, hf]
      · intro h
        cases h
    | some sl =>
      simp only [hsl] at hf
      cases hsv : slot_value ctxt sl with
      | some w =>
        simp only [hsv] at hf
        refine ⟨purc_set_error inst purc_error.PURC_ERROR_DUPLICATED, frame, ctxt, -1, ?_, hctxt, rfl, rfl, rfl,
        ?_⟩
        · simp [pcintr_vdom_walk_attrs, hf]
        · intro h
          cases h
      | none =>
        simp only [hsv] at hf
        cases hval : a.val with
        | none =>
          simp only [hval] at hf
          refine ⟨purc_set_error inst purc_error.PURC_ERROR_INVALID_VALUE, frame, ctxt, -1, ?_, hctxt, rfl, rfl, rfl,
        ?_⟩
          · simp [pcintr_vdom_walk_attrs, hval, hf]
          · intro h
            cases h
        | some v =>
          simp only [hval] at hf
          obtain ⟨inst1, frame1, ctxt1, r, hw, hc1, hm1, hx1, hr1, hgood⟩ :=
            ih (purc_variant_ref inst v)
              { frame with ctxt := some (slot_store ctxt v sl) } (slot_store ctxt v sl)
              hrest rfl
          refine ⟨inst1, frame1, ctxt1, r, ?_, hc1, ?_, ?_, hr1, ?_⟩
          · simp [pcintr_vdom_walk_attrs, hval, hf, hw]
          · rw [hm1]
            exact (slot_store_flags ctxt v sl).1
          · rw [hx1]
            exact (slot_store_flags ctxt v sl).2
          · intro hr
            obtain ⟨hall, hnd⟩ := hgood hr
            have hne : ∀ b ∈ rest, attr_slot pchvml_keyword b.name ≠ some sl := by
              intro b hb heq
              obtain ⟨_, sl2, hs2, hv2⟩ := hall b hb
              rw [heq] at hs2
              cases hs2
              rw [slot_value_store_same] at hv2
              cases hv2
            constructor
            · intro b hb
              rcases List.mem_cons.mp hb with rfl | hb
              · exact ⟨by simp [hval], sl, hsl, hsv⟩
              · obtain ⟨hbv, sl2, hs2, hv2⟩ := hall b hb
                refine ⟨hbv, sl2, hs2, ?_⟩
                have hd : sl2 ≠ sl := by
                  intro h
                  subst h
                  exact hne b hb hs2
                rw [slot_value_store_other ctxt v sl sl2 hd] at hv2
                exact hv2
            · rw [List.map_cons, List.nodup_cons]
              refine ⟨?_, hnd⟩
              intro hmem
              obtain ⟨b, hb, heq⟩ := List.mem_map.mp hmem
              rw [hsl] at heq
              exact hne b hb heq

/-- C8: when binding `@` and allocating the context succeed and some attribute of
the element has an undefined value, a name other than for, exclusively and excl,
or a slot an earlier attribute already bound, after_pushed returns NULL; the
context it leaves has matched false and is_exclusively false, the result of the
frame is unchanged, and the outcome does not depend on the rule parser and
evaluator, so post_process did not run. -/
theorem after_pushed_fails_on_bad_attribute (env : match_env) (inst : pcinst)
    (stack : pcintr_stack) (frame : pcintr_stack_frame) (up : List pcintr_stack_frame)
    (pos : pcvdom_element) (a : purc_variant)
    (hfr : stack.frames = frame :: up) (hat : env.at_sign = some a)
    (hcalloc : env.calloc_ok = true)
    (hwf : ∀ x ∈ pos.attrs,
      x.name ≠ 0 ∧ x.op = pchvml_attr_operator.PCHVML_ATTRIBUTE_ASSIGNMENT)
    (hbad : (∃ x ∈ pos.attrs, x.val = none) ∨
      (∃ x ∈ pos.attrs, attr_slot env.pchvml_keyword x.name = none) ∨
      ¬ (pos.attrs.map (fun x => attr_slot env.pchvml_keyword x.name)).Nodup) :
    (∃ inst1 frame1 ctxt1,
      after_pushed env inst stack pos
        = some (inst1, { stack with frames := frame1 :: up }, none) ∧
      frame1.ctxt = some ctxt1 ∧ ctxt1.matched = false ∧ ctxt1.is_exclusively = false ∧
      frame1.result_var = frame.result_var) ∧
    (∀ api2 : match_for_api,
      after_pushed { env with api := api2 } inst stack pos
        = after_pushed env inst stack pos) := by
  obtain ⟨inst1, frame1, ctxt1, r, hw, hc1, hm1, hx1, hr1, hgood⟩ :=
    pcintr_vdom_walk_attrs_spec env.pchvml_keyword pos.attrs
      (purc_variant_ref
        (PURC_VARIANT_SAFE_CLEAR inst
          (frame.symbol_vars purc_symbol_var.PURC_SYMBOL_VAR_AT_SIGN)) a)
      { pos := some pos, ctxt := some ctxt_for_match_zero,
        symbol_vars := Function.update frame.symbol_vars
          purc_symbol_var.PURC_SYMBOL_VAR_AT_SIGN (some a),
        result_var := frame.result_var, result_from_child := frame.result_from_child }
      ctxt_for_match_zero hwf rfl
  have hr : r ≠ 0 := by
    intro h0
    obtain ⟨hall, hnd⟩ := hgood h0
    rcases hbad with ⟨x, hx, hv⟩ | ⟨x, hx, hs⟩ | hdup
    · exact (hall x hx).1 hv
    · obtain ⟨_, sl, hsl, _⟩ := hall x hx
      rw [hs] at hsl
      cases hsl
    · exact hdup hnd
  constructor
  · refine ⟨inst1, frame1, ctxt1, ?_, hc1, hm1, hx1, hr1⟩
    simp [after_pushed, hfr, pcintr_set_symbol_var_at_sign, hat, hcalloc, hw, hr]
  · intro api2
    simp [after_pushed, hfr, pcintr_set_symbol_var_at_sign, hat, hcalloc, hw, hr]

theorem after_pushed_fails_on_bad_attribute_witness :
    (∃ inst1 frame1 ctxt1,
      after_pushed sample_env sample_inst (sample_stack none) sample_match_duplicate
        = some (inst1, { sample_stack none with frames := frame1 :: [sample_parent] }, none) ∧
      frame1.ctxt = some ctxt1 ∧ ctxt1.matched = false ∧ ctxt1.is_exclusively = false ∧
      frame1.result_var = (sample_frame none).result_var) ∧
    (∀ api2 : match_for_api,
      after_pushed { sample_env with api := api2 } sample_inst (sample_stack none)
          sample_match_duplicate
        = after_pushed sample_env sample_inst (sample_stack none) sample_match_duplicate) :=
  after_pushed_fails_on_bad_attribute sample_env sample_inst (sample_stack none)
    (sample_frame none) [sample_parent] sample_match_duplicate (purc_variant.other 200)
    rfl rfl rfl (by decide) (Or.inr (Or.inr (by decide)))

/-! ## Properties of `pcintr_find_named_var` -/

theorem pcvarmgr_list_get_spec (inst : pcinst) (mgr : pcvarmgr_list) (name : String) :
    (pcvarmgr_list_get inst mgr name).2 = purc_variant_object_get_by_ckey mgr.object name ∧
    (pcvarmgr_list_get inst mgr name).1.inst_variables = inst.inst_variables := by
  unfold pcvarmgr_list_get
  cases purc_variant_object_get_by_ckey mgr.object name <;> exact ⟨rfl, rfl⟩

theorem pcintr_get_scope_variable_spec (inst : pcinst) (elem : pcvdom_element)
    (name : String) :
    (pcintr_get_scope_variable inst elem name).2 = scope_binding elem name ∧
    (pcintr_get_scope_variable inst elem name).1.inst_variables = inst.inst_variables := by
  unfold pcintr_get_scope_variable scope_binding
  cases elem.scope with
  | none => exact ⟨rfl, rfl⟩
  | some sc => exact pcvarmgr_list_get_spec inst sc name

theorem _find_named_scope_var_elem_spec :
    ∀ (inst : pcinst) (elem : pcvdom_element) (name : String),
      (_find_named_scope_var_elem inst elem name).2
        = (lexical_chain elem).findSome? (fun x => scope_binding x name) ∧
      (_find_named_scope_var_elem inst elem name).1.inst_variables = inst.inst_variables ∧
      ((_find_named_scope_var_elem inst elem name).2 = none →
        (_find_named_scope_var_elem inst elem name).1.last_error
          = purc_error.PCVARIANT_ERROR_NOT_FOUND)
  | inst, pcvdom_element.mk tag attrs children scope none, name => by
    have h := pcintr_get_scope_variable_spec inst
      (pcvdom_element.mk tag attrs children scope none) name
    rcases hg : pcintr_get_scope_variable inst
      (pcvdom_element.mk tag attrs children scope none) name with ⟨i1, v⟩
    rw [hg] at h
    simp only at h
    cases v with
    | none =>
      simp [_find_named_scope_var_elem, hg, lexical_chain, ← h.1, h.2, purc_set_error]
    | some w =>
      simp [_find_named_scope_var_elem, hg, lexical_chain, ← h.1, h.2]
  | inst, pcvdom_element.mk tag attrs children scope (some p), name => by
    have h := pcintr_get_scope_variable_spec inst
      (pcvdom_element.mk tag attrs children scope (some p)) name
    rcases hg : pcintr_get_scope_variable inst
      (pcvdom_element.mk tag attrs children scope (some p)) name with ⟨i1, v⟩
    rw [hg] at h
    simp only at h
    have ih := _find_named_scope_var_elem_spec i1 p name
    cases v with
    | none =>
      simp only [_find_named_scope_var_elem, hg, lexical_chain, List.findSome?_cons, ← h.1]
      exact ⟨ih.1, ih.2.1.trans h.2, ih.2.2⟩
    | some w =>
      simp [_find_named_scope_var_elem, hg, lexical_chain, ← h.1, h.2]

theorem _find_named_scope_var_spec (inst : pcinst) (pos : Option pcvdom_element)
    (name : String) :
    (_find_named_scope_var inst pos name).2 = lexical_binding pos name ∧
    (_find_named_scope_var inst pos name).1.inst_variables = inst.inst_variables := by
  cases pos with
  | none => exact ⟨rfl, rfl⟩
  | some e =>
    have h := _find_named_scope_var_elem_spec inst e name
    exact ⟨h.1, h.2.1⟩

theorem _find_doc_buildin_var_spec (inst : pcinst) (vdom : Option purc_vdom)
    (name : String) :
    (_find_doc_buildin_var inst vdom name).2 = document_binding vdom name ∧
    (_find_doc_buildin_var inst vdom name).1.inst_variables = inst.inst_variables := by
  cases vdom with
  | none => exact ⟨rfl, rfl⟩
  | some d =>
    have h := pcvarmgr_list_get_spec inst d.document_variables name
    rcases hg : pcvarmgr_list_get inst d.document_variables name with ⟨i1, v⟩
    rw [hg] at h
    simp only at h
    cases v <;>
      simp [_find_doc_buildin_var, pcvdom_document_get_variable, document_binding, hg,
        ← h.1, h.2, purc_set_error]

theorem _find_inst_var_spec (inst : pcinst) (varmgr : pcvarmgr_list) (name : String)
    (hvm : inst.inst_variables = some varmgr) :
    ∃ inst1, _find_inst_var inst name = some (inst1, instance_binding inst name) ∧
      (instance_binding inst name = none →
        inst1.last_error = purc_error.PCVARIANT_ERROR_NOT_FOUND) := by
  have h := pcvarmgr_list_get_spec inst varmgr name
  rcases hg : pcvarmgr_list_get inst varmgr name with ⟨i1, v⟩
  rw [hg] at h
  simp only at h
  cases v with
  | none =>
    refine ⟨purc_set_error i1 purc_error.PCVARIANT_ERROR_NOT_FOUND, ?_, fun _ => rfl⟩
    simp [_find_inst_var, instance_binding, hvm, hg, ← h.1]
  | some w =>
    refine ⟨i1, ?_, ?_⟩
    · simp [_find_inst_var, instance_binding, hvm, hg, ← h.1]
    · simp [instance_binding, hvm, ← h.1]

theorem pcintr_find_named_var_eq (inst : pcinst) (stack : pcintr_stack)
    (frame : pcintr_stack_frame) (name : String) (varmgr : pcvarmgr_list)
    (hfr : pcintr_stack_get_bottom_frame stack = some frame)
    (hvm : inst.inst_variables = some varmgr) :
    ∃ inst1, pcintr_find_named_var inst stack name
        = some (inst1, resolve inst stack frame.pos name) ∧
      (resolve inst stack frame.pos name = none →
        inst1.last_error = purc_error.PCVARIANT_ERROR_NOT_FOUND) ∧
      (resolve inst stack frame.pos name ≠ none →
        inst1.last_error = purc_error.PURC_ERROR_OK) := by
  have h1 := _find_named_scope_var_spec inst frame.pos name
  rcases hg1 : _find_named_scope_var inst frame.pos name with ⟨i1, v1⟩
  rw [hg1] at h1
  simp only at h1
  cases v1 with
  | some w =>
    refine ⟨purc_clr_error i1, ?_, ?_, ?_⟩
    · simp [pcintr_find_named_var, hfr, hg1, resolve, ← h1.1]
    · simp [resolve, ← h1.1]
    · intro _
      rfl
  | none =>
    have h2 := _find_doc_buildin_var_spec i1 stack.vdom name
    rcases hg2 : _find_doc_buildin_var i1 stack.vdom name with ⟨i2, v2⟩
    rw [hg2] at h2
    simp only at h2
    cases v2 with
    | some w =>
      refine ⟨purc_clr_error i2, ?_, ?_, ?_⟩
      · simp [pcintr_find_named_var, hfr, hg1, hg2, resolve, ← h1.1, ← h2.1]
      · simp [resolve, ← h1.1, ← h2.1]
      · intro _
        rfl
    | none =>
      have hvm2 : i2.inst_variables = some varmgr := by
        rw [h2.2, h1.2, hvm]
      obtain ⟨i3, h3, herr⟩ := _find_inst_var_spec i2 varmgr name hvm2
      have hib : instance_binding i2 name = instance_binding inst name := by
        unfold instance_binding
        rw [hvm2, hvm]
      rw [hib] at h3 herr
      cases hv3 : instance_binding inst name with
      | some w =>
        rw [hv3] at h3
        refine ⟨purc_clr_error i3, ?_, ?_, ?_⟩
        · simp [pcintr_find_named_var, hfr, hg1, hg2, h3, resolve, ← h1.1, ← h2.1, hv3]
        · simp [resolve, ← h1.1, ← h2.1, hv3]
        · intro _
          rfl
      | none =>
        rw [hv3] at h3
        refine ⟨purc_set_error i3 purc_error.PCVARIANT_ERROR_NOT_FOUND, ?_, ?_, ?_⟩
        · simp [pcintr_find_named_var, hfr, hg1, hg2, h3, resolve, ← h1.1, ← h2.1, hv3]
        · intro _
          rfl
        · simp [resolve, ← h1.1, ← h2.1, hv3]

/-- C9: on a stack with a bottom frame, pcintr_find_named_var returns the binding of
the nearest element of the chain from frame->pos upward that binds the name, if
there is one; otherwise the built-in binding of the document, if there is one;
otherwise the binding of the instance. So a lexical binding shadows the other
two and a document binding shadows the instance binding; the returned value is
that of a single scope. -/
theorem pcintr_find_named_var_first_scope_wins (inst : pcinst) (stack : pcintr_stack)
    (frame : pcintr_stack_frame) (name : String) (varmgr : pcvarmgr_list)
    (hfr : pcintr_stack_get_bottom_frame stack = some frame)
    (hvm : inst.inst_variables = some varmgr) :
    ∃ inst1 v, pcintr_find_named_var inst stack name = some (inst1, v) ∧
      (∀ w, lexical_binding frame.pos name = some w → v = some w) ∧
      (lexical_binding frame.pos name = none →
        ∀ w, document_binding stack.vdom name = some w → v = some w) ∧
      (lexical_binding frame.pos name = none → document_binding stack.vdom name = none →
        v = instance_binding inst name) := by
  obtain ⟨inst1, h, _, _⟩ := pcintr_find_named_var_eq inst stack frame name varmgr hfr hvm
  refine ⟨inst1, _, h, ?_, ?_, ?_⟩
  · intro w hw
    simp [resolve, hw]
  · intro hl w hw
    simp [resolve, hl, hw]
  · intro hl hd
    simp [resolve, hl, hd]

theorem pcintr_find_named_var_first_scope_wins_witness :
    ∃ inst1 v, pcintr_find_named_var sample_inst (sample_stack none) "x" = some (inst1, v) ∧
      (∀ w, lexical_binding (sample_frame none).pos "x" = some w → v = some w) ∧
      (lexical_binding (sample_frame none).pos "x" = none →
        ∀ w, document_binding (sample_stack none).vdom "x" = some w → v = some w) ∧
      (lexical_binding (sample_frame none).pos "x" = none →
        document_binding (sample_stack none).vdom "x" = none →
        v = instance_binding sample_inst "x") :=
  pcintr_find_named_var_first_scope_wins sample_inst (sample_stack none) (sample_frame none)
    "x" ⟨[("SYSTEM", purc_variant.other 100), ("x", purc_variant.other 103)], []⟩ rfl rfl

/-- C10: on a stack with a bottom frame, pcintr_find_named_var returns; it returns
the invalid variant with the last error NOT_FOUND exactly when the name is bound
in none of the lexical chain, the document and the instance, and whenever it
returns a value the last error is cleared. -/
theorem pcintr_find_named_var_not_found_iff_unbound (inst : pcinst) (stack : pcintr_stack)
    (frame : pcintr_stack_frame) (name : String) (varmgr : pcvarmgr_list)
    (hfr : pcintr_stack_get_bottom_frame stack = some frame)
    (hvm : inst.inst_variables = some varmgr) :
    ∃ inst1 v, pcintr_find_named_var inst stack name = some (inst1, v) ∧
      ((v = none ∧ inst1.last_error = purc_error.PCVARIANT_ERROR_NOT_FOUND) ↔
        (lexical_binding frame.pos name = none ∧ document_binding stack.vdom name = none ∧
          instance_binding inst name = none)) ∧
      (v ≠ none → inst1.last_error = purc_error.PURC_ERROR_OK) := by
  obtain ⟨inst1, h, hnf, hok⟩ := pcintr_find_named_var_eq inst stack frame name varmgr hfr hvm
  have hres : resolve inst stack frame.pos name = none ↔
      (lexical_binding frame.pos name = none ∧ document_binding stack.vdom name = none ∧
        instance_binding inst name = none) := by
    unfold resolve
    cases lexical_binding frame.pos name with
    | some w => simp
    | none =>
      cases document_binding stack.vdom name with
      | some w => simp
      | none => simp
  refine ⟨inst1, _, h, ?_, hok⟩
  constructor
  · intro hv
    exact hres.mp hv.1
  · intro hu
    exact ⟨hres.mpr hu, hnf (hres.mpr hu)⟩

theorem pcintr_find_named_var_not_found_iff_unbound_witness :
    ∃ inst1 v,
      pcintr_find_named_var sample_inst (sample_stack none) "nowhere" = some (inst1, v) ∧
      ((v = none ∧ inst1.last_error = purc_error.PCVARIANT_ERROR_NOT_FOUND) ↔
        (lexical_binding (sample_frame none).pos "nowhere" = none ∧
          document_binding (sample_stack none).vdom "nowhere" = none ∧
          instance_binding sample_inst "nowhere" = none)) ∧
      (v ≠ none → inst1.last_error = purc_error.PURC_ERROR_OK) :=
  pcintr_find_named_var_not_found_iff_unbound sample_inst (sample_stack none)
    (sample_frame none) "nowhere"
    ⟨[("SYSTEM", purc_variant.other 100), ("x", purc_variant.other 103)], []⟩ rfl rfl

/-! ## Properties of `pcintr_get_symbolized_var` and `pcintr_get_numbered_var` -/

theorem walk_parent_links_eq_drop :
    ∀ (number : Nat) (frame : List pcintr_stack_frame),
      walk_parent_links number frame = frame.drop number := by
  intro number
  induction number with
  | zero => intro frame; rfl
  | succ n ih =>
    intro frame
    cases frame with
    | nil => simp [walk_parent_links, pcintr_stack_frame_get_parent, ih]
    | cons f rest => simp [walk_parent_links, pcintr_stack_frame_get_parent, ih]

theorem _to_symbol_symbol_char (inst : pcinst) (sym : purc_symbol_var) :
    _to_symbol inst (symbol_char sym) = (inst, some sym) := by
  cases sym <;> rfl

/-- C11: when the bottom frame has at least N ancestors, pcintr_get_symbolized_var
called with N and the character of any of the seven symbols returns the entry
of that symbol in the frame N parent links above the bottom frame (that entry
being valid, as the function asserts), and clears the last error. -/
theorem pcintr_get_symbolized_var_reads_nth_ancestor (inst : pcinst) (stack : pcintr_stack)
    (number : Nat) (sym : purc_symbol_var) (frame : pcintr_stack_frame) (v : purc_variant)
    (hframe : stack.frames[number]? = some frame)
    (hv : frame.symbol_vars sym = some v) :
    pcintr_get_symbolized_var inst stack number (symbol_char sym)
      = some (purc_clr_error inst, some v) := by
  have hlt : number < stack.frames.length := by
    by_contra hge
    rw [List.getElem?_eq_none (by omega)] at hframe
    cases hframe
  have hdrop : stack.frames.drop number
      = frame :: stack.frames.drop (number + 1) := by
    have hget : stack.frames[number] = frame := by
      rw [List.getElem?_eq_getElem hlt] at hframe
      exact Option.some.inj hframe
    rw [← hget]
    exact List.drop_eq_getElem_cons hlt
  simp [pcintr_get_symbolized_var, _to_symbol_symbol_char, walk_parent_links_eq_drop, hdrop, hv]

theorem pcintr_get_symbolized_var_reads_nth_ancestor_witness :
    pcintr_get_symbolized_var sample_inst (sample_stack none) 1
        (symbol_char purc_symbol_var.PURC_SYMBOL_VAR_QUESTION_MARK)
      = some (purc_clr_error sample_inst, some (purc_variant.other 42)) :=
  pcintr_get_symbolized_var_reads_nth_ancestor sample_inst (sample_stack none) 1
    purc_symbol_var.PURC_SYMBOL_VAR_QUESTION_MARK sample_parent (purc_variant.other 42)
    rfl rfl

/-- C12: on a stack of two frames, whose bottom frame has one ancestor, a request
for the second ancestor makes pcintr_get_symbolized_var and
pcintr_get_numbered_var return the invalid variant, but the last error stays
PURC_ERROR_OK: no function sets NOT_FOUND on that path. -/
theorem get_symbolized_var_beyond_root_sets_no_error :
    pcintr_get_symbolized_var sample_inst (sample_stack none) 2 '?'
      = some (sample_inst, none) ∧
    pcintr_get_numbered_var sample_inst (sample_stack none) 2 = (sample_inst, none) ∧
    sample_inst.last_error = purc_error.PURC_ERROR_OK ∧
    sample_inst.last_error ≠ purc_error.PCVARIANT_ERROR_NOT_FOUND := by
  refine ⟨rfl, rfl, rfl, ?_⟩
  decide

theorem get_var_beyond_root_leaves_error (inst : pcinst) (stack : pcintr_stack)
    (number : Nat) (sym : purc_symbol_var) (hn : stack.frames.length ≤ number) :
    pcintr_get_symbolized_var inst stack number (symbol_char sym) = some (inst, none) ∧
    pcintr_get_numbered_var inst stack number = (inst, none) := by
  have hdrop : stack.frames.drop number = [] := List.drop_eq_nil_of_le hn
  constructor
  · simp [pcintr_get_symbolized_var, _to_symbol_symbol_char, walk_parent_links_eq_drop, hdrop]
  · simp [pcintr_get_numbered_var, walk_parent_links_eq_drop, hdrop]

/-! ## Properties of the observer table -/

/-- C13: on a manager that binds x and has no observer, registering an observer of x
for the kind displaced twice succeeds both times but leaves no entry of kind
displaced: the one entry recorded is of kind attached; the following removal for
the kind displaced succeeds and removes nothing, so the table is not as it was
before the first registration. The same three calls for the kind detached do
leave the table as it was. -/
theorem add_observer_displaced_twice_then_remove :
    (pcvarmgr_list_add_observer true true 7 sample_inst sample_mgr "x" "displaced").2.2 = true ∧
    (pcvarmgr_list_add_observer true true 7 sample_inst
      (pcvarmgr_list_add_observer true true 7 sample_inst sample_mgr "x" "displaced").2.1
      "x" "displaced")
      = (sample_inst,
          ⟨sample_mgr.object, [⟨"x", var_event_type.VAR_EVENT_TYPE_ATTACHED, 7⟩]⟩, true) ∧
    (pcvarmgr_list_remove_observer 7 sample_inst
      ⟨sample_mgr.object, [⟨"x", var_event_type.VAR_EVENT_TYPE_ATTACHED, 7⟩]⟩
      "x" "displaced")
      = (sample_inst,
          ⟨sample_mgr.object, [⟨"x", var_event_type.VAR_EVENT_TYPE_ATTACHED, 7⟩]⟩, true) ∧
    sample_mgr.var_observers = [] ∧
    (pcvarmgr_list_remove_observer 7 sample_inst
      (pcvarmgr_list_add_observer true true 7 sample_inst
        (pcvarmgr_list_add_observer true true 7 sample_inst sample_mgr "x" "detached").2.1
        "x" "detached").2.1
      "x" "detached")
      = (sample_inst, sample_mgr, true) := by
  refine ⟨rfl, ?_, ?_, rfl, ?_⟩
  · rfl
  · rfl
  · rfl

/-- C14: on a manager that binds x and has no observer, a successful registration
for the kind displaced records an entry tagged attached, not displaced; a change
of kind displaced to x then notifies nobody, and a change of kind attached
notifies the observer. -/
theorem add_observer_displaced_records_attached :
    (pcvarmgr_list_add_observer true true 7 sample_inst sample_mgr "x" "displaced")
      = (sample_inst,
          ⟨sample_mgr.object, [⟨"x", var_event_type.VAR_EVENT_TYPE_ATTACHED, 7⟩]⟩, true) ∧
    mgr_change_handler (some 50) (some 51) none
        (some ⟨sample_mgr.object, [⟨"x", var_event_type.VAR_EVENT_TYPE_ATTACHED, 7⟩]⟩)
        (purc_variant.string 60 "x")
      = some (true,
          some ⟨sample_mgr.object, [⟨"x", var_event_type.VAR_EVENT_TYPE_ATTACHED, 7⟩]⟩, []) ∧
    mgr_grow_handler (some 50) (some 51) none
        (some ⟨sample_mgr.object, [⟨"x", var_event_type.VAR_EVENT_TYPE_ATTACHED, 7⟩]⟩)
        (purc_variant.string 60 "x")
      = some (true,
          some ⟨sample_mgr.object, [⟨"x", var_event_type.VAR_EVENT_TYPE_ATTACHED, 7⟩]⟩,
          [⟨7, none, some (purc_variant.string 50 "change"),
            some (purc_variant.string 51 "attached"), none⟩]) := by
  refine ⟨rfl, ?_, ?_⟩
  · rfl
  · rfl

/-- C15: when the name is not bound in the store, pcvarmgr_list_add_observer returns
false with the last error NOT_FOUND, for every event string and every current
stack, and the manager, its observer table included, is unchanged. -/
theorem add_observer_unbound_name_fails (malloc_ok push_ok : Bool) (stack : Nat)
    (inst : pcinst) (list : pcvarmgr_list) (name event : String)
    (hunbound : purc_variant_object_get_by_ckey list.object name = none) :
    pcvarmgr_list_add_observer malloc_ok push_ok stack inst list name event
      = (purc_set_error inst purc_error.PCVARIANT_ERROR_NOT_FOUND, list, false) := by
  simp [pcvarmgr_list_add_observer, pcvarmgr_list_get, hunbound]

theorem add_observer_unbound_name_fails_witness :
    pcvarmgr_list_add_observer true true 7 sample_inst sample_mgr "y" "attached"
      = (purc_set_error sample_inst purc_error.PCVARIANT_ERROR_NOT_FOUND, sample_mgr, false) :=
  add_observer_unbound_name_fails true true 7 sample_inst sample_mgr "y" "attached" rfl

theorem mgr_handler_loop_eq (source type sub_type : purc_variant_t) (name : String)
    (kind : var_event_type) :
    ∀ table : List var_observe,
      mgr_handler_loop source type sub_type (some name) kind table
        = some (expected_dispatch source type sub_type name kind table) := by
  intro table
  induction table with
  | nil => rfl
  | cons obs rest ih =>
    by_cases h : name = obs.name ∧ obs.type = kind
    · have h2 : obs.name = name ∧ obs.type = kind := ⟨h.1.symm, h.2⟩
      have hf : expected_dispatch source type sub_type name kind (obs :: rest)
          = ⟨obs.stack, source, type, sub_type, none⟩ ::
            expected_dispatch source type sub_type name kind rest := by
        unfold expected_dispatch
        rw [List.filter_cons_of_pos (by simpa using h2)]
        rfl
      rw [mgr_handler_loop, ih, hf]
      exact if_pos h
    · have h2 : ¬ (obs.name = name ∧ obs.type = kind) := fun hh => h ⟨hh.1.symm, hh.2⟩
      have hf : expected_dispatch source type sub_type name kind (obs :: rest)
          = expected_dispatch source type sub_type name kind rest := by
        unfold expected_dispatch
        rw [List.filter_cons_of_neg (by simpa using h2)]
      rw [mgr_handler_loop, ih, hf]
      exact if_neg h

/-- C16: with both message strings allocated, the grow, shrink and change handlers
called for the member name return true, leave the manager as it was, and
dispatch exactly the messages expected for the kinds attached, detached and
displaced: one to the stack of each entry with that name and that kind, in
table order, none for another entry; each message has the type string change,
the sub-type string of the kind, and no payload. -/
theorem mgr_handlers_dispatch_to_matching_observers (type_addr sub_type_addr addr : Nat)
    (source : purc_variant_t) (mgr : pcvarmgr_list) (name : String) :
    mgr_grow_handler (some type_addr) (some sub_type_addr) source (some mgr)
        (purc_variant.string addr name)
      = some (true, some mgr,
          expected_dispatch source (some (purc_variant.string type_addr "change"))
            (some (purc_variant.string sub_type_addr "attached")) name
            var_event_type.VAR_EVENT_TYPE_ATTACHED mgr.var_observers) ∧
    mgr_shrink_handler (some type_addr) (some sub_type_addr) source (some mgr)
        (purc_variant.string addr name)
      = some (true, some mgr,
          expected_dispatch source (some (purc_variant.string type_addr "change"))
            (some (purc_variant.string sub_type_addr "detached")) name
            var_event_type.VAR_EVENT_TYPE_DETACHED mgr.var_observers) ∧
    mgr_change_handler (some type_addr) (some sub_type_addr) source (some mgr)
        (purc_variant.string addr name)
      = some (true, some mgr,
          expected_dispatch source (some (purc_variant.string type_addr "change"))
            (some (purc_variant.string sub_type_addr "displaced")) name
            var_event_type.VAR_EVENT_TYPE_DISPLACED mgr.var_observers) := by
  refine ⟨?_, ?_, ?_⟩
  · simp [mgr_grow_handler, mgr_handler, purc_variant_make_string,
      purc_variant_get_string_const, mgr_handler_loop_eq, TYPE_STR_CHANGE, TYPE_STR_ATTACHED]
  · simp [mgr_shrink_handler, mgr_handler, purc_variant_make_string,
      purc_variant_get_string_const, mgr_handler_loop_eq, TYPE_STR_CHANGE, TYPE_STR_DETACHED]
  · simp [mgr_change_handler, mgr_handler, purc_variant_make_string,
      purc_variant_get_string_const, mgr_handler_loop_eq, TYPE_STR_CHANGE,
      TYPE_STR_DISPLACED]

/-! ## Properties of the coroutine-bound timer -/

theorem PurcTimer_fired_in_flight (env : timer_env) (w : timer_world)
    (h : w.timer.m_fired ≠ 0) : PurcTimer.fired env w = some (w, []) := by
  simp [PurcTimer.fired, h]

theorem PurcTimer_fired_counter (env : timer_env) (w w1 : timer_world)
    (calls : List timer_call) (h0 : w.timer.m_fired = 0)
    (h : PurcTimer.fired env w = some (w1, calls)) :
    w1.timer.m_fired = 0 ∨ w1.timer.m_fired = 1 := by
  unfold PurcTimer.fired at h
  simp only [h0, ne_eq, not_true_eq_false, if_false] at h
  split_ifs at h <;> simp at h <;> obtain ⟨rfl, _⟩ := h <;> simp [PurcTimer.stop, h0]

theorem timer_step_counter (env : timer_env) (w w1 : timer_world) (st : timer_step)
    (calls : List timer_call)
    (hinv : w.timer.m_fired = 0 ∨ w.timer.m_fired = 1)
    (h : timer_step_run env w st = some (w1, calls)) :
    w1.timer.m_fired = 0 ∨ w1.timer.m_fired = 1 := by
  cases st with
  | fire =>
    rcases hinv with h0 | h1
    · exact PurcTimer_fired_counter env w w1 calls h0 h
    · have hne : w.timer.m_fired ≠ 0 := by omega
      simp only [timer_step_run, PurcTimer_fired_in_flight env w hne] at h
      simp at h
      obtain ⟨rfl, _⟩ := h
      exact Or.inr h1
  | processed =>
    simp only [timer_step_run, pcintr_timer_processed, PurcTimer.processed] at h
    split_ifs at h with hge
    simp at h
    obtain ⟨rfl, _⟩ := h
    simp
    omega
  | handle =>
    simp only [timer_step_run] at h
    cases hm : w.co.msgs with
    | nil =>
      simp [hm] at h
      obtain ⟨rfl, _⟩ := h
      exact hinv
    | cons m rest =>
      cases m
      simp only [hm, on_event_fire, pcintr_timer_processed, PurcTimer.processed] at h
      split_ifs at h with hge
      simp at h
      obtain ⟨rfl, _⟩ := h
      simp at hge ⊢
      omega
  | sched state exited =>
    simp [timer_step_run] at h
    obtain ⟨rfl, _⟩ := h
    exact hinv

theorem timer_run_counter (env : timer_env) :
    ∀ (steps : List timer_step) (w w1 : timer_world) (calls : List timer_call),
      (w.timer.m_fired = 0 ∨ w.timer.m_fired = 1) →
      timer_run env steps w = some (w1, calls) →
      (w1.timer.m_fired = 0 ∨ w1.timer.m_fired = 1) := by
  intro steps
  induction steps with
  | nil =>
    intro w w1 calls hinv h
    simp [timer_run] at h
    obtain ⟨rfl, _⟩ := h
    exact hinv
  | cons st rest ih =>
    intro w w1 calls hinv h
    simp only [timer_run] at h
    cases hs : timer_step_run env w st with
    | none => simp [hs] at h
    | some r =>
      obtain ⟨w2, c2⟩ := r
      simp only [hs] at h
      cases hr : timer_run env rest w2 with
      | none => simp [hr] at h
      | some r2 =>
        obtain ⟨w3, c3⟩ := r2
        simp only [hr] at h
        simp at h
        obtain ⟨rfl, _⟩ := h
        exact ih w2 w3 c3 (timer_step_counter env w w2 st c2 hinv hs) hr

/-- C17: after any sequence of fires, acknowledgements, message handlings and
scheduler moves that starts with the in-flight counter at 0 and trips no
assertion (so each acknowledgement answers a fire still in flight), the counter
is 0 or 1; and a fire that arrives while the counter is 1 returns at once:
the whole state, counter and active flag included, is unchanged and no call is
made, so nothing is posted and nothing resumed. -/
theorem purc_timer_in_flight_counter_zero_or_one (env : timer_env)
    (steps : List timer_step) (w w1 : timer_world) (calls : List timer_call)
    (h0 : w.timer.m_fired = 0) (hrun : timer_run env steps w = some (w1, calls)) :
    (w1.timer.m_fired = 0 ∨ w1.timer.m_fired = 1) ∧
    (∀ v : timer_world, v.timer.m_fired = 1 → PurcTimer.fired env v = some (v, [])) := by
  refine ⟨timer_run_counter env steps w w1 calls (Or.inl h0) hrun, ?_⟩
  intro v hv
  exact PurcTimer_fired_in_flight env v (by omega)

theorem purc_timer_in_flight_counter_zero_or_one_witness :
    ((⟨⟨1, false, 100, true, true, true⟩,
        ⟨pcintr_coroutine_state.CO_STATE_READY, false,
        [posted_msg.on_event_fire, posted_msg.on_event_fire]⟩,
        false, true⟩ : timer_world).timer.m_fired = 0 ∨
      (⟨⟨1, false, 100, true, true, true⟩,
        ⟨pcintr_coroutine_state.CO_STATE_READY, false,
        [posted_msg.on_event_fire, posted_msg.on_event_fire]⟩,
        false, true⟩ : timer_world).timer.m_fired = 1) ∧
    (∀ v : timer_world, v.timer.m_fired = 1 →
      PurcTimer.fired sample_timer_env v = some (v, [])) :=
  purc_timer_in_flight_counter_zero_or_one sample_timer_env
    [timer_step.fire, timer_step.fire, timer_step.processed,
      timer_step.sched pcintr_coroutine_state.CO_STATE_READY false,
      timer_step.fire, timer_step.fire]
    sample_timer_world
    ⟨⟨1, false, 100, true, true, true⟩,
      ⟨pcintr_coroutine_state.CO_STATE_READY, false,
        [posted_msg.on_event_fire, posted_msg.on_event_fire]⟩,
      false, true⟩
    [timer_call.set_current_co true, timer_call.post_msg, timer_call.set_current_co false,
      timer_call.processed,
      timer_call.set_current_co true, timer_call.post_msg,
      timer_call.check_after_execution, timer_call.set_current_co false]
    rfl (by decide)

theorem exited_fire_in_flight_keeps_timer_running :
    sample_timer_world_exited.timer.m_for_yielded = false ∧
    sample_timer_world_exited.co.exited = true ∧
    PurcTimer.fired sample_timer_env sample_timer_world_exited
      = some (sample_timer_world_exited, []) ∧
    sample_timer_world_exited.timer.active = true ∧
    sample_timer_world_exited.timer.cancel_registered = true := by
  decide

/-- C18 as amended: for an ordinary timer whose coroutine has exited, a fire with no
fire in flight unregisters the cancellation hook and stops the timer and does
nothing else; and in every state of the timer, a fire in flight included, a fire
returns with the coroutine, its queue included, and the in-flight counter
unchanged, posting no message and resuming nothing. -/
theorem purc_timer_fire_after_exit (env : timer_env) (w : timer_world)
    (hord : w.timer.m_for_yielded = false) (hex : w.co.exited = true) :
    (w.timer.m_fired = 0 →
      PurcTimer.fired env w
        = some ({ w with timer := { w.timer with active := false, cancel_registered := false } },
            [timer_call.unregister_cancel, timer_call.stop])) ∧
    (∃ w1 calls, PurcTimer.fired env w = some (w1, calls) ∧ w1.co = w.co ∧
      w1.timer.m_fired = w.timer.m_fired ∧ timer_call.post_msg ∉ calls ∧
      timer_call.resume ∉ calls) := by
  have hstop : w.timer.m_fired = 0 →
      PurcTimer.fired env w
        = some ({ w with timer := { w.timer with active := false, cancel_registered := false } },
            [timer_call.unregister_cancel, timer_call.stop]) := by
    intro h0
    simp [PurcTimer.fired, h0, hex, hord, PurcTimer.stop]
  refine ⟨hstop, ?_⟩
  by_cases h0 : w.timer.m_fired = 0
  · exact ⟨_, _, hstop h0, rfl, rfl, by simp, by simp⟩
  · exact ⟨w, [], PurcTimer_fired_in_flight env w h0, rfl, rfl, by simp, by simp⟩

theorem purc_timer_fire_after_exit_witness :
    ((⟨⟨0, false, 100, true, true, true⟩,
        ⟨pcintr_coroutine_state.CO_STATE_WAIT, true, []⟩, false, true⟩ : timer_world).timer.m_fired
        = 0 →
      PurcTimer.fired sample_timer_env
          ⟨⟨0, false, 100, true, true, true⟩,
            ⟨pcintr_coroutine_state.CO_STATE_WAIT, true, []⟩, false, true⟩
        = some (⟨⟨0, false, 100, false, true, false⟩,
              ⟨pcintr_coroutine_state.CO_STATE_WAIT, true, []⟩, false, true⟩,
            [timer_call.unregister_cancel, timer_call.stop])) ∧
    (∃ w1 calls,
      PurcTimer.fired sample_timer_env
          ⟨⟨0, false, 100, true, true, true⟩,
            ⟨pcintr_coroutine_state.CO_STATE_WAIT, true, []⟩, false, true⟩
        = some (w1, calls) ∧
      w1.co = ⟨pcintr_coroutine_state.CO_STATE_WAIT, true, []⟩ ∧
      w1.timer.m_fired = 0 ∧ timer_call.post_msg ∉ calls ∧ timer_call.resume ∉ calls) :=
  purc_timer_fire_after_exit sample_timer_env
    ⟨⟨0, false, 100, true, true, true⟩,
      ⟨pcintr_coroutine_state.CO_STATE_WAIT, true, []⟩, false, true⟩ rfl rfl

theorem yielded_fire_on_ready_coroutine_posts_message :
    sample_timer_world_yielded_ready.timer.m_for_yielded = true ∧
    sample_timer_world_yielded_ready.co.exited = false ∧
    sample_timer_world_yielded_ready.timer.m_fired = 0 ∧
    PurcTimer.fired sample_timer_env sample_timer_world_yielded_ready
      = some (⟨⟨1, true, 100, true, true, false⟩,
            ⟨pcintr_coroutine_state.CO_STATE_READY, false, [posted_msg.on_event_fire]⟩,
            false, true⟩,
          [timer_call.set_current_co true, timer_call.post_msg,
            timer_call.check_after_execution, timer_call.set_current_co false]) := by
  decide

/-- C19 as amended: for a for-yielded timer with no fire in flight whose coroutine
has not exited and is in state WAIT, with no coroutine current and the heap
present as the function asserts, a fire, whether the timer was started one-shot
or repeating, stops the timer, sets the coroutine current, resumes it, and
clears the current coroutine, in that order and within the call; the counter
becomes 1 and nothing is posted to the queue. -/
theorem purc_timer_yielded_fire_resumes_waiting_coroutine (env : timer_env)
    (w : timer_world) (hy : w.timer.m_for_yielded = true) (hex : w.co.exited = false)
    (h0 : w.timer.m_fired = 0)
    (hwait : w.co.state = pcintr_coroutine_state.CO_STATE_WAIT)
    (hcur : w.current_co = false) (hheap : w.heap = true) :
    PurcTimer.fired env w
      = some ({ w with
            timer := { w.timer with m_fired := 1, active := false },
            co := { w.co with
              state := env.pcintr_resume pcintr_coroutine_state.CO_STATE_WAIT },
            current_co := false },
          [timer_call.stop, timer_call.set_current_co true, timer_call.resume,
            timer_call.set_current_co false]) := by
  simp [PurcTimer.fired, hy, hex, h0, hwait, hcur, hheap, PurcTimer.stop]

theorem purc_timer_yielded_fire_resumes_waiting_coroutine_witness :
    PurcTimer.fired sample_timer_env sample_timer_world_yielded_wait
      = some (⟨⟨1, true, 100, false, true, false⟩,
            ⟨pcintr_coroutine_state.CO_STATE_WAIT, false, []⟩, false, true⟩,
          [timer_call.stop, timer_call.set_current_co true, timer_call.resume,
            timer_call.set_current_co false]) :=
  purc_timer_yielded_fire_resumes_waiting_coroutine sample_timer_env
    sample_timer_world_yielded_wait rfl rfl rfl rfl rfl rfl

theorem PurcTimer_fired_ordinary (env : timer_env) (w w1 : timer_world)
    (calls : List timer_call) (hord : w.timer.m_for_yielded = false)
    (hinv : w.timer.m_fired = w.co.msgs.length)
    (h : PurcTimer.fired env w = some (w1, calls)) :
    w1.timer.m_fired = w1.co.msgs.length ∧ w1.timer.m_for_yielded = false ∧
    calls.count timer_call.processed + w1.co.msgs.length
      = calls.count timer_call.post_msg + w.co.msgs.length := by
  by_cases hm0 : w.timer.m_fired = 0
  · have hlen : w.co.msgs.length = 0 := by
      rw [hm0] at hinv
      exact_mod_cast hinv.symm
    unfold PurcTimer.fired at h
    simp only [hm0, hord, ne_eq, not_true_eq_false, if_false, Bool.false_eq_true] at h
    split_ifs at h <;> simp at h <;> obtain ⟨rfl, rfl⟩ := h <;>
      simp [PurcTimer.stop, pcintr_post_msg_to_target, hord, hm0, hlen]
  · rw [PurcTimer_fired_in_flight env w hm0] at h
    simp at h
    obtain ⟨rfl, rfl⟩ := h
    simp [hinv, hord]

theorem timer_step_ordinary (env : timer_env) (w w1 : timer_world) (st : timer_step)
    (calls : List timer_call) (hst : st ≠ timer_step.processed)
    (hord : w.timer.m_for_yielded = false)
    (hinv : w.timer.m_fired = w.co.msgs.length)
    (h : timer_step_run env w st = some (w1, calls)) :
    w1.timer.m_fired = w1.co.msgs.length ∧ w1.timer.m_for_yielded = false ∧
    calls.count timer_call.processed + w1.co.msgs.length
      = calls.count timer_call.post_msg + w.co.msgs.length := by
  cases st with
  | fire => exact PurcTimer_fired_ordinary env w w1 calls hord hinv h
  | processed => exact absurd rfl hst
  | handle =>
    simp only [timer_step_run] at h
    cases hm : w.co.msgs with
    | nil =>
      simp [hm] at h
      obtain ⟨rfl, rfl⟩ := h
      simp [hinv, hord, hm]
    | cons m rest =>
      cases m
      simp only [hm, on_event_fire, pcintr_timer_processed, PurcTimer.processed] at h
      split_ifs at h with hge
      simp at h
      obtain ⟨rfl, rfl⟩ := h
      simp [hinv, hord, hm]
      omega
  | sched state exited =>
    simp [timer_step_run] at h
    obtain ⟨rfl, rfl⟩ := h
    simp [hinv, hord]

theorem timer_run_ordinary (env : timer_env) :
    ∀ (steps : List timer_step) (w w1 : timer_world) (calls : List timer_call),
      (∀ st ∈ steps, st ≠ timer_step.processed) →
      w.timer.m_for_yielded = false →
      w.timer.m_fired = w.co.msgs.length →
      timer_run env steps w = some (w1, calls) →
      w1.timer.m_fired = w1.co.msgs.length ∧ w1.timer.m_for_yielded = false ∧
      calls.count timer_call.processed + w1.co.msgs.length
        = calls.count timer_call.post_msg + w.co.msgs.length := by
  intro steps
  induction steps with
  | nil =>
    intro w w1 calls _ hord hinv h
    simp [timer_run] at h
    obtain ⟨rfl, rfl⟩ := h
    simp [hinv, hord]
  | cons st rest ih =>
    intro w w1 calls hsteps hord hinv h
    simp only [timer_run] at h
    cases hs : timer_step_run env w st with
    | none => simp [hs] at h
    | some r =>
      obtain ⟨w2, c2⟩ := r
      simp only [hs] at h
      cases hr : timer_run env rest w2 with
      | none => simp [hr] at h
      | some r2 =>
        obtain ⟨w3, c3⟩ := r2
        simp only [hr] at h
        simp at h
        obtain ⟨rfl, rfl⟩ := h
        obtain ⟨hi2, ho2, hc2⟩ := timer_step_ordinary env w w2 st c2
          (hsteps st (List.mem_cons_self _ _)) hord hinv hs
        obtain ⟨hi3, ho3, hc3⟩ := ih w2 w3 c3
          (fun x hx => hsteps x (List.mem_cons_of_mem _ hx)) ho2 hi2 hr
        refine ⟨hi3, ho3, ?_⟩
        rw [List.count_append, List.count_append]
        omega

/-- C20: for an ordinary timer that starts with the counter at 0 and an empty queue,
after any sequence of fires, message handlings and scheduler moves that trips
no assertion, the counter equals the number of posted messages not yet handled,
so it is never negative; the number of processed calls plus the number of
pending messages equals the number of posted messages, so once the queue is
empty the counter is 0 and the two numbers are equal; handling the next message
never trips the assertion of processed; and on_event_fire calls processed once,
before the callback of the timer. -/
theorem ordinary_timer_fire_acknowledged_once (env : timer_env)
    (steps : List timer_step) (w w1 : timer_world) (calls : List timer_call)
    (hord : w.timer.m_for_yielded = false) (h0 : w.timer.m_fired = 0)
    (hq : w.co.msgs = [])
    (hsteps : ∀ st ∈ steps, st ≠ timer_step.processed)
    (hrun : timer_run env steps w = some (w1, calls)) :
    w1.timer.m_fired = w1.co.msgs.length ∧ 0 ≤ w1.timer.m_fired ∧
    calls.count timer_call.processed + w1.co.msgs.length
      = calls.count timer_call.post_msg ∧
    (w1.co.msgs = [] →
      w1.timer.m_fired = 0 ∧
      calls.count timer_call.processed = calls.count timer_call.post_msg) ∧
    (∃ r, timer_step_run env w1 timer_step.handle = some r) ∧
    (∀ v v1 c, on_event_fire v = some (v1, c) →
      c = [timer_call.processed, timer_call.func]) := by
  obtain ⟨hi, _, hc⟩ := timer_run_ordinary env steps w w1 calls hsteps hord
    (by simp [h0, hq]) hrun
  rw [hq] at hc
  simp only [List.length_nil, Nat.add_zero] at hc
  refine ⟨hi, by omega, hc, ?_, ?_, ?_⟩
  · intro hnil
    rw [hnil] at hi hc
    simp at hi hc
    exact ⟨hi, hc⟩
  · cases hm : w1.co.msgs with
    | nil => simp [timer_step_run, hm]
    | cons m rest =>
      cases m
      rw [hm] at hi
      have hge : 0 ≤ w1.timer.m_fired - 1 := by
        simp at hi
        omega
      simp [timer_step_run, hm, on_event_fire, pcintr_timer_processed, PurcTimer.processed,
        hge]
  · intro v v1 c h
    unfold on_event_fire at h
    cases hp : pcintr_timer_processed v with
    | none => simp [hp] at h
    | some v2 =>
      simp [hp] at h
      exact h.2.symm

theorem ordinary_timer_fire_acknowledged_once_witness :
    sample_timer_world_after.timer.m_fired = sample_timer_world_after.co.msgs.length ∧
    0 ≤ sample_timer_world_after.timer.m_fired ∧
    sample_timer_calls.count timer_call.processed + sample_timer_world_after.co.msgs.length
      = sample_timer_calls.count timer_call.post_msg ∧
    (sample_timer_world_after.co.msgs = [] →
      sample_timer_world_after.timer.m_fired = 0 ∧
      sample_timer_calls.count timer_call.processed
        = sample_timer_calls.count timer_call.post_msg) ∧
    (∃ r, timer_step_run sample_timer_env sample_timer_world_after timer_step.handle
      = some r) ∧
    (∀ v v1 c, on_event_fire v = some (v1, c) →
      c = [timer_call.processed, timer_call.func]) :=
  ordinary_timer_fire_acknowledged_once sample_timer_env sample_timer_steps
    sample_timer_world sample_timer_world_after sample_timer_calls rfl rfl rfl
    (by decide) (by decide)

/-! ## Exhaustion of `select_child` -/

/-- C26 (counterexample): on the matched example frame, whose element has the two
element children 2 and 4, the third call of select_child returns NULL because the
children are exhausted, and the fourth call returns the element child 2 a second
time. -/
theorem select_child_restarts_after_exhaustion :
    (select_child_calls 4 sample_inst (sample_stack (some sample_ctxt_matched))).map
        (fun r => r.1)
      = some [some ⟨pcvdom_nodetype.PCVDOM_NODE_ELEMENT, 2⟩,
          some ⟨pcvdom_nodetype.PCVDOM_NODE_ELEMENT, 4⟩, none,
          some ⟨pcvdom_nodetype.PCVDOM_NODE_ELEMENT, 2⟩] := by
  rfl

/-- C26 (amended): on a matched frame whose cursor is NULL, once select_child has
returned NULL because the children are exhausted, the frame is as it was before
the first call, its cursor NULL again, and the same number of later calls of
select_child on that frame produce the element children a second time, in
document order, followed by NULL. -/
theorem select_child_exhausted_frame_is_fresh (inst : pcinst) (stack : pcintr_stack)
    (frame : pcintr_stack_frame) (up : List pcintr_stack_frame) (ctxt : ctxt_for_match)
    (element : pcvdom_element)
    (hfr : stack.frames = frame :: up) (hex : stack.except = 0)
    (hpos : frame.pos = some element) (hctxt : frame.ctxt = some ctxt)
    (hm : ctxt.matched = true) (hcur : ctxt.curr = none)
    (hdoc : ∀ x ∈ element.children, x.type ≠ pcvdom_nodetype.PCVDOM_NODE_DOCUMENT) :
    ∃ inst1 stack1,
      select_child_calls ((element_children element).length + 1) inst stack
        = some ((element_children element).map some ++ [none], element.children,
            inst1, stack1) ∧
      bottom_ctxt stack1 = some ctxt ∧
      select_child_calls ((element_children element).length + 1) inst1 stack1
        = some ((element_children element).map some ++ [none], element.children,
            inst1, stack1) := by
  have hc : ({ ctxt with curr := none } : ctxt_for_match) = ctxt := by
    cases ctxt
    simp_all
  have h := select_child_calls_from element up (element_children element).length
    element.children [] inst stack frame ctxt hfr hex hpos hctxt hm
    (by simp [cursor_of, hcur]) (by simp) hdoc rfl
  rw [hc] at h
  have h2 := select_child_calls_from element up (element_children element).length
    element.children [] (purc_clr_error inst)
    { stack with frames := { frame with ctxt := some ctxt } :: up }
    { frame with ctxt := some ctxt } ctxt rfl hex hpos rfl hm
    (by simp [cursor_of, hcur]) (by simp) hdoc rfl
  rw [hc] at h2
  refine ⟨purc_clr_error inst,
    { stack with frames := { frame with ctxt := some ctxt } :: up }, h, rfl, ?_⟩
  have hi : purc_clr_error (purc_clr_error inst) = purc_clr_error inst := rfl
  rw [hi] at h2
  exact h2

theorem select_child_exhausted_frame_is_fresh_witness :
    ∃ inst1 stack1,
      select_child_calls ((element_children sample_match).length + 1) sample_inst
          (sample_stack (some sample_ctxt_matched))
        = some ((element_children sample_match).map some ++ [none], sample_match.children,
            inst1, stack1) ∧
      bottom_ctxt stack1 = some sample_ctxt_matched ∧
      select_child_calls ((element_children sample_match).length + 1) inst1 stack1
        = some ((element_children sample_match).map some ++ [none], sample_match.children,
            inst1, stack1) :=
  select_child_exhausted_frame_is_fresh sample_inst (sample_stack (some sample_ctxt_matched))
    (sample_frame (some sample_ctxt_matched)) [sample_parent] sample_ctxt_matched sample_match
    rfl rfl rfl rfl rfl rfl (by decide)

/-! ## Removal of observers -/

theorem find_var_observe_idx_from_mem (e : var_observe) :
    ∀ (l : List var_observe) (i : Nat), e ∈ l →
      ∃ k : Nat, find_var_observe_idx_from e.name e.type e.stack l i = ((i + k : Nat) : Int) ∧
        l.eraseIdx k = l.erase e := by
  intro l
  induction l with
  | nil =>
    intro i he
    simp at he
  | cons x xs ih =>
    intro i he
    by_cases hx : x = e
    · subst hx
      refine ⟨0, ?_, ?_⟩
      · simp [find_var_observe_idx_from]
      · simp
    · have hmem : e ∈ xs := by
        rcases List.mem_cons.mp he with h | h
        · exact absurd h.symm hx
        · exact h
      obtain ⟨k, hk1, hk2⟩ := ih (i + 1) hmem
      refine ⟨k + 1, ?_, ?_⟩
      · have hne : ¬ (e.name = x.name ∧ x.type = e.type ∧ x.stack = e.stack) := by
          intro hh
          apply hx
          cases x
          cases e
          simp_all
        rw [find_var_observe_idx_from, if_neg hne, hk1]
        congr 1
        omega
      · have hbne : (x == e) = false := by simpa using hx
        rw [List.eraseIdx_cons_succ, hk2, List.erase_cons, hbne]
        rfl

/-- C27 (counterexample): in a store where `x` is no longer bound and an observer of
its detachment by stack 7 is registered, pcvarmgr_list_remove_observer called by
stack 7 for `x` and `detached` returns false with the error NOT_FOUND and leaves
the observer entry in the table. -/
theorem remove_observer_of_unbound_name_keeps_entry :
    pcvarmgr_list_remove_observer 7 sample_inst sample_mgr_detached "x" TYPE_STR_DETACHED
      = (purc_set_error sample_inst purc_error.PCVARIANT_ERROR_NOT_FOUND,
          sample_mgr_detached, false) ∧
    sample_mgr_detached.var_observers
      = [⟨"x", var_event_type.VAR_EVENT_TYPE_DETACHED, 7⟩] := by
  exact ⟨rfl, rfl⟩

/-- C27 (amended): for every store, pcvarmgr_list_remove_observer removes an
existing observer entry for (name, kind, current stack) and returns true when the
name is still bound in the store; when the name is not bound it returns false
with the error NOT_FOUND and leaves the table of observers as it was. -/
theorem remove_observer_requires_bound_name (stack : Nat) (inst : pcinst)
    (mgr : pcvarmgr_list) (name : String) (kind : var_event_type)
    (hmem : (⟨name, kind, stack⟩ : var_observe) ∈ mgr.var_observers) :
    (∀ v, purc_variant_object_get_by_ckey mgr.object name = some v →
      pcvarmgr_list_remove_observer stack inst mgr name (var_event_type_str kind)
        = (inst,
            { mgr with var_observers := mgr.var_observers.erase ⟨name, kind, stack⟩ },
            true)) ∧
    (purc_variant_object_get_by_ckey mgr.object name = none →
      pcvarmgr_list_remove_observer stack inst mgr name (var_event_type_str kind)
        = (purc_set_error inst purc_error.PCVARIANT_ERROR_NOT_FOUND, mgr, false)) := by
  constructor
  · intro v hv
    obtain ⟨k, hk1, hk2⟩ :=
      find_var_observe_idx_from_mem ⟨name, kind, stack⟩ mgr.var_observers 0 hmem
    have hk : find_var_observe_idx mgr name kind stack = (k : Int) := by
      unfold find_var_observe_idx
      simpa using hk1
    have hne : (k : Int) ≠ -1 := by omega
    cases kind <;>
      simp [pcvarmgr_list_remove_observer, pcvarmgr_list_get, hv, var_event_type_str,
        TYPE_STR_ATTACHED, TYPE_STR_DETACHED, TYPE_STR_DISPLACED, hk, hne, hk2]
  · intro hv
    simp [pcvarmgr_list_remove_observer, pcvarmgr_list_get, hv]

theorem remove_observer_requires_bound_name_witness :
    (∀ v, purc_variant_object_get_by_ckey sample_mgr_detached.object "x" = some v →
      pcvarmgr_list_remove_observer 7 sample_inst sample_mgr_detached "x"
          (var_event_type_str var_event_type.VAR_EVENT_TYPE_DETACHED)
        = (sample_inst,
            { sample_mgr_detached with
              var_observers := sample_mgr_detached.var_observers.erase
                ⟨"x", var_event_type.VAR_EVENT_TYPE_DETACHED, 7⟩ },
            true)) ∧
    (purc_variant_object_get_by_ckey sample_mgr_detached.object "x" = none →
      pcvarmgr_list_remove_observer 7 sample_inst sample_mgr_detached "x"
          (var_event_type_str var_event_type.VAR_EVENT_TYPE_DETACHED)
        = (purc_set_error sample_inst purc_error.PCVARIANT_ERROR_NOT_FOUND,
            sample_mgr_detached, false)) :=
  remove_observer_requires_bound_name 7 sample_inst sample_mgr_detached "x"
    var_event_type.VAR_EVENT_TYPE_DETACHED (by decide)

/-! ## Properties of the buffered stream wrapper -/

/-- C25: with an empty buffer, one character to push and every allocation
succeeding, pchvml_rwswrap_buffer_chars pushes the character and returns false,
the value of its final `return 0`; so false is returned although no allocation
failed and all characters were pushed. -/
theorem buffer_chars_returns_false_on_success :
    pchvml_rwswrap_buffer_chars (fun _ => true) sample_inst sample_wrap [97] 1
      = some (sample_inst, ⟨[66], [97], 0⟩, false) := by
  rfl

theorem buffer_chars_never_returns_true (alloc_ok : Nat → Bool) (inst inst1 : pcinst)
    (wrap wrap1 : pchvml_rwswrap) (ucs : List Nat) (nr_ucs : Nat) (r : Bool)
    (h : pchvml_rwswrap_buffer_chars alloc_ok inst wrap ucs nr_ucs = some (inst1, wrap1, r)) :
    r = false := by
  have hloop : ∀ (k : Nat) (i0 i1 : pcinst) (w0 w1 : pchvml_rwswrap) (b : Bool),
      pchvml_rwswrap_buffer_chars_loop alloc_ok ucs k i0 w0 = some (i1, w1, some b) →
      b = false := by
    intro k
    induction k with
    | zero =>
      intro i0 i1 w0 w1 b hk
      simp [pchvml_rwswrap_buffer_chars_loop] at hk
    | succ k ih =>
      intro i0 i1 w0 w1 b hk
      simp only [pchvml_rwswrap_buffer_chars_loop] at hk
      split_ifs at hk with ha
      · simp at hk
        exact hk.2.2
      · cases hu : ucs[k]? with
        | none => simp [hu] at hk
        | some uc =>
          simp only [hu] at hk
          exact ih _ _ _ _ _ hk
  unfold pchvml_rwswrap_buffer_chars at h
  simp only at h
  split_ifs at h with hneg
  · simp at h
    exact h.2.2
  · cases hl : pchvml_rwswrap_buffer_chars_loop alloc_ok ucs
        ((int_of_uint64 (uint64_sub nr_ucs 1)).toNat + 1) inst wrap with
    | none => simp [hl] at h
    | some res =>
      obtain ⟨i1, w1, ob⟩ := res
      cases ob with
      | none =>
        simp [hl] at h
        exact h.2.2
      | some b =>
        simp [hl] at h
        have hb := hloop _ _ _ _ _ _ hl
        rw [← h.2.2]
        exact hb

theorem buffer_chars_loop_all (alloc_ok : Nat → Bool) (ucs : List Nat)
    (halloc : ∀ i, alloc_ok i = true) :
    ∀ (k : Nat) (inst : pcinst) (wrap : pchvml_rwswrap), k ≤ ucs.length →
      pchvml_rwswrap_buffer_chars_loop alloc_ok ucs k inst wrap
        = some (inst, { wrap with uc_list := ucs.take k ++ wrap.uc_list }, none) := by
  intro k
  induction k with
  | zero =>
    intro inst wrap _
    simp [pchvml_rwswrap_buffer_chars_loop]
  | succ k ih =>
    intro inst wrap hk
    have hlt : k < ucs.length := by omega
    simp only [pchvml_rwswrap_buffer_chars_loop, halloc]
    have hget : ucs[k]? = some ucs[k] := List.getElem?_eq_getElem hlt
    simp only [hget]
    rw [ih _ _ (by omega)]
    have htake : List.take (k + 1) ucs = List.take k ucs ++ [ucs[k]] := by
      rw [List.take_succ, hget]
      rfl
    rw [htake, List.append_assoc]
    rfl

theorem int_of_uint64_pred (n : Nat) (h1 : 1 ≤ n) (h2 : n ≤ 2 ^ 31) :
    int_of_uint64 (uint64_sub n 1) = ((n - 1 : Nat) : Int) := by
  have h3 : uint64_sub n 1 = n - 1 := by
    unfold uint64_sub
    omega
  rw [h3]
  unfold int_of_uint64
  have h4 : (n - 1) % 2 ^ 32 = n - 1 := by omega
  rw [h4]
  have h5 : n - 1 < 2 ^ 31 := by omega
  rw [if_pos h5]

theorem buffer_chars_all (alloc_ok : Nat → Bool) (inst : pcinst) (wrap : pchvml_rwswrap)
    (ucs : List Nat) (halloc : ∀ i, alloc_ok i = true) (hlen : ucs.length ≤ 2 ^ 31) :
    pchvml_rwswrap_buffer_chars alloc_ok inst wrap ucs ucs.length
      = some (inst, { wrap with uc_list := ucs ++ wrap.uc_list }, false) := by
  unfold pchvml_rwswrap_buffer_chars
  simp only
  by_cases h0 : ucs.length = 0
  · have hnil : ucs = [] := List.length_eq_zero.mp h0
    subst hnil
    have hneg : int_of_uint64 (uint64_sub ([] : List Nat).length 1) < 0 := by decide
    rw [if_pos hneg]
    simp
  · have h1 : 1 ≤ ucs.length := by omega
    rw [int_of_uint64_pred _ h1 hlen]
    have hnn : ¬ (((ucs.length - 1 : Nat) : Int) < 0) := by omega
    rw [if_neg hnn]
    have hk : (((ucs.length - 1 : Nat) : Int)).toNat + 1 = ucs.length := by
      simp
      omega
    rw [hk, buffer_chars_loop_all alloc_ok ucs halloc _ _ _ (le_refl _)]
    simp

theorem next_chars_buffered (rws : List Nat) (reads : Nat) :
    ∀ (l rest : List Nat),
      pchvml_rwswrap_next_chars l.length ⟨rws, l ++ rest, reads⟩
        = some (⟨rws, rest, reads⟩, l) := by
  intro l
  induction l with
  | nil =>
    intro rest
    simp [pchvml_rwswrap_next_chars]
  | cons c l ih =>
    intro rest
    simp [pchvml_rwswrap_next_chars, pchvml_rwswrap_next_char,
      pchvml_rwswrap_read_from_uc_list, ih]

/-- C24: for an array of 2^31 + 1 characters 65 and every allocation succeeding,
pchvml_rwswrap_buffer_chars pushes nothing and leaves the buffer empty, because
its `int` loop index starts negative; so the next call of
pchvml_rwswrap_next_char reads the character 66 from the stream instead of
returning the first character of the array. -/
theorem buffer_chars_long_array_not_buffered :
    (List.replicate (2 ^ 31 + 1) 65).length = 2 ^ 31 + 1 ∧
    pchvml_rwswrap_buffer_chars (fun _ => true) sample_inst sample_wrap
        (List.replicate (2 ^ 31 + 1) 65) (2 ^ 31 + 1)
      = some (sample_inst, sample_wrap, false) ∧
    pchvml_rwswrap_next_char sample_wrap = some (⟨[], [], 1⟩, 66) := by
  refine ⟨List.length_replicate _ _, ?_, by decide⟩
  have hneg : int_of_uint64 (uint64_sub (2 ^ 31 + 1) 1) < 0 := by decide
  unfold pchvml_rwswrap_buffer_chars
  simp only
  rw [if_pos hneg]

/-- For every wrapper, every array of at most 2^31 characters and every allocation
succeeding, pchvml_rwswrap_buffer_chars returns with the stream and the read
counter untouched, and afterwards as many calls of pchvml_rwswrap_next_char as
the array has characters return them in array order and leave the wrapper as it
was before the buffering; from there the calls return the previously buffered
characters in their order, without reading the stream, and a call reads the
stream exactly when the buffer is empty. -/
theorem buffer_chars_then_next_char_order (alloc_ok : Nat → Bool) (inst : pcinst)
    (wrap : pchvml_rwswrap) (ucs : List Nat)
    (halloc : ∀ i, alloc_ok i = true) (hlen : ucs.length ≤ 2 ^ 31) :
    ∃ wrap1 r,
      pchvml_rwswrap_buffer_chars alloc_ok inst wrap ucs ucs.length
        = some (inst, wrap1, r) ∧
      wrap1.rws = wrap.rws ∧ wrap1.stream_reads = wrap.stream_reads ∧
      pchvml_rwswrap_next_chars ucs.length wrap1 = some (wrap, ucs) ∧
      pchvml_rwswrap_next_chars wrap.uc_list.length wrap
        = some ({ wrap with uc_list := [] }, wrap.uc_list) ∧
      (∀ v v1 uc, pchvml_rwswrap_next_char v = some (v1, uc) →
        (v.uc_list = [] → v1.stream_reads = v.stream_reads + 1 ∧ v1.uc_list = []) ∧
        (v.uc_list ≠ [] → v1.stream_reads = v.stream_reads ∧ v1.rws = v.rws ∧
          v.uc_list = uc :: v1.uc_list)) := by
  refine ⟨{ wrap with uc_list := ucs ++ wrap.uc_list }, false,
    buffer_chars_all alloc_ok inst wrap ucs halloc hlen, rfl, rfl, ?_, ?_, ?_⟩
  · exact next_chars_buffered wrap.rws wrap.stream_reads ucs wrap.uc_list
  · have h := next_chars_buffered wrap.rws wrap.stream_reads wrap.uc_list []
    simpa using h
  · intro v v1 uc hv
    obtain ⟨rws, l, reads⟩ := v
    cases l with
    | nil =>
      cases rws with
      | nil =>
        simp [pchvml_rwswrap_next_char, pchvml_rwswrap_read_from_rwstream] at hv
        obtain ⟨h1, _⟩ := hv
        subst h1
        simp
      | cons a rest =>
        simp [pchvml_rwswrap_next_char, pchvml_rwswrap_read_from_rwstream] at hv
        obtain ⟨h1, _⟩ := hv
        subst h1
        simp
    | cons c l =>
      simp [pchvml_rwswrap_next_char, pchvml_rwswrap_read_from_uc_list] at hv
      obtain ⟨h1, h2⟩ := hv
      subst h1
      subst h2
      simp

theorem buffer_chars_then_next_char_order_witness :
    ∃ wrap1 r,
      pchvml_rwswrap_buffer_chars (fun _ => true) sample_inst ⟨[66], [67], 0⟩ [97, 98]
          ([97, 98] : List Nat).length
        = some (sample_inst, wrap1, r) ∧
      wrap1.rws = [66] ∧ wrap1.stream_reads = 0 ∧
      pchvml_rwswrap_next_chars ([97, 98] : List Nat).length wrap1
        = some (⟨[66], [67], 0⟩, [97, 98]) ∧
      pchvml_rwswrap_next_chars ([67] : List Nat).length ⟨[66], [67], 0⟩
        = some (⟨[66], [], 0⟩, [67]) ∧
      (∀ v v1 uc, pchvml_rwswrap_next_char v = some (v1, uc) →
        (v.uc_list = [] → v1.stream_reads = v.stream_reads + 1 ∧ v1.uc_list = []) ∧
        (v.uc_list ≠ [] → v1.stream_reads = v.stream_reads ∧ v1.rws = v.rws ∧
          v.uc_list = uc :: v1.uc_list)) :=
  buffer_chars_then_next_char_order (fun _ => true) sample_inst ⟨[66], [67], 0⟩ [97, 98]
    (fun _ => rfl) (by decide)

/-! ## Properties of the listener map comparator -/

/-- C29: listener_map_comp_by_key returns 0 for the distinct keys 2^32 and 0, and a
negative value both for the keys 2^31 and 0 and for 0 and 2^31, although 2^31 is
the greater key: the result is not zero only for equal keys, and its sign is not
the order of the keys. -/
theorem listener_map_comp_by_key_truncates :
    listener_map_comp_by_key (2 ^ 32) 0 = 0 ∧ (2 ^ 32 : Nat) ≠ 0 ∧
    listener_map_comp_by_key (2 ^ 31) 0 < 0 ∧ (0 : Nat) < 2 ^ 31 ∧
    listener_map_comp_by_key 0 (2 ^ 31) < 0 := by
  decide

/-! ## Properties of the page-group requests -/

/-- C30: with every allocation succeeding and the renderer answering OK,
pcintr_rdr_reset_page_groups sends RESETPAGEGROUPS and
pcintr_rdr_destroy_page_groups sends REMOVEPAGEGROUP, but
pcintr_rdr_add_page_groups sends RESETPAGEGROUPS, not ADDPAGEGROUPS, and
pcintr_rdr_update_page_groups sends ADDPAGEGROUPS. -/
theorem page_group_requests_operations :
    (pcintr_rdr_reset_page_groups sample_rdr_env sample_inst 1 2 "<div/>").2.2
      = [⟨pcrdr_msg_target.PCRDR_MSG_TARGET_WORKSPACE, 2,
          pcrdr_operation.PCRDR_OPERATION_RESETPAGEGROUPS,
          pcrdr_msg_element_type.PCRDR_MSG_ELEMENT_TYPE_VOID, none, none,
          pcrdr_data.text "<div/>"⟩] ∧
    (pcintr_rdr_add_page_groups sample_rdr_env sample_inst 1 2 "g" none none none none).2.2
      = [⟨pcrdr_msg_target.PCRDR_MSG_TARGET_WORKSPACE, 2,
          pcrdr_operation.PCRDR_OPERATION_RESETPAGEGROUPS,
          pcrdr_msg_element_type.PCRDR_MSG_ELEMENT_TYPE_VOID, none, none,
          pcrdr_data.json [("id", "g")]⟩] ∧
    (pcintr_rdr_destroy_page_groups sample_rdr_env sample_inst 1 2 9).2.2
      = [⟨pcrdr_msg_target.PCRDR_MSG_TARGET_WORKSPACE, 2,
          pcrdr_operation.PCRDR_OPERATION_REMOVEPAGEGROUP,
          pcrdr_msg_element_type.PCRDR_MSG_ELEMENT_TYPE_HANDLE, some 9, none,
          pcrdr_data.void⟩] ∧
    (pcintr_rdr_update_page_groups sample_rdr_env sample_inst 1 2 9 (some "title") "T").2.2
      = [⟨pcrdr_msg_target.PCRDR_MSG_TARGET_WORKSPACE, 2,
          pcrdr_operation.PCRDR_OPERATION_ADDPAGEGROUPS,
          pcrdr_msg_element_type.PCRDR_MSG_ELEMENT_TYPE_HANDLE, some 9, some "title",
          pcrdr_data.text "T"⟩] := by
  decide

/-! ## Properties of the named-timer directory -/

theorem timers_world_update_self (w : timers_world) (timer : Nat) (t : PurcTimer)
    (h : w.timer_objs timer = some t) :
    ({ w with timer_objs := Function.update w.timer_objs timer (some t) } : timers_world)
      = w := by
  cases w
  simp only at h
  simp [← h]

theorem get_inner_timer_found (env : timers_env) (w : timers_world) (tv : timer_var)
    (idv : purc_variant) (idstr : String) (timer : Nat)
    (hs : env.stack_ok = true)
    (hid : purc_variant_object_get_by_ckey tv.object TIMERS_STR_ID = some idv)
    (hstr : purc_variant_get_string_const idv = some idstr)
    (hmap : w.timers.timers_map idstr = some timer) :
    get_inner_timer env w tv = some (w, some timer, []) := by
  simp [get_inner_timer, hs, hid, hstr, find_timer, hmap]

theorem get_inner_timer_created (env : timers_env) (w : timers_world) (tv : timer_var)
    (idv : purc_variant) (idstr : String) (addr : Nat)
    (hs : env.stack_ok = true)
    (hid : purc_variant_object_get_by_ckey tv.object TIMERS_STR_ID = some idv)
    (hstr : purc_variant_get_string_const idv = some idstr)
    (hmap : w.timers.timers_map idstr = none)
    (hnew : env.new_timer = some addr) (hco : env.coroutine_ok = true)
    (hadd : env.add_ok = true) :
    get_inner_timer env w tv
      = some ({ w with
          timers :=
            { w.timers with
              timers_map := Function.update w.timers.timers_map idstr (some addr) },
          timer_objs := Function.update w.timer_objs addr
            (some ⟨0, false, env.new_interval, false, false, true⟩) },
        some addr, [timers_call.create addr]) := by
  simp [get_inner_timer, hs, hid, hstr, find_timer, hmap, pcintr_timer_create, hnew, hco,
    add_timer, hadd]

theorem timer_update_interval_valid (w : timers_world) (timer : Nat) (t : PurcTimer)
    (x : purc_variant) (hlive : w.timer_objs timer = some t) (h32 : t.m_interval < 2 ^ 32) :
    ∃ calls,
      timer_update_interval w timer (some x)
        = some ({ w with
            timer_objs := Function.update w.timer_objs timer
              (some { t with m_interval := purc_variant_cast_to_ulongint (some x) % 2 ^ 32 }) },
          calls) ∧
      (calls = [] ∧ t.m_interval = purc_variant_cast_to_ulongint (some x) ∨
        calls = [timers_call.set_interval timer
            (purc_variant_cast_to_ulongint (some x) % 2 ^ 32)] ∧
          t.m_interval ≠ purc_variant_cast_to_ulongint (some x)) := by
  by_cases hne : t.m_interval = purc_variant_cast_to_ulongint (some x)
  · refine ⟨[], ?_, Or.inl ⟨rfl, hne⟩⟩
    have hmod : purc_variant_cast_to_ulongint (some x) % 2 ^ 32 = t.m_interval := by
      rw [← hne]
      exact Nat.mod_eq_of_lt h32
    rw [hmod]
    have ht : ({ t with m_interval := t.m_interval } : PurcTimer) = t := by
      cases t
      rfl
    rw [ht, timers_world_update_self w timer t hlive]
    simp [timer_update_interval, pcintr_timer_get_interval, hlive, hne]
  · refine ⟨[timers_call.set_interval timer
      (purc_variant_cast_to_ulongint (some x) % 2 ^ 32)], ?_, Or.inr ⟨rfl, hne⟩⟩
    simp [timer_update_interval, pcintr_timer_get_interval, hlive, hne,
      pcintr_timer_set_interval, timer_modify]

theorem timer_update_active_eq (w : timers_world) (timer : Nat) (t : PurcTimer)
    (active : purc_variant_t) (hlive : w.timer_objs timer = some t)
    (hact : ∀ v, active = some v → ∃ a str, v = purc_variant.string a str) :
    timer_update_active w timer active
      = some ({ w with
          timer_objs := Function.update w.timer_objs timer
            (some (timer_after_activity t (next_activity t active))) },
        [activity_call timer (next_activity t active)]) := by
  cases active with
  | none =>
    cases hta : t.active <;>
      simp [timer_update_active, pcintr_timer_is_active, hlive, hta, next_activity,
        pcintr_timer_start, pcintr_timer_stop, timer_modify, timer_after_activity,
        activity_call]
  | some v =>
    obtain ⟨a, str, rfl⟩ := hact v rfl
    by_cases hyes : str = TIMERS_STR_YES
    · simp [timer_update_active, pcintr_timer_is_active, hlive, next_activity, is_euqal,
        purc_variant_get_string_const, hyes, pcintr_timer_start, timer_modify,
        timer_after_activity, activity_call]
    · simp [timer_update_active, pcintr_timer_is_active, hlive, next_activity, is_euqal,
        purc_variant_get_string_const, hyes, pcintr_timer_stop, timer_modify,
        timer_after_activity, activity_call]

theorem timer_update_facts (w : timers_world) (timer : Nat) (t : PurcTimer)
    (interval active : purc_variant_t) (hlive : w.timer_objs timer = some t)
    (h32 : t.m_interval < 2 ^ 32)
    (hact : ∀ v, active = some v → ∃ a str, v = purc_variant.string a str) :
    ∃ w1 pre,
      timer_update w timer interval active
        = some (w1, pre ++ [activity_call timer (next_activity t active)]) ∧
      w1.timers = w.timers ∧
      w1.timer_objs = Function.update w.timer_objs timer
        (some (timer_after_activity
          { t with
            m_interval :=
              match interval with
              | none => t.m_interval
              | some x => purc_variant_cast_to_ulongint (some x) % 2 ^ 32 }
          (next_activity t active))) ∧
      (pre = [] ∨
        pre = [timers_call.set_interval timer
          (purc_variant_cast_to_ulongint interval % 2 ^ 32)]) ∧
      (t.m_interval ≠ purc_variant_cast_to_ulongint interval → interval ≠ none →
        pre = [timers_call.set_interval timer
          (purc_variant_cast_to_ulongint interval % 2 ^ 32)]) := by
  cases interval with
  | none =>
    have hlive2 : ({ w with inst := purc_clr_error w.inst } : timers_world).timer_objs timer
        = some t := hlive
    have ha := timer_update_active_eq { w with inst := purc_clr_error w.inst } timer t active
      hlive2 hact
    refine ⟨{ w with
        inst := purc_clr_error w.inst,
        timer_objs := Function.update w.timer_objs timer
          (some (timer_after_activity t (next_activity t active))) }, [], ?_, ?_, ?_,
      Or.inl rfl, ?_⟩
    · simp only [timer_update, timer_update_interval, ha]
    · rfl
    · cases t
      rfl
    · intro _ h
      exact absurd rfl h
  | some x =>
    obtain ⟨calls, hi, hc⟩ := timer_update_interval_valid w timer t x hlive h32
    have hlive2 : ({ w with
        timer_objs := Function.update w.timer_objs timer
          (some { t with m_interval := purc_variant_cast_to_ulongint (some x) % 2 ^ 32 }) }
        : timers_world).timer_objs timer
        = some { t with m_interval := purc_variant_cast_to_ulongint (some x) % 2 ^ 32 } := by
      simp
    have ha := timer_update_active_eq _ timer _ active hlive2 hact
    have hn : next_activity
        { t with m_interval := purc_variant_cast_to_ulongint (some x) % 2 ^ 32 } active
        = next_activity t active := by
      cases active <;> rfl
    rw [hn] at ha
    refine ⟨{ w with
        timer_objs := Function.update w.timer_objs timer
          (some (timer_after_activity
            { t with m_interval := purc_variant_cast_to_ulongint (some x) % 2 ^ 32 }
            (next_activity t active))) }, calls, ?_, ?_, ?_, ?_, ?_⟩
    · simp only [timer_update, hi, ha]
      simp
    · rfl
    · simp
    · rcases hc with ⟨h1, _⟩ | ⟨h1, _⟩
      · exact Or.inl h1
      · exact Or.inr h1
    · intro hne _
      rcases hc with ⟨_, h2⟩ | ⟨h1, _⟩
      · exact absurd h2 hne
      · exact h1

theorem listener_map_remove_listener_calls (timers : pcintr_timers) (obj : Nat) :
    (listener_map_remove_listener timers obj).1.timers_map = timers.timers_map ∧
    ((listener_map_remove_listener timers obj).2 = [] ∨
      ∃ x, (listener_map_remove_listener timers obj).2 = [timers_call.revoke_listener obj x]) := by
  unfold listener_map_remove_listener
  cases timers.listener_map obj with
  | none => exact ⟨rfl, Or.inl rfl⟩
  | some l => exact ⟨rfl, Or.inr ⟨l.ctxt, rfl⟩⟩

theorem listener_map_set_listener_timers_map (timers : pcintr_timers) (obj : Nat)
    (listener : pcvar_listener) :
    (listener_map_set_listener timers obj listener).1.timers_map = timers.timers_map := by
  unfold listener_map_set_listener
  cases timers.listener_map obj <;> rfl

/-- For a member whose id already has a live timer in the directory, whose
`active` field is a string when present, timers_set_change returns true, leaves
the map from ids to timers as it was and changes no timer object but that one;
it makes no call that creates or destroys a timer; the interval of the timer
becomes the new `interval` value, reduced to 32 bits, when one is present, and
the call that sets it, made when the value differs from the old interval, comes
before the one call that starts or stops the timer, which is the last call: a
start when `active` is "yes", a stop when `active` is another string, and the
call that keeps the previous active or inactive state when `active` is absent. -/
theorem timers_set_change_updates_existing_timer (env : timers_env) (w : timers_world)
    (argv0 argv1 : timer_var) (idaddr : Nat) (idstr : String) (timer : Nat) (t : PurcTimer)
    (interval active : purc_variant_t)
    (hs : env.stack_ok = true) (hreg : env.register_ok = true)
    (hid : purc_variant_object_get_by_ckey argv1.object TIMERS_STR_ID
      = some (purc_variant.string idaddr idstr))
    (hint : purc_variant_object_get_by_ckey argv1.object TIMERS_STR_INTERVAL = interval)
    (hactive : purc_variant_object_get_by_ckey argv1.object TIMERS_STR_ACTIVE = active)
    (hmap : w.timers.timers_map idstr = some timer)
    (hlive : w.timer_objs timer = some t) (h32 : t.m_interval < 2 ^ 32)
    (hact : ∀ v, active = some v → ∃ a str, v = purc_variant.string a str) :
    ∃ w1 pre last t1,
      timers_set_change env w argv0 argv1 = some (w1, true, pre ++ [last]) ∧
      w1.timers.timers_map = w.timers.timers_map ∧
      w1.timer_objs = Function.update w.timer_objs timer (some t1) ∧
      (∀ c ∈ pre ++ [last], ∀ x, c ≠ timers_call.create x ∧ c ≠ timers_call.destroy x) ∧
      (∀ c ∈ pre, ∀ x, c ≠ timers_call.start x ∧ c ≠ timers_call.stop x) ∧
      (interval = none → t1.m_interval = t.m_interval) ∧
      (interval ≠ none →
        t1.m_interval = purc_variant_cast_to_ulongint interval % 2 ^ 32 ∧
        (t.m_interval ≠ purc_variant_cast_to_ulongint interval →
          timers_call.set_interval timer (purc_variant_cast_to_ulongint interval % 2 ^ 32)
            ∈ pre)) ∧
      (∀ a, active = some (purc_variant.string a TIMERS_STR_YES) →
        last = timers_call.start timer ∧ t1.active = true ∧ t1.repeating = true) ∧
      (∀ a str, active = some (purc_variant.string a str) → str ≠ TIMERS_STR_YES →
        last = timers_call.stop timer ∧ t1.active = false) ∧
      (active = none →
        t1.active = t.active ∧
        last = (if t.active then timers_call.start timer else timers_call.stop timer)) := by
  have hget := get_inner_timer_found env w argv1 (purc_variant.string idaddr idstr) idstr timer
    hs hid rfl hmap
  obtain ⟨hrm, hrc⟩ := listener_map_remove_listener_calls w.timers argv0.addr
  have hlive2 : ({ w with
      timers :=
        (listener_map_set_listener (listener_map_remove_listener w.timers argv0.addr).1
          argv1.addr ⟨argv1.addr, timer⟩).1 } : timers_world).timer_objs timer = some t := hlive
  obtain ⟨w1, pre, hu, ht, ho, hp, hp2⟩ := timer_update_facts _ timer t interval active hlive2
    h32 hact
  refine ⟨w1,
    (listener_map_remove_listener w.timers argv0.addr).2
      ++ [timers_call.register_listener argv1.addr timer] ++ pre,
    activity_call timer (next_activity t active), _, ?_, ?_, ho, ?_, ?_, ?_, ?_, ?_, ?_, ?_⟩
  · simp only [timers_set_change, hget, purc_variant_register_post_listener, hreg, if_true,
      hint, hactive, hu]
    simp
  · rw [ht]
    simp only []
    rw [listener_map_set_listener_timers_map, hrm]
  · intro c hc x
    simp only [List.mem_append, List.mem_singleton] at hc
    rcases hc with ((hc | hc) | hc) | hc
    · rcases hrc with h | ⟨y, h⟩
      · rw [h] at hc
        simp at hc
      · rw [h] at hc
        simp at hc
        subst hc
        simp
    · subst hc
      simp
    · rcases hp with h | h
      · rw [h] at hc
        simp at hc
      · rw [h] at hc
        simp at hc
        subst hc
        simp
    · subst hc
      unfold activity_call
      split <;> simp
  · intro c hc x
    simp only [List.mem_append, List.mem_singleton] at hc
    rcases hc with (hc | hc) | hc
    · rcases hrc with h | ⟨y, h⟩
      · rw [h] at hc
        simp at hc
      · rw [h] at hc
        simp at hc
        subst hc
        simp
    · subst hc
      simp
    · rcases hp with h | h
      · rw [h] at hc
        simp at hc
      · rw [h] at hc
        simp at hc
        subst hc
        simp
  · intro hnone
    subst hnone
    unfold timer_after_activity
    split <;> rfl
  · intro hsome
    constructor
    · cases interval with
      | none => exact absurd rfl hsome
      | some x =>
        unfold timer_after_activity
        split <;> rfl
    · intro hne
      rw [hp2 hne hsome]
      simp
  · intro a ha
    subst ha
    simp [activity_call, next_activity, purc_variant_get_string_const, timer_after_activity]
  · intro a str ha hstr
    subst ha
    simp [activity_call, next_activity, purc_variant_get_string_const, timer_after_activity,
      hstr, PurcTimer.stop]
  · intro ha
    subst ha
    cases hta : t.active <;>
      simp [activity_call, next_activity, timer_after_activity, hta, PurcTimer.stop]

theorem timers_set_grow_facts (env : timers_env) (w : timers_world) (argv0 : timer_var)
    (idaddr : Nat) (idstr : String) (t0 : PurcTimer) (yes : Bool)
    (hs : env.stack_ok = true) (hreg : env.register_ok = true)
    (hid : purc_variant_object_get_by_ckey argv0.object TIMERS_STR_ID
      = some (purc_variant.string idaddr idstr))
    (hbefore : timer_before_grow env w idstr = some t0)
    (hcreate : w.timers.timers_map idstr = none →
      ∃ addr, env.new_timer = some addr ∧ env.coroutine_ok = true ∧ env.add_ok = true)
    (hyes : is_euqal (purc_variant_object_get_by_ckey argv0.object TIMERS_STR_ACTIVE)
      TIMERS_STR_YES = some yes) :
    ∃ w1 calls timer,
      timers_set_grow env w argv0 = some (w1, true, calls) ∧
      w1.timers.timers_map idstr = some timer ∧
      w1.timer_objs timer
        = some (if yes then
            { t0 with
              m_interval :=
                purc_variant_cast_to_ulongint
                  (purc_variant_object_get_by_ckey argv0.object TIMERS_STR_INTERVAL) % 2 ^ 32,
              active := true, repeating := true }
          else
            { t0 with
              m_interval :=
                purc_variant_cast_to_ulongint
                  (purc_variant_object_get_by_ckey argv0.object TIMERS_STR_INTERVAL)
                  % 2 ^ 32 }) ∧
      (timers_call.start timer ∈ calls ↔ yes = true) := by
  cases hm : w.timers.timers_map idstr with
  | none =>
    obtain ⟨addr, hnew, hco, hadd⟩ := hcreate hm
    have hget := get_inner_timer_created env w argv0 (purc_variant.string idaddr idstr) idstr
      addr hs hid rfl hm hnew hco hadd
    have ht0 : t0 = ⟨0, false, env.new_interval, false, false, true⟩ := by
      simp [timer_before_grow, hm] at hbefore
      exact hbefore.symm
    subst ht0
    cases yes with
    | false =>
      simp only [timers_set_grow, hget, purc_variant_register_post_listener, hreg, if_true,
          pcintr_timer_set_interval, timer_modify, Function.update_same, hyes]
      refine ⟨_, _, addr, rfl, ?_, ?_, ?_⟩
      · simp [listener_map_set_listener_timers_map]
      · simp
      · simp
    | true =>
      simp only [timers_set_grow, hget, purc_variant_register_post_listener, hreg, if_true,
          pcintr_timer_set_interval, timer_modify, Function.update_same, hyes,
          pcintr_timer_start]
      refine ⟨_, _, addr, rfl, ?_, ?_, ?_⟩
      · simp [listener_map_set_listener_timers_map]
      · simp
      · simp
  | some timer =>
    have hlive : w.timer_objs timer = some t0 := by
      simpa [timer_before_grow, hm] using hbefore
    have hget := get_inner_timer_found env w argv0 (purc_variant.string idaddr idstr) idstr
      timer hs hid rfl hm
    cases yes with
    | false =>
      simp only [timers_set_grow, hget, purc_variant_register_post_listener, hreg, if_true,
          pcintr_timer_set_interval, timer_modify, hlive, hyes]
      refine ⟨_, _, timer, rfl, ?_, ?_, ?_⟩
      · simp [listener_map_set_listener_timers_map, hm]
      · simp
      · simp
    | true =>
      simp only [timers_set_grow, hget, purc_variant_register_post_listener, hreg, if_true,
          pcintr_timer_set_interval, timer_modify, hlive, hyes, pcintr_timer_start,
          Function.update_same]
      refine ⟨_, _, timer, rfl, ?_, ?_, ?_⟩
      · simp [listener_map_set_listener_timers_map, hm]
      · simp
      · simp

theorem timers_set_change_updates_existing_timer_witness :
    ∃ w1 pre last t1,
      timers_set_change sample_directory_env
          (sample_directory_t1 ⟨0, false, 100, true, true, true⟩) sample_member
          sample_member_slow
        = some (w1, true, pre ++ [last]) ∧
      w1.timers.timers_map
        = (sample_directory_t1 ⟨0, false, 100, true, true, true⟩).timers.timers_map ∧
      w1.timer_objs
        = Function.update (sample_directory_t1 ⟨0, false, 100, true, true, true⟩).timer_objs 5
          (some t1) ∧
      (∀ c ∈ pre ++ [last], ∀ x, c ≠ timers_call.create x ∧ c ≠ timers_call.destroy x) ∧
      (∀ c ∈ pre, ∀ x, c ≠ timers_call.start x ∧ c ≠ timers_call.stop x) ∧
      (some (purc_variant.ulongint 250) = none →
        t1.m_interval = (⟨0, false, 100, true, true, true⟩ : PurcTimer).m_interval) ∧
      (some (purc_variant.ulongint 250) ≠ none →
        t1.m_interval
          = purc_variant_cast_to_ulongint (some (purc_variant.ulongint 250)) % 2 ^ 32 ∧
        ((⟨0, false, 100, true, true, true⟩ : PurcTimer).m_interval
            ≠ purc_variant_cast_to_ulongint (some (purc_variant.ulongint 250)) →
          timers_call.set_interval 5
              (purc_variant_cast_to_ulongint (some (purc_variant.ulongint 250)) % 2 ^ 32)
            ∈ pre)) ∧
      (∀ a, some (purc_variant.string 32 "no") = some (purc_variant.string a TIMERS_STR_YES) →
        last = timers_call.start 5 ∧ t1.active = true ∧ t1.repeating = true) ∧
      (∀ a str, some (purc_variant.string 32 "no") = some (purc_variant.string a str) →
        str ≠ TIMERS_STR_YES → last = timers_call.stop 5 ∧ t1.active = false) ∧
      (some (purc_variant.string 32 "no") = none →
        t1.active = (⟨0, false, 100, true, true, true⟩ : PurcTimer).active ∧
        last = (if (⟨0, false, 100, true, true, true⟩ : PurcTimer).active
          then timers_call.start 5 else timers_call.stop 5)) :=
  timers_set_change_updates_existing_timer sample_directory_env
    (sample_directory_t1 ⟨0, false, 100, true, true, true⟩) sample_member sample_member_slow
    31 "t1" 5 ⟨0, false, 100, true, true, true⟩ (some (purc_variant.ulongint 250))
    (some (purc_variant.string 32 "no")) rfl rfl rfl rfl rfl rfl rfl (by decide)
    (fun v h => ⟨32, "no", (Option.some.inj h).symm⟩)

/-- For a member with a string `id`, an `interval` of value v < 2^32 and a
string `active`, when the directory holds for the id either no timer, and one can
be created, or a live ordinary timer, timers_set_grow returns true and leaves the
directory mapping the id to a live ordinary timer whose interval is v; when
`active` is "yes" the timer is started, active and repeating; otherwise no start
call is made and the timer is as active and as repeating as it was before, not
at all when it was just created. -/
theorem timers_set_grow_creates_timer (env : timers_env) (w : timers_world)
    (argv0 : timer_var) (idaddr : Nat) (idstr : String) (v actaddr : Nat) (act : String)
    (t0 : PurcTimer)
    (hs : env.stack_ok = true) (hreg : env.register_ok = true)
    (hid : purc_variant_object_get_by_ckey argv0.object TIMERS_STR_ID
      = some (purc_variant.string idaddr idstr))
    (hint : purc_variant_object_get_by_ckey argv0.object TIMERS_STR_INTERVAL
      = some (purc_variant.ulongint v))
    (hv : v < 2 ^ 32)
    (hact : purc_variant_object_get_by_ckey argv0.object TIMERS_STR_ACTIVE
      = some (purc_variant.string actaddr act))
    (hbefore : timer_before_grow env w idstr = some t0)
    (hord : t0.m_for_yielded = false)
    (hcreate : w.timers.timers_map idstr = none →
      ∃ addr, env.new_timer = some addr ∧ env.coroutine_ok = true ∧ env.add_ok = true) :
    ∃ w1 calls timer t1,
      timers_set_grow env w argv0 = some (w1, true, calls) ∧
      w1.timers.timers_map idstr = some timer ∧
      w1.timer_objs timer = some t1 ∧
      t1.m_for_yielded = false ∧
      t1.m_interval = v ∧
      (act = TIMERS_STR_YES →
        t1.active = true ∧ t1.repeating = true ∧ timers_call.start timer ∈ calls) ∧
      (act ≠ TIMERS_STR_YES →
        timers_call.start timer ∉ calls ∧ t1.active = t0.active ∧
        t1.repeating = t0.repeating) ∧
      (w.timers.timers_map idstr = none → t0.active = false ∧ t0.repeating = false) := by
  have hyes : is_euqal (purc_variant_object_get_by_ckey argv0.object TIMERS_STR_ACTIVE)
      TIMERS_STR_YES = some (decide (act = TIMERS_STR_YES)) := by
    simp [hact, is_euqal, purc_variant_get_string_const]
  obtain ⟨w1, calls, timer, heq, hm, ho, hc⟩ :=
    timers_set_grow_facts env w argv0 idaddr idstr t0 (decide (act = TIMERS_STR_YES)) hs hreg
      hid hbefore hcreate hyes
  have hv64 : v % 2 ^ 64 = v := Nat.mod_eq_of_lt (by omega)
  have hv32 : v % 2 ^ 32 = v := Nat.mod_eq_of_lt hv
  have hcast : purc_variant_cast_to_ulongint
      (purc_variant_object_get_by_ckey argv0.object TIMERS_STR_INTERVAL) % 2 ^ 32 = v := by
    rw [hint]
    simp only [purc_variant_cast_to_ulongint]
    rw [hv64, hv32]
  rw [hcast] at ho
  refine ⟨w1, calls, timer, _, heq, hm, ho, ?_, ?_, ?_, ?_, ?_⟩
  · split <;> exact hord
  · split <;> rfl
  · intro hy
    simp only [hy, decide_True, if_true]
    exact ⟨trivial, trivial, hc.mpr (by simp [hy])⟩
  · intro hy
    simp only [hy, decide_False]
    refine ⟨?_, rfl, rfl⟩
    intro hmem
    have := hc.mp hmem
    simp [hy] at this
  · intro hnone
    simp [timer_before_grow, hnone] at hbefore
    subst hbefore
    exact ⟨rfl, rfl⟩

theorem timers_set_grow_creates_timer_witness :
    ∃ w1 calls timer t1,
      timers_set_grow sample_directory_env sample_directory sample_member
        = some (w1, true, calls) ∧
      w1.timers.timers_map "t1" = some timer ∧
      w1.timer_objs timer = some t1 ∧
      t1.m_for_yielded = false ∧
      t1.m_interval = 100 ∧
      ("yes" = TIMERS_STR_YES →
        t1.active = true ∧ t1.repeating = true ∧ timers_call.start timer ∈ calls) ∧
      ("yes" ≠ TIMERS_STR_YES →
        timers_call.start timer ∉ calls ∧
        t1.active = (⟨0, false, 0, false, false, true⟩ : PurcTimer).active ∧
        t1.repeating = (⟨0, false, 0, false, false, true⟩ : PurcTimer).repeating) ∧
      (sample_directory.timers.timers_map "t1" = none →
        (⟨0, false, 0, false, false, true⟩ : PurcTimer).active = false ∧
        (⟨0, false, 0, false, false, true⟩ : PurcTimer).repeating = false) :=
  timers_set_grow_creates_timer sample_directory_env sample_directory sample_member 11 "t1"
    100 12 "yes" ⟨0, false, 0, false, false, true⟩ rfl rfl rfl rfl (by decide) rfl rfl rfl
    (fun _ => ⟨5, rfl, rfl, rfl⟩)

theorem timers_scenario_add_t1 :
    (timers_set_grow sample_directory_env sample_directory sample_member).map
        (fun r => (r.2.1, r.2.2, r.1.timers.timers_map "t1", r.1.timer_objs 5))
      = some (true,
          [timers_call.create 5, timers_call.register_listener 10 5,
            timers_call.set_interval 5 100, timers_call.start 5],
          some 5, some ⟨0, false, 100, true, true, true⟩) := by
  rfl

theorem mod_2_32_eq_iff (v : Nat) : v % 2 ^ 32 = v ↔ v < 2 ^ 32 := by
  constructor
  · intro h
    rw [← h]
    exact Nat.mod_lt _ (by decide)
  · intro h
    exact Nat.mod_eq_of_lt h

theorem cast_ulongint_mod (v : Nat) (hv : v < 2 ^ 64) :
    purc_variant_cast_to_ulongint (some (purc_variant.ulongint v)) % 2 ^ 32 = v % 2 ^ 32 := by
  simp only [purc_variant_cast_to_ulongint]
  rw [Nat.mod_eq_of_lt hv]

/-- C28: for a member with a string `id`, an `interval` that is the unsigned 64-bit
value v and an `active` field that is a string when present, the addition of the
member (timers_set_grow, in a directory that holds a live timer for the id or
none, one being created then) and its displacement (timers_set_change and
timer_listener_handler, in a directory that holds a live timer for the id whose
interval fits 32 bits) return true and leave the interval of the timer equal to
v mod 2^32; the interval equals v exactly when v < 2^32. -/
theorem directory_interval_is_reduced_mod_2_32 (env : timers_env) (w0 w : timers_world)
    (old member : timer_var) (idaddr : Nat) (idstr : String) (t0 : PurcTimer) (timer : Nat)
    (t : PurcTimer) (v : Nat)
    (hs : env.stack_ok = true) (hreg : env.register_ok = true)
    (hid : purc_variant_object_get_by_ckey member.object TIMERS_STR_ID
      = some (purc_variant.string idaddr idstr))
    (hint : purc_variant_object_get_by_ckey member.object TIMERS_STR_INTERVAL
      = some (purc_variant.ulongint v))
    (hv : v < 2 ^ 64)
    (hact : ∀ x, purc_variant_object_get_by_ckey member.object TIMERS_STR_ACTIVE = some x →
      ∃ a str, x = purc_variant.string a str)
    (hbefore : timer_before_grow env w0 idstr = some t0)
    (hcreate : w0.timers.timers_map idstr = none →
      ∃ addr, env.new_timer = some addr ∧ env.coroutine_ok = true ∧ env.add_ok = true)
    (hmap : w.timers.timers_map idstr = some timer)
    (hlive : w.timer_objs timer = some t) (h32 : t.m_interval < 2 ^ 32) :
    (∃ w1 calls tm t1,
      timers_set_grow env w0 member = some (w1, true, calls) ∧
      w1.timers.timers_map idstr = some tm ∧ w1.timer_objs tm = some t1 ∧
      t1.m_interval = v % 2 ^ 32 ∧ (t1.m_interval = v ↔ v < 2 ^ 32)) ∧
    (∃ w1 calls t1,
      timers_set_change env w old member = some (w1, true, calls) ∧
      w1.timers.timers_map idstr = some timer ∧ w1.timer_objs timer = some t1 ∧
      t1.m_interval = v % 2 ^ 32 ∧ (t1.m_interval = v ↔ v < 2 ^ 32)) ∧
    (∃ w1 calls t1,
      timer_listener_handler w member timer = some (w1, true, calls) ∧
      w1.timers.timers_map idstr = some timer ∧ w1.timer_objs timer = some t1 ∧
      t1.m_interval = v % 2 ^ 32 ∧ (t1.m_interval = v ↔ v < 2 ^ 32)) := by
  have hcast := cast_ulongint_mod v hv
  refine ⟨?_, ?_, ?_⟩
  · have hyes : ∃ yes,
        is_euqal (purc_variant_object_get_by_ckey member.object TIMERS_STR_ACTIVE)
          TIMERS_STR_YES = some yes := by
      cases ha : purc_variant_object_get_by_ckey member.object TIMERS_STR_ACTIVE with
      | none => exact ⟨false, rfl⟩
      | some x =>
        obtain ⟨a, str, rfl⟩ := hact x ha
        exact ⟨decide (str = TIMERS_STR_YES), rfl⟩
    obtain ⟨yes, hyes⟩ := hyes
    obtain ⟨w1, calls, tm, heq, hm, ho, _⟩ :=
      timers_set_grow_facts env w0 member idaddr idstr t0 yes hs hreg hid hbefore hcreate hyes
    rw [hint, hcast] at ho
    have hi : (if yes = true then
          ({ t0 with m_interval := v % 2 ^ 32, active := true, repeating := true } : PurcTimer)
        else { t0 with m_interval := v % 2 ^ 32 }).m_interval = v % 2 ^ 32 := by
      split <;> rfl
    refine ⟨w1, calls, tm, _, heq, hm, ho, hi, ?_⟩
    rw [hi]
    exact mod_2_32_eq_iff v
  · have hget := get_inner_timer_found env w member (purc_variant.string idaddr idstr) idstr
      timer hs hid rfl hmap
    obtain ⟨hrm, _⟩ := listener_map_remove_listener_calls w.timers old.addr
    have hlive2 : ({ w with
        timers :=
          (listener_map_set_listener (listener_map_remove_listener w.timers old.addr).1
            member.addr ⟨member.addr, timer⟩).1 } : timers_world).timer_objs timer = some t :=
      hlive
    obtain ⟨w1, pre, hu, ht, ho, _, _⟩ := timer_update_facts _ timer t
      (purc_variant_object_get_by_ckey member.object TIMERS_STR_INTERVAL)
      (purc_variant_object_get_by_ckey member.object TIMERS_STR_ACTIVE) hlive2 h32 hact
    rw [hint] at ho
    simp only [hcast] at ho
    have hi : (timer_after_activity { t with m_interval := v % 2 ^ 32 }
        (next_activity t (purc_variant_object_get_by_ckey member.object TIMERS_STR_ACTIVE))
        ).m_interval = v % 2 ^ 32 := by
      unfold timer_after_activity
      split <;> rfl
    simp only [timers_set_change, hget, purc_variant_register_post_listener, hreg, if_true,
      hu]
    refine ⟨w1, _, _, rfl, ?_, ?_, hi, ?_⟩
    · rw [ht]
      simp only []
      rw [listener_map_set_listener_timers_map, hrm]
      exact hmap
    · rw [ho]
      simp
    · rw [hi]
      exact mod_2_32_eq_iff v
  · obtain ⟨w1, pre, hu, ht, ho, _, _⟩ := timer_update_facts w timer t
      (purc_variant_object_get_by_ckey member.object TIMERS_STR_INTERVAL)
      (purc_variant_object_get_by_ckey member.object TIMERS_STR_ACTIVE) hlive h32 hact
    rw [hint] at ho
    simp only [hcast] at ho
    have hi : (timer_after_activity { t with m_interval := v % 2 ^ 32 }
        (next_activity t (purc_variant_object_get_by_ckey member.object TIMERS_STR_ACTIVE))
        ).m_interval = v % 2 ^ 32 := by
      unfold timer_after_activity
      split <;> rfl
    simp only [timer_listener_handler, hu]
    refine ⟨w1, _, _, rfl, ?_, ?_, hi, ?_⟩
    · rw [ht]
      exact hmap
    · rw [ho]
      simp
    · rw [hi]
      exact mod_2_32_eq_iff v

theorem directory_interval_is_reduced_mod_2_32_witness :
    (∃ w1 calls tm t1,
      timers_set_grow sample_directory_env sample_directory sample_member_long
        = some (w1, true, calls) ∧
      w1.timers.timers_map "t1" = some tm ∧ w1.timer_objs tm = some t1 ∧
      t1.m_interval = (2 ^ 32 + 7) % 2 ^ 32 ∧ (t1.m_interval = 2 ^ 32 + 7 ↔ 2 ^ 32 + 7 < 2 ^ 32)) ∧
    (∃ w1 calls t1,
      timers_set_change sample_directory_env
          (sample_directory_t1 ⟨0, false, 100, true, true, true⟩) sample_member
          sample_member_long
        = some (w1, true, calls) ∧
      w1.timers.timers_map "t1" = some 5 ∧ w1.timer_objs 5 = some t1 ∧
      t1.m_interval = (2 ^ 32 + 7) % 2 ^ 32 ∧ (t1.m_interval = 2 ^ 32 + 7 ↔ 2 ^ 32 + 7 < 2 ^ 32)) ∧
    (∃ w1 calls t1,
      timer_listener_handler (sample_directory_t1 ⟨0, false, 100, true, true, true⟩)
          sample_member_long 5
        = some (w1, true, calls) ∧
      w1.timers.timers_map "t1" = some 5 ∧ w1.timer_objs 5 = some t1 ∧
      t1.m_interval = (2 ^ 32 + 7) % 2 ^ 32 ∧
      (t1.m_interval = 2 ^ 32 + 7 ↔ 2 ^ 32 + 7 < 2 ^ 32)) :=
  directory_interval_is_reduced_mod_2_32 sample_directory_env sample_directory
    (sample_directory_t1 ⟨0, false, 100, true, true, true⟩) sample_member sample_member_long
    21 "t1" ⟨0, false, 0, false, false, true⟩ 5 ⟨0, false, 100, true, true, true⟩ (2 ^ 32 + 7)
    rfl rfl rfl rfl (by decide) (fun x h => by simp [sample_member_long,
      purc_variant_object_get_by_ckey, TIMERS_STR_ACTIVE] at h) rfl
    (fun _ => ⟨5, rfl, rfl, rfl⟩) rfl rfl (by decide)

theorem timers_scenario_long_interval :
    (timers_set_change sample_directory_env
        (sample_directory_t1 ⟨0, false, 100, true, true, true⟩) sample_member
        sample_member_long).map
        (fun r => (r.2.1, r.2.2, r.1.timers.timers_map "t1", r.1.timer_objs 5))
      = some (true,
          [timers_call.revoke_listener 10 5, timers_call.register_listener 20 5,
            timers_call.set_interval 5 7, timers_call.start 5],
          some 5, some ⟨0, false, 7, true, true, true⟩) := by
  rfl

theorem timers_set_shrink_assertion (w : timers_world) (argv0 : timer_var) (idaddr : Nat)
    (idstr : String) (timer : Nat) (t : PurcTimer)
    (hid : purc_variant_object_get_by_ckey argv0.object TIMERS_STR_ID
      = some (purc_variant.string idaddr idstr))
    (hmap : w.timers.timers_map idstr = some timer)
    (hlive : w.timer_objs timer = some t) :
    (t.m_fired ≠ 0 → timers_set_shrink w argv0 = none) ∧
    (t.m_fired = 0 →
      ∃ w1 calls,
        timers_set_shrink w argv0 = some (w1, true, calls) ∧
        w1.timers.timers_map = Function.update w.timers.timers_map idstr none ∧
        w1.timer_objs = Function.update w.timer_objs timer none ∧
        w1.timers.listener_map argv0.addr = none ∧
        timers_call.stop timer ∈ calls ∧ timers_call.destroy timer ∈ calls ∧
        (∀ l, w.timers.listener_map argv0.addr = some l →
          timers_call.revoke_listener argv0.addr l.ctxt ∈ calls)) := by
  constructor
  · intro hf
    cases hl : w.timers.listener_map argv0.addr <;>
      simp [timers_set_shrink, destroy_inner_timer, hid, purc_variant_get_string_const,
        find_timer, listener_map_remove_listener, hl, hmap, remove_timer,
        pcintr_timer_destroy, hlive, hf]
  · intro hf
    cases hl : w.timers.listener_map argv0.addr with
    | none =>
      simp only [timers_set_shrink, destroy_inner_timer, hid, purc_variant_get_string_const,
        find_timer, listener_map_remove_listener, hl, hmap, remove_timer,
        pcintr_timer_destroy, hlive, hf]
      refine ⟨_, _, rfl, rfl, rfl, ?_, ?_, ?_, ?_⟩
      · exact hl
      · simp
      · simp
      · intro l h
        simp at h
    | some l0 =>
      simp only [timers_set_shrink, destroy_inner_timer, hid, purc_variant_get_string_const,
        find_timer, listener_map_remove_listener, hl, hmap, remove_timer,
        pcintr_timer_destroy, hlive, hf]
      refine ⟨_, _, rfl, rfl, rfl, ?_, ?_, ?_, ?_⟩
      · simp
      · simp
      · simp
      · intro l h
        simp at h
        subst h
        simp

/-- C22: an ordinary started timer bound to a waiting coroutine has, after it
fired, one fire in flight; in the directory that maps `t1` to a timer in that
state, timers_set_shrink for the member `t1` does not return, because the
destructor of the timer finds its assertion `m_fired == 0` violated; with no fire
in flight the same call returns true, revokes the listener, stops and destroys
the timer and leaves the directory with no timer for `t1`. -/
theorem timers_set_shrink_with_fire_in_flight :
    (PurcTimer.fired sample_timer_env sample_timer_world).map (fun r => r.1.timer)
      = some ⟨1, false, 100, true, true, true⟩ ∧
    (timers_set_shrink (sample_directory_t1 ⟨1, false, 100, true, true, true⟩)
      sample_member).isNone = true ∧
    (timers_set_shrink (sample_directory_t1 ⟨0, false, 100, true, true, true⟩)
        sample_member).map
        (fun r => (r.2.1, r.2.2, r.1.timers.timers_map "t1", r.1.timer_objs 5))
      = some (true,
          [timers_call.revoke_listener 10 5, timers_call.stop 5, timers_call.destroy 5],
          none, none) := by
  exact ⟨rfl, rfl, rfl⟩

/-! ## An `active` field that is not a string -/

/-- C21: for the member with id "t1", interval 100 and an `active` field that is
the boolean true, purc_variant_get_string_const yields no characters, is_euqal
hands that null pointer to strcmp, and timers_set_grow on the empty directory
does not return; with the string "no" in the field the same call returns true
with the timer created, its interval 100, and not started. -/
theorem timers_set_grow_aborts_on_non_string_active :
    purc_variant_object_get_by_ckey sample_member_flag.object TIMERS_STR_ACTIVE
      = some (purc_variant.boolean true) ∧
    purc_variant_get_string_const (purc_variant.boolean true) = none ∧
    is_euqal (some (purc_variant.boolean true)) TIMERS_STR_YES = none ∧
    (timers_set_grow sample_directory_env sample_directory sample_member_flag).isNone = true ∧
    (timers_set_grow sample_directory_env sample_directory
        ⟨40, [("id", purc_variant.string 41 "t1"), ("interval", purc_variant.ulongint 100),
          ("active", purc_variant.string 42 "no")]⟩).map
        (fun r => (r.2.1, r.2.2, r.1.timers.timers_map "t1", r.1.timer_objs 5))
      = some (true,
          [timers_call.create 5, timers_call.register_listener 40 5,
            timers_call.set_interval 5 100],
          some 5, some ⟨0, false, 100, false, false, true⟩) := by
  exact ⟨rfl, rfl, rfl, rfl, rfl⟩

/-- C23: in the directory that maps "t1" to an active timer, for the displacing
member with id "t1", interval 250 and an `active` field that is the boolean
false, a value present and other than "yes", timers_set_change does not return
and so does not stop the timer: is_euqal hands strcmp the null pointer that
purc_variant_get_string_const yields for a variant that is not a string; the
listener of the member fails the same way; with the string "no" in the field
the timer is stopped after its interval was set. -/
theorem timers_set_change_aborts_on_non_string_active :
    purc_variant_object_get_by_ckey sample_member_off.object TIMERS_STR_ACTIVE
      = some (purc_variant.boolean false) ∧
    is_euqal (some (purc_variant.boolean false)) TIMERS_STR_YES = none ∧
    (timers_set_change sample_directory_env
      (sample_directory_t1 ⟨0, false, 100, true, true, true⟩) sample_member
      sample_member_off).isNone = true ∧
    (timer_listener_handler (sample_directory_t1 ⟨0, false, 100, true, true, true⟩)
      sample_member_off 5).isNone = true ∧
    (timers_set_change sample_directory_env
        (sample_directory_t1 ⟨0, false, 100, true, true, true⟩) sample_member
        sample_member_slow).map
        (fun r => (r.2.1, r.2.2, r.1.timers.timers_map "t1", r.1.timer_objs 5))
      = some (true,
          [timers_call.revoke_listener 10 5, timers_call.register_listener 30 5,
            timers_call.set_interval 5 250, timers_call.stop 5],
          some 5, some ⟨0, false, 250, false, true, true⟩) := by
  exact ⟨rfl, rfl, rfl, rfl, rfl⟩

end PurC
